import Mathlib

/-!
# Photosyntech: flyweight cache, inventory singleton and living plants

A shallow embedding of `flyweight/FlyweightFactory.cpp`, `flyweight/Flyweight.cpp`,
`singleton/Singleton.cpp` and `prototype/LivingPlant.cpp`.

Conventions of the embedding:

* An object created by `new` is a record carrying the address it was given; pointer
  equality of the C++ code is equality of addresses.  `Heap.next` is the first address
  that was never handed out, so every `new` yields an address no live object has.
* A pointer that may be `NULL` is an `Option`.
* Objects that the code never compares by address (the strategy and growth state
  objects, the root group) are values or bare addresses; memory that is freed is not
  tracked.
* Classes whose sources are absent (`strategy/`, `state/`, `decorator/`,
  `composite/`) are modelled from the spec and marked so; the values of the tier
  identifiers `getID()` are a parameter, `TierIDs`.
* A C++ `throw "..."` is `Except.error "..."`; state is passed explicitly.
* C++ `int` is `Int`: signed overflow is undefined in C++ and is outside the model.
-/

namespace Photosyntech

/-! ## The free store -/

/-- Address of an object created by `new`. -/
abbrev Addr := Nat

/-- The free store as far as object identity goes: `next` is the first address that was
never handed out. -/
structure Heap where
  next : Addr
deriving DecidableEq, Repr

/-- The expression `new X(...)`: the address of the new object and the store afterwards. -/
def Heap.alloc (h : Heap) : Addr × Heap :=
  (h.next, { next := h.next + 1 })

/-! ## Flyweight.cpp -/

/-- The class `Flyweight<T>`: the object at `addr` holding the pointer `data`. -/
structure Flyweight (T : Type) where
  addr : Addr
  data : Option T
deriving DecidableEq, Repr

/-- The constructor `Flyweight<T>::Flyweight(T* data)`, run by `new` at address `a`. -/
def Flyweight.mk_at {T : Type} (a : Addr) (data : Option T) : Flyweight T :=
  { addr := a, data := data }

/-- The method `Flyweight<T>::getState`. -/
def Flyweight.getState {T : Type} (fly : Flyweight T) : Option T :=
  fly.data

/-! ## FlyweightFactory.cpp -/

/-- The call `cache->find(id)` on the `unordered_map`: the entry stored under `id`, if any. -/
def findEntry {ID V : Type} [DecidableEq ID] : List (ID × V) → ID → Option V
  | [], _ => none
  | (k, v) :: rest, id => if k = id then some v else findEntry rest id

/-- The class `FlyweightFactory<ID, T>`: its `cache`, an `unordered_map` from identifiers
to flyweight pointers, kept as the list of its entries, newest first. -/
structure FlyweightFactory (ID T : Type) where
  cache : List (ID × Flyweight T)
deriving DecidableEq, Repr

namespace FlyweightFactory

variable {ID T : Type} [DecidableEq ID]

/-- The constructor `FlyweightFactory<ID, T>::FlyweightFactory`: an empty cache. -/
def new : FlyweightFactory ID T :=
  { cache := [] }

/-- The keys of the cache. -/
def keys (f : FlyweightFactory ID T) : List ID :=
  f.cache.map Prod.fst

/-- The method `FlyweightFactory<ID, T>::getFlyweight(ID id, T* data = NULL)`
(FlyweightFactory.cpp, lines 8-32).  Returns what the call returns or throws, the factory
and the free store afterwards. -/
def getFlyweight (f : FlyweightFactory ID T) (h : Heap) (id : ID) (data : Option T) :
    Except String (Flyweight T) × FlyweightFactory ID T × Heap :=
  match findEntry f.cache id with
  | some fly => (Except.ok fly, f, h)
  | none =>
    match data with
    | none => (Except.error "Data given for flyweight is NULL", f, h)
    | some d =>
      let (a, h') := h.alloc
      let fly := Flyweight.mk_at a (some d)
      (Except.ok fly, { cache := (id, fly) :: f.cache }, h')

/-- A sequence of `getFlyweight` calls, each on the state the previous one left. -/
def runCalls : List (ID × Option T) → FlyweightFactory ID T × Heap → FlyweightFactory ID T × Heap
  | [], s => s
  | (id, data) :: rest, s => runCalls rest (getFlyweight s.1 s.2 id data).2

/-- The states a factory can be in: it starts empty, changes through `getFlyweight`
only, and other code may allocate in between. -/
inductive Reachable : FlyweightFactory ID T → Heap → Prop
  | ctor (h : Heap) : Reachable new h
  | call (f : FlyweightFactory ID T) (h : Heap) (id : ID) (data : Option T) :
      Reachable f h → Reachable (getFlyweight f h id data).2.1 (getFlyweight f h id data).2.2
  | other (f : FlyweightFactory ID T) (h : Heap) (n : Nat) :
      Reachable f h → Reachable f { next := h.next + n }

/-- Every flyweight of the cache lies below the allocation mark, and no two entries share
an address. -/
def Fresh (f : FlyweightFactory ID T) (h : Heap) : Prop :=
  (∀ e ∈ f.cache, e.2.addr < h.next) ∧ f.cache.Pairwise (fun a b => a.2.addr ≠ b.2.addr)

end FlyweightFactory


/-! ## Classes whose headers are not among the sources -/

/-- Modelled from the spec: the hydration strategy classes of `strategy/*.h`, which are
not among the sources.  The spec (section 4.2) has four tiers per resource, low, mid, high
and alternating; `Singleton.cpp` names them `LowWater`, `MidWater`, `HighWater` and
`AlternatingWater`.  A value of this type is the object `new LowWater()` and so on. -/
inductive WaterStrategy where
  | LowWater
  | MidWater
  | HighWater
  | AlternatingWater
deriving DecidableEq, Repr

/-- Modelled from the spec: the light strategy classes of `strategy/*.h` (section 4.2),
named `LowSun`, `MidSun`, `HighSun` and `AlternatingSun` in `Singleton.cpp`. -/
inductive SunStrategy where
  | LowSun
  | MidSun
  | HighSun
  | AlternatingSun
deriving DecidableEq, Repr

/-- Modelled from the spec: the growth state classes of `state/*.h` (section 4.3), named
`Seed`, `Vegetative`, `Mature` and `Dead` in `Singleton.cpp`. -/
inductive MaturityState where
  | Seed
  | Vegetative
  | Mature
  | Dead
deriving DecidableEq, Repr

/-- The values of the static `getID()` functions of the twelve tier classes.  Their
headers are not among the sources, so the values are a parameter of the embedding. -/
structure TierIDs where
  lowWater : Int
  midWater : Int
  highWater : Int
  alternatingWater : Int
  lowSun : Int
  midSun : Int
  highSun : Int
  alternatingSun : Int
  seed : Int
  vegetative : Int
  mature : Int
  dead : Int
deriving DecidableEq, Repr

/-- A `std::string` created by `new string(str)`: its address and its characters. -/
structure HeapString where
  addr : Addr
  val : String
deriving DecidableEq, Repr

/-- A `std::thread` object created by `new thread(...)`. -/
structure Thread where
  addr : Addr
  joinable : Bool
deriving DecidableEq, Repr

/-! ## Singleton.cpp -/

/-- The class `Inventory` (Singleton.h, lines 68-88), non-static members.  `addr` is
the address of the object; `inventory` is the pointer to the root `PlantGroup`;
`staffList` and `customerList` hold pointers. -/
structure Inventory where
  addr : Addr
  inventory : Addr
  stringFactory : FlyweightFactory String HeapString
  waterStrategies : FlyweightFactory Int WaterStrategy
  sunStrategies : FlyweightFactory Int SunStrategy
  states : FlyweightFactory Int MaturityState
  staffList : List (Option Addr)
  customerList : List (Option Addr)
deriving DecidableEq, Repr

/-- The state of the process that `Singleton.cpp` works on: the free store, the static
members `Inventory::instance` (here `inst`), `Inventory::TickerThread` and
`Inventory::on` (here `onFlag`), and `drivers`, the threads of execution that were launched to run
`Inventory::TickInventory` and have not been joined. -/
structure World where
  heap : Heap
  inst : Option Inventory
  TickerThread : Option Thread
  onFlag : Bool
  drivers : List Addr
deriving DecidableEq, Repr

/-- The static initialisers of Singleton.cpp, lines 8-10, on a free store whose first
unused address is `n`. -/
def World.init (n : Addr) : World :=
  { heap := { next := n }, inst := none, TickerThread := none, onFlag := false, drivers := [] }

/-- The constructor `Inventory::Inventory` (Singleton.cpp, lines 12-40), run by
`new Inventory()` at address `a`. -/
def Inventory.ctor (ids : TierIDs) (a : Addr) (w : World) : Inventory × World :=
  let g := w.heap.alloc
  let w1 := (FlyweightFactory.new : FlyweightFactory Int WaterStrategy).getFlyweight g.2
    ids.lowWater (some WaterStrategy.LowWater)
  let w2 := w1.2.1.getFlyweight w1.2.2 ids.midWater (some WaterStrategy.MidWater)
  let w3 := w2.2.1.getFlyweight w2.2.2 ids.highWater (some WaterStrategy.HighWater)
  let w4 := w3.2.1.getFlyweight w3.2.2 ids.alternatingWater
    (some WaterStrategy.AlternatingWater)
  let s1 := (FlyweightFactory.new : FlyweightFactory Int SunStrategy).getFlyweight w4.2.2
    ids.lowSun (some SunStrategy.LowSun)
  let s2 := s1.2.1.getFlyweight s1.2.2 ids.midSun (some SunStrategy.MidSun)
  let s3 := s2.2.1.getFlyweight s2.2.2 ids.highSun (some SunStrategy.HighSun)
  let s4 := s3.2.1.getFlyweight s3.2.2 ids.alternatingSun (some SunStrategy.AlternatingSun)
  let m1 := (FlyweightFactory.new : FlyweightFactory Int MaturityState).getFlyweight s4.2.2
    ids.seed (some MaturityState.Seed)
  let m2 := m1.2.1.getFlyweight m1.2.2 ids.vegetative (some MaturityState.Vegetative)
  let m3 := m2.2.1.getFlyweight m2.2.2 ids.mature (some MaturityState.Mature)
  let m4 := m3.2.1.getFlyweight m3.2.2 ids.dead (some MaturityState.Dead)
  ({ addr := a,
     inventory := g.1,
     stringFactory := FlyweightFactory.new,
     waterStrategies := w4.2.1,
     sunStrategies := s4.2.1,
     states := m4.2.1,
     staffList := [],
     customerList := [] },
   { w with heap := m4.2.2, onFlag := false })

/-- The function `Inventory::getInstance` (Singleton.cpp, lines 77-85): the object
`instance` points to on return, and the state afterwards. -/
def World.getInstance (ids : TierIDs) (w : World) : Inventory × World :=
  match w.inst with
  | some inv => (inv, w)
  | none =>
    let g := w.heap.alloc
    let r := Inventory.ctor ids g.1 { w with heap := g.2 }
    (r.1, { r.2 with inst := some r.1 })

/-- The method `Inventory::getString` (Singleton.cpp, lines 87-96).  The `delete` of
the unused copy frees memory only and has no counterpart here. -/
def Inventory.getString (inv : Inventory) (h : Heap) (str : String) :
    Except String (Flyweight HeapString) × Inventory × Heap :=
  let g := h.alloc
  let flyweightData : HeapString := { addr := g.1, val := str }
  let r := inv.stringFactory.getFlyweight g.2 flyweightData.val (some flyweightData)
  (r.1, { inv with stringFactory := r.2.1 }, r.2.2)

/-- The method `Inventory::getWaterFly` (Singleton.cpp, lines 97-109).  The message
written to `std::cerr` in the handler is not part of the state. -/
def Inventory.getWaterFly (ids : TierIDs) (inv : Inventory) (h : Heap) (id : Int) :
    Except String (Flyweight WaterStrategy) × Inventory × Heap :=
  let r := inv.waterStrategies.getFlyweight h id none
  match r.1 with
  | Except.ok fly => (Except.ok fly, { inv with waterStrategies := r.2.1 }, r.2.2)
  | Except.error _ =>
    let r2 := r.2.1.getFlyweight r.2.2 ids.lowWater none
    (r2.1, { inv with waterStrategies := r2.2.1 }, r2.2.2)

/-- The method `Inventory::getStates` (Singleton.cpp, lines 110-121). -/
def Inventory.getStates (ids : TierIDs) (inv : Inventory) (h : Heap) (id : Int) :
    Except String (Flyweight MaturityState) × Inventory × Heap :=
  let r := inv.states.getFlyweight h id none
  match r.1 with
  | Except.ok fly => (Except.ok fly, { inv with states := r.2.1 }, r.2.2)
  | Except.error _ =>
    let r2 := r.2.1.getFlyweight r.2.2 ids.seed none
    (r2.1, { inv with states := r2.2.1 }, r2.2.2)

/-- The method `Inventory::getSunFly` (Singleton.cpp, lines 123-134). -/
def Inventory.getSunFly (ids : TierIDs) (inv : Inventory) (h : Heap) (id : Int) :
    Except String (Flyweight SunStrategy) × Inventory × Heap :=
  let r := inv.sunStrategies.getFlyweight h id none
  match r.1 with
  | Except.ok fly => (Except.ok fly, { inv with sunStrategies := r.2.1 }, r.2.2)
  | Except.error _ =>
    let r2 := r.2.1.getFlyweight r.2.2 ids.lowSun none
    (r2.1, { inv with sunStrategies := r2.2.1 }, r2.2.2)

/-- The method `Inventory::addStaff` (Singleton.cpp, lines 150-153). -/
def Inventory.addStaff (inv : Inventory) (staff : Option Addr) : Inventory :=
  { inv with staffList := inv.staffList ++ [staff] }

/-- The method `Inventory::addCustomer` (Singleton.cpp, lines 154-157). -/
def Inventory.addCustomer (inv : Inventory) (customer : Option Addr) : Inventory :=
  { inv with customerList := inv.customerList ++ [customer] }

/-- The static function `Inventory::startTicker` (Singleton.cpp, lines 158-172): the
value returned and the state afterwards. -/
def World.startTicker (ids : TierIDs) (w : World) : Bool × World :=
  let w1 := (World.getInstance ids w).2
  if w1.onFlag = false then
    match w1.TickerThread with
    | none =>
      let g := w1.heap.alloc
      (true, { w1 with heap := g.2, onFlag := true,
                       TickerThread := some { addr := g.1, joinable := true },
                       drivers := g.1 :: w1.drivers })
    | some _ => (true, { w1 with onFlag := true })
  else
    (false, w1)

/-- The static function `Inventory::stopTicker` (Singleton.cpp, lines 173-193).  In the
first branch the thread is joined, deleted and the pointer cleared; in the second the
thread object is deleted and the pointer keeps its value. -/
def World.stopTicker (w : World) : Bool × World :=
  if w.onFlag = true then
    match w.TickerThread with
    | some t =>
      if t.joinable = true then
        (true, { w with onFlag := false, TickerThread := none, drivers := w.drivers.erase t.addr })
      else
        (true, { w with onFlag := false })
    | none => (true, { w with onFlag := false })
  else
    (false, w)

/-- The destructor `Inventory::~Inventory` (Singleton.cpp, lines 41-76), run by `delete`
on the pointer `instance` holds; `delete` of a null pointer does nothing.  The objects the
destructor frees are not kept in the state, so of its effects the call of `stopTicker`
and the clearing of `instance` remain. -/
def World.destroy (w : World) : World :=
  match w.inst with
  | none => w
  | some _ => { (World.stopTicker w).2 with inst := none }

/-- The call `Inventory::getInstance()->getString(str)`. -/
def World.getString (ids : TierIDs) (w : World) (str : String) :
    Except String (Flyweight HeapString) × World :=
  let g := World.getInstance ids w
  let r := g.1.getString g.2.heap str
  (r.1, { g.2 with inst := some r.2.1, heap := r.2.2 })

/-- The call `Inventory::getInstance()->getWaterFly(id)`. -/
def World.getWaterFly (ids : TierIDs) (w : World) (id : Int) :
    Except String (Flyweight WaterStrategy) × World :=
  let g := World.getInstance ids w
  let r := g.1.getWaterFly ids g.2.heap id
  (r.1, { g.2 with inst := some r.2.1, heap := r.2.2 })

/-- The call `Inventory::getInstance()->getSunFly(id)`. -/
def World.getSunFly (ids : TierIDs) (w : World) (id : Int) :
    Except String (Flyweight SunStrategy) × World :=
  let g := World.getInstance ids w
  let r := g.1.getSunFly ids g.2.heap id
  (r.1, { g.2 with inst := some r.2.1, heap := r.2.2 })

/-- The call `Inventory::getInstance()->getStates(id)`. -/
def World.getStates (ids : TierIDs) (w : World) (id : Int) :
    Except String (Flyweight MaturityState) × World :=
  let g := World.getInstance ids w
  let r := g.1.getStates ids g.2.heap id
  (r.1, { g.2 with inst := some r.2.1, heap := r.2.2 })

/-- The calls a sequential client can make on the singleton. -/
inductive Call where
  | getInstance
  | destroy
  | startTicker
  | stopTicker
  | getString (str : String)
  | getWaterFly (id : Int)
  | getSunFly (id : Int)
  | getStates (id : Int)
  | addStaff (staff : Option Addr)
  | addCustomer (customer : Option Addr)
  | allocate (n : Nat)
deriving DecidableEq, Repr

/-- The state after one call; `allocate n` stands for `n` objects created by code
outside the singleton. -/
def World.step (ids : TierIDs) (w : World) : Call → World
  | Call.getInstance => (World.getInstance ids w).2
  | Call.destroy => World.destroy w
  | Call.startTicker => (World.startTicker ids w).2
  | Call.stopTicker => (World.stopTicker w).2
  | Call.getString str => (World.getString ids w str).2
  | Call.getWaterFly id => (World.getWaterFly ids w id).2
  | Call.getSunFly id => (World.getSunFly ids w id).2
  | Call.getStates id => (World.getStates ids w id).2
  | Call.addStaff staff =>
    let g := World.getInstance ids w
    { g.2 with inst := some (g.1.addStaff staff) }
  | Call.addCustomer customer =>
    let g := World.getInstance ids w
    { g.2 with inst := some (g.1.addCustomer customer) }
  | Call.allocate n => { w with heap := { next := w.heap.next + n } }

/-- The state after a sequence of calls. -/
def World.run (ids : TierIDs) : World → List Call → World
  | w, [] => w
  | w, c :: rest => World.run ids (World.step ids w c) rest

/-- The states a sequential client can bring the process to, from program start. -/
def World.Reachable (ids : TierIDs) (w : World) : Prop :=
  ∃ (n : Addr) (calls : List Call), w = World.run ids (World.init n) calls

/-- What holds of every state a sequential client can reach: without an instance the
flag is clear; the flag is set exactly when a thread object exists, which is then joinable
and is the one driver that runs; and the strategy and state caches of the instance are
those its constructor built. -/
structure World.Sound (ids : TierIDs) (w : World) : Prop where
  stopped : w.inst = none → w.onFlag = false
  driver : (w.onFlag = false ∧ w.TickerThread = none ∧ w.drivers = []) ∨
    (w.onFlag = true ∧
      ∃ a : Addr, w.TickerThread = some { addr := a, joinable := true } ∧ w.drivers = [a])
  tiers : ∀ inv : Inventory, w.inst = some inv →
    ∃ (a : Addr) (w0 : World),
      inv.waterStrategies = (Inventory.ctor ids a w0).1.waterStrategies ∧
      inv.sunStrategies = (Inventory.ctor ids a w0).1.sunStrategies ∧
      inv.states = (Inventory.ctor ids a w0).1.states

/-! ## LivingPlant.cpp -/

/-- Modelled from the spec: the modifier chain an entity may hold (the decorator classes
and `composite/PlantComponent.h` are not among the sources).  Section 6: an optional
external object implementing `EffectivePrice()`, `EffectiveHydrationAffect()` and
`EffectiveLightAffect()`, which `LivingPlant.cpp` calls as `getPrice()`, `affectWater()`
and `affectSunlight()`.  A value records the address of the head of the chain and what
the three accessors return. -/
structure ModifierChain where
  addr : Addr
  getPrice : Rat
  affectWater : Int
  affectSunlight : Int
deriving DecidableEq, Repr

/-- The class `LivingPlant` (LivingPlant.h, lines 56-77) together with the members
`price`, `affectWaterValue` and `affectSunValue` it inherits from `PlantComponent`. -/
structure LivingPlant where
  price : Rat
  affectWaterValue : Int
  affectSunValue : Int
  name : Option (Flyweight HeapString)
  decorator : Option ModifierChain
  age : Int
  health : Int
  waterLevel : Int
  sunExposure : Int
  season : Option (Flyweight HeapString)
  maturityState : Option (Flyweight MaturityState)
  waterStrategy : Option (Flyweight WaterStrategy)
  sunStrategy : Option (Flyweight SunStrategy)
deriving DecidableEq, Repr

/-- Modelled from the spec: what the strategy and growth state objects compute
(`strategy/*.cpp` and `state/*.cpp` are not among the sources).  Section 4.2: a strategy
"computes a non-negative integer amount to add to the entity's corresponding level, using
only the entity's current metrics as input"; section 4.3: a growth state carries the
per-call transition logic `grow`.  The spec fixes magnitudes for its test fixture only,
so the functions are fields.  The alternation state of the alternating tiers is not
represented. -/
structure Behaviour where
  waterAmount : WaterStrategy → LivingPlant → Nat
  sunAmount : SunStrategy → LivingPlant → Nat
  grow : MaturityState → LivingPlant → LivingPlant

/-- Modelled from the spec: `WaterStrategy::water(LivingPlant*)`, absent from the
sources.  Section 4.4: the computed delta is added to the hydration level; the tests read
the delta as the value returned. -/
def WaterStrategy.water (b : Behaviour) (s : WaterStrategy) (plant : LivingPlant) :
    Int × LivingPlant :=
  let amount : Int := b.waterAmount s plant
  (amount, { plant with waterLevel := plant.waterLevel + amount })

/-- Modelled from the spec: `SunStrategy::addSun(LivingPlant*)`, absent from the
sources; symmetric to `WaterStrategy.water` for the light level. -/
def SunStrategy.addSun (b : Behaviour) (s : SunStrategy) (plant : LivingPlant) :
    Int × LivingPlant :=
  let amount : Int := b.sunAmount s plant
  (amount, { plant with sunExposure := plant.sunExposure + amount })

namespace LivingPlant

/-- The constructor `LivingPlant::LivingPlant(std::string, double, int, int)`
(LivingPlant.cpp, lines 11-24).  The base class constructor
`PlantComponent(price, waterAffect, sunAffect)` stores its arguments in `price`,
`affectWaterValue` and `affectSunValue`. -/
def ctor (ids : TierIDs) (w : World) (name : String) (price : Rat)
    (waterAffect sunAffect : Int) : Except String LivingPlant × World :=
  let r := World.getString ids w name
  match r.1 with
  | Except.error e => (Except.error e, r.2)
  | Except.ok fly =>
    (Except.ok
      { price := price,
        affectWaterValue := waterAffect,
        affectSunValue := sunAffect,
        name := some fly,
        decorator := none,
        age := 0,
        health := 0,
        waterLevel := 0,
        sunExposure := 0,
        season := none,
        maturityState := none,
        waterStrategy := none,
        sunStrategy := none },
     r.2)

/-- The constructor `Tree::Tree()` (LivingPlant.cpp, lines 274-275). -/
def treeCtor (ids : TierIDs) (w : World) : Except String LivingPlant × World :=
  ctor ids w "Tree" 150 5 5

/-- The method `LivingPlant::setAge`. -/
def setAge (p : LivingPlant) (age : Int) : LivingPlant :=
  { p with age := age }

/-- The method `LivingPlant::setHealth`. -/
def setHealth (p : LivingPlant) (health : Int) : LivingPlant :=
  { p with health := health }

/-- The method `LivingPlant::setWaterLevel` (LivingPlant.cpp, lines 51-54). -/
def setWaterLevel (p : LivingPlant) (waterLevel : Int) : LivingPlant :=
  { p with waterLevel := waterLevel }

/-- The method `LivingPlant::setSunExposure` (LivingPlant.cpp, lines 56-59). -/
def setSunExposure (p : LivingPlant) (sunExposure : Int) : LivingPlant :=
  { p with sunExposure := sunExposure }

/-- The method `LivingPlant::setWaterStrategy` (LivingPlant.cpp, lines 61-68). -/
def setWaterStrategy (ids : TierIDs) (p : LivingPlant) (w : World) (strategy : Int) :
    Except String LivingPlant × World :=
  let r := World.getWaterFly ids w strategy
  match r.1 with
  | Except.ok newStrategy => (Except.ok { p with waterStrategy := some newStrategy }, r.2)
  | Except.error e => (Except.error e, r.2)

/-- The method `LivingPlant::setSunStrategy` (LivingPlant.cpp, lines 70-77). -/
def setSunStrategy (ids : TierIDs) (p : LivingPlant) (w : World) (strategy : Int) :
    Except String LivingPlant × World :=
  let r := World.getSunFly ids w strategy
  match r.1 with
  | Except.ok newStrategy => (Except.ok { p with sunStrategy := some newStrategy }, r.2)
  | Except.error e => (Except.error e, r.2)

/-- The method `LivingPlant::setMaturity` (LivingPlant.cpp, lines 79-86). -/
def setMaturity (ids : TierIDs) (p : LivingPlant) (w : World) (state : Int) :
    Except String LivingPlant × World :=
  let r := World.getStates ids w state
  match r.1 with
  | Except.ok newState => (Except.ok { p with maturityState := some newState }, r.2)
  | Except.error e => (Except.error e, r.2)

/-- The method `LivingPlant::getWaterLevel`. -/
def getWaterLevel (p : LivingPlant) : Int :=
  p.waterLevel

/-- The method `LivingPlant::getSunExposure`. -/
def getSunExposure (p : LivingPlant) : Int :=
  p.sunExposure

/-- The method `LivingPlant::affectWater` (LivingPlant.cpp, lines 177-180). -/
def affectWater (p : LivingPlant) : Int :=
  p.affectWaterValue

/-- The method `LivingPlant::affectSunlight` (LivingPlant.cpp, lines 182-185). -/
def affectSunlight (p : LivingPlant) : Int :=
  p.affectSunValue

/-- The method `LivingPlant::water` (LivingPlant.cpp, lines 166-175); `none` when the
flyweight holds a null strategy pointer, which the call would dereference. -/
def water (b : Behaviour) (p : LivingPlant) : Option LivingPlant :=
  match p.waterStrategy with
  | some fly =>
    match fly.getState with
    | some strategy => some (strategy.water b p).2
    | none => none
  | none => some p

/-- The method `LivingPlant::setOutside` (LivingPlant.cpp, lines 203-212); `none` when
the flyweight holds a null strategy pointer. -/
def setOutside (b : Behaviour) (p : LivingPlant) : Option LivingPlant :=
  match p.sunStrategy with
  | some fly =>
    match fly.getState with
    | some strategy => some (strategy.addSun b p).2
    | none => none
  | none => some p

/-- The method `LivingPlant::update` (LivingPlant.cpp, lines 187-201). -/
def update (p : LivingPlant) : LivingPlant :=
  match p.decorator with
  | some decorator =>
    let p1 := { p with waterLevel := p.waterLevel - decorator.affectWater }
    { p1 with sunExposure := p1.sunExposure - decorator.affectSunlight }
  | none =>
    let p1 := { p with waterLevel := p.waterLevel - p.affectWater }
    { p1 with sunExposure := p1.sunExposure - p1.affectSunlight }

/-- The method `LivingPlant::tick` (LivingPlant.cpp, lines 313-317); `none` when
`maturityState` or the pointer it holds is null, which the call would dereference. -/
def tick (b : Behaviour) (p : LivingPlant) : Option LivingPlant :=
  match p.maturityState with
  | some fly =>
    match fly.getState with
    | some state => some (b.grow state p)
    | none => none
  | none => none

/-- The amount `update` takes from the hydration level. -/
def effectiveWater (p : LivingPlant) : Int :=
  match p.decorator with
  | some decorator => decorator.affectWater
  | none => p.affectWater

/-- The amount `update` takes from the light level. -/
def effectiveSun (p : LivingPlant) : Int :=
  match p.decorator with
  | some decorator => decorator.affectSunlight
  | none => p.affectSunlight

end LivingPlant

/-- The operations on an entity that act on its levels. -/
inductive PlantOp where
  | setWaterLevel (waterLevel : Int)
  | setSunExposure (sunExposure : Int)
  | water
  | setOutside
  | update
  | tick
deriving DecidableEq, Repr

/-- One operation on an entity; `none` when it dereferences a null pointer. -/
def PlantOp.apply (b : Behaviour) (p : LivingPlant) : PlantOp → Option LivingPlant
  | PlantOp.setWaterLevel n => some (p.setWaterLevel n)
  | PlantOp.setSunExposure n => some (p.setSunExposure n)
  | PlantOp.water => p.water b
  | PlantOp.setOutside => p.setOutside b
  | PlantOp.update => some p.update
  | PlantOp.tick => p.tick b

/-- A sequence of operations on an entity, each on the state the previous one left. -/
def PlantOp.runOps (b : Behaviour) : LivingPlant → List PlantOp → Option LivingPlant
  | p, [] => some p
  | p, op :: rest =>
    match PlantOp.apply b p op with
    | some q => PlantOp.runOps b q rest
    | none => none

/-- Whether an operation cannot take a level below zero from where the entity stands: a
setter is given a non-negative value, and `update` finds each level at least as large as
the amount it subtracts. -/
def PlantOp.guarded (p : LivingPlant) : PlantOp → Bool
  | PlantOp.setWaterLevel n => decide (0 ≤ n)
  | PlantOp.setSunExposure n => decide (0 ≤ n)
  | PlantOp.update =>
    decide (p.effectiveWater ≤ p.waterLevel) && decide (p.effectiveSun ≤ p.sunExposure)
  | _ => true

/-- Whether every operation of the sequence is guarded in the state it is applied to. -/
def PlantOp.guardedRun (b : Behaviour) : LivingPlant → List PlantOp → Bool
  | _, [] => true
  | p, op :: rest =>
    PlantOp.guarded p op &&
      match PlantOp.apply b p op with
      | some q => PlantOp.guardedRun b q rest
      | none => true

/-- Modelled from the spec: the magnitudes of the hydration tiers, which live in the
absent `strategy/*.cpp`.  Section 8: applied to an entity with base hydration-affect 5
that stands at level 0, the low, mid and high tier yield the levels 35, 45 and 65,
whatever the subtype of the entity. -/
def Behaviour.MeetsFixture (b : Behaviour) : Prop :=
  ∀ q : LivingPlant, q.affectWaterValue = 5 → q.waterLevel = 0 →
    b.waterAmount WaterStrategy.LowWater q = 35 ∧
    b.waterAmount WaterStrategy.MidWater q = 45 ∧
    b.waterAmount WaterStrategy.HighWater q = 65

/-- Modelled from the spec: the growth states, which live in the absent `state/*.cpp`,
keep the levels from falling below zero.  Section 4.3: the per-tick consumption is
"subtracted from the entity's levels (clamped at 0)". -/
def Behaviour.GrowClamps (b : Behaviour) : Prop :=
  ∀ (s : MaturityState) (q : LivingPlant), 0 ≤ q.waterLevel → 0 ≤ q.sunExposure →
    0 ≤ (b.grow s q).waterLevel ∧ 0 ≤ (b.grow s q).sunExposure

/-! ## LivingPlant.cpp: copying -/

/-- The copy constructor `LivingPlant::LivingPlant(const LivingPlant &other)`
(LivingPlant.cpp, lines 26-39).  The base class copy `PlantComponent(other)` carries
over `price`, `affectWaterValue` and `affectSunValue`. -/
def LivingPlant.copyCtor (other : LivingPlant) : LivingPlant :=
  { price := other.price,
    affectWaterValue := other.affectWaterValue,
    affectSunValue := other.affectSunValue,
    name := other.name,
    age := other.age,
    health := other.health,
    waterLevel := other.waterLevel,
    sunExposure := other.sunExposure,
    season := other.season,
    maturityState := other.maturityState,
    waterStrategy := other.waterStrategy,
    sunStrategy := other.sunStrategy,
    decorator := none }

/-- The living plants that stand on the free store, each under its address. -/
structure PlantStore where
  objs : List (Addr × LivingPlant)
deriving DecidableEq, Repr

/-- The object a pointer to a living plant points to. -/
def PlantStore.read (s : PlantStore) (a : Addr) : Option LivingPlant :=
  findEntry s.objs a

/-- A call `a->method(...)` of a member function that writes to members of the object. -/
def PlantStore.call (s : PlantStore) (a : Addr) (method : LivingPlant → LivingPlant) :
    PlantStore :=
  { objs := s.objs.map (fun e => if e.1 = a then (e.1, method e.2) else e) }

/-- The method `LivingPlant::clone` (LivingPlant.cpp, lines 161-164) called on the object
at `self`: `new LivingPlant(*this)`.  Returns the pointer to the copy, the store and the
free store afterwards; `none` when `self` points to no living plant. -/
def PlantStore.clone (s : PlantStore) (h : Heap) (self : Addr) :
    Option (Addr × PlantStore × Heap) :=
  match s.read self with
  | some original =>
    let g := h.alloc
    some (g.1, { objs := (g.1, LivingPlant.copyCtor original) :: s.objs }, g.2)
  | none => none

/-- Every living plant of the store lies below the allocation mark. -/
def PlantStore.Below (s : PlantStore) (h : Heap) : Prop :=
  ∀ e ∈ s.objs, e.1 < h.next

/-! ## LivingPlant.cpp: getInfo -/

/-- Modelled from the spec: `Mature::grow(LivingPlant*)` of the absent `state/Mature.cpp`.
Section 4.3: "Age increments by exactly 1 per `grow` call regardless of state"; `Mature`
"promotes to `Dead` once age ≥ a terminal threshold (e.g., 120) OR health reaches 0";
"promotion takes effect on the same call that crosses the threshold", which applies the
new state's deltas, and in `Dead` "hydration/light/health remain pinned at 0".  The
promotion assigns the `Dead` state through `setMaturity`.  What `Mature` does to an
entity that it does not promote is the parameter `stay`. -/
def MaturityState.growMature (ids : TierIDs) (stay : LivingPlant → LivingPlant)
    (plant : LivingPlant) (w : World) : Except String LivingPlant × World :=
  let aged := plant.setAge (plant.age + 1)
  if 120 ≤ aged.age ∨ aged.health = 0 then
    let r := aged.setMaturity ids w ids.dead
    match r.1 with
    | Except.ok dead =>
      (Except.ok (((dead.setWaterLevel 0).setSunExposure 0).setHealth 0), r.2)
    | Except.error e => (Except.error e, r.2)
  else
    (Except.ok (stay aged), w)

/-! ## Further invariants -/

/-- The four tier identifiers of each family are pairwise distinct. -/
def TierIDs.Distinct (ids : TierIDs) : Prop :=
  [ids.lowWater, ids.midWater, ids.highWater, ids.alternatingWater].Nodup ∧
  [ids.lowSun, ids.midSun, ids.highSun, ids.alternatingSun].Nodup ∧
  [ids.seed, ids.vegetative, ids.mature, ids.dead].Nodup

instance (ids : TierIDs) : Decidable ids.Distinct := by
  unfold TierIDs.Distinct
  infer_instance

/-- The string each flyweight of a string cache holds is the key it is stored under. -/
def FlyweightFactory.Keyed (f : FlyweightFactory String HeapString) : Prop :=
  ∀ e ∈ f.cache, ∃ a : Addr, e.2.data = some { addr := a, val := e.1 }

/-- What holds of the string cache in every state a sequential client can reach: its
flyweights lie below the allocation mark at pairwise different addresses, and the string
each of them holds is the key it is stored under. -/
def World.StringsSound (w : World) : Prop :=
  ∀ inv : Inventory, w.inst = some inv →
    inv.stringFactory.Fresh w.heap ∧ inv.stringFactory.Keyed

/-- The result `result` of a lookup of `id`, made in the state `w`, is the entry that
`cache` holds under `id`, so that the handler with the fallback is not entered; the
flyweight wraps `obj`, and the lookup leaves the state as it was. -/
def ServedFrom {T : Type} (cache : FlyweightFactory Int T) (id : Int) (obj : T) (w : World)
    (result : Except String (Flyweight T) × World) : Prop :=
  ∃ fly : Flyweight T,
    findEntry cache.cache id = some fly ∧ fly.getState = some obj ∧
    result = (Except.ok fly, w)

/-! ## AggSeason.cpp -/

/-- The class `AggSeason` (AggSeason.h, lines 41-78): the pointer `plants` that the base
class `Aggregate` keeps, and `targetSeason`. -/
structure AggSeason where
  plants : Addr
  targetSeason : Option (Flyweight HeapString)
deriving DecidableEq, Repr

/-- The constructor `AggSeason::AggSeason(std::list<PlantComponent*>*, const std::string&)`
(AggSeason.cpp, lines 4-8). -/
def AggSeason.ofString (ids : TierIDs) (plants : Addr) (season : String) (w : World) :
    Except String AggSeason × World :=
  let r := World.getString ids w season
  match r.1 with
  | Except.ok fly => (Except.ok { plants := plants, targetSeason := some fly }, r.2)
  | Except.error e => (Except.error e, r.2)

/-- The constructor
`AggSeason::AggSeason(std::list<PlantComponent*>*, Flyweight<std::string>*)`
(AggSeason.cpp, lines 10-14). -/
def AggSeason.ofFlyweight (plants : Addr) (season : Option (Flyweight HeapString)) :
    AggSeason :=
  { plants := plants, targetSeason := season }

/-! ## LivingPlant.cpp: the remaining mutators -/

/-- The method `LivingPlant::setSeason` (LivingPlant.cpp, lines 88-91). -/
def LivingPlant.setSeason (p : LivingPlant) (season : Option (Flyweight HeapString)) :
    LivingPlant :=
  { p with season := season }

/-- The method `LivingPlant::correctShape` (LivingPlant.cpp, lines 291-295), as far as
the entity goes. -/
def LivingPlant.correctShape (p : LivingPlant) (mainDecorator : Option ModifierChain) :
    LivingPlant :=
  { p with decorator := mainDecorator }

/-- The member functions of `LivingPlant` that write to the entity, apart from
`addAttribute`, which hands the entity to the absent decorator classes. -/
inductive EntityOp where
  | setAge (age : Int)
  | setHealth (health : Int)
  | setSeason (season : Option (Flyweight HeapString))
  | setWaterStrategy (strategy : Int)
  | setSunStrategy (strategy : Int)
  | setMaturity (state : Int)
  | correctShape (mainDecorator : Option ModifierChain)
  | level (op : PlantOp)
deriving DecidableEq, Repr

/-- One member function call on an entity in a state of the process; `none` when the
call throws or dereferences a null pointer. -/
def EntityOp.apply (ids : TierIDs) (b : Behaviour) (p : LivingPlant) (w : World) :
    EntityOp → Option (LivingPlant × World)
  | EntityOp.setAge age => some (p.setAge age, w)
  | EntityOp.setHealth health => some (p.setHealth health, w)
  | EntityOp.setSeason season => some (p.setSeason season, w)
  | EntityOp.setWaterStrategy strategy =>
    match (p.setWaterStrategy ids w strategy).1 with
    | Except.ok q => some (q, (p.setWaterStrategy ids w strategy).2)
    | Except.error _ => none
  | EntityOp.setSunStrategy strategy =>
    match (p.setSunStrategy ids w strategy).1 with
    | Except.ok q => some (q, (p.setSunStrategy ids w strategy).2)
    | Except.error _ => none
  | EntityOp.setMaturity state =>
    match (p.setMaturity ids w state).1 with
    | Except.ok q => some (q, (p.setMaturity ids w state).2)
    | Except.error _ => none
  | EntityOp.correctShape mainDecorator => some (p.correctShape mainDecorator, w)
  | EntityOp.level op =>
    match PlantOp.apply b p op with
    | some q => some (q, w)
    | none => none

/-- A sequence of member function calls on an entity. -/
def EntityOp.runOps (ids : TierIDs) (b : Behaviour) :
    LivingPlant → World → List EntityOp → Option (LivingPlant × World)
  | p, w, [] => some (p, w)
  | p, w, op :: rest =>
    match EntityOp.apply ids b p w op with
    | some r => EntityOp.runOps ids b r.1 r.2 rest
    | none => none

/-- Whether a call cannot lower the age of the entity it is applied to: it is not
`setAge`, or `setAge` with an age that is not smaller. -/
def EntityOp.keepsAge (p : LivingPlant) : EntityOp → Bool
  | EntityOp.setAge age => decide (p.age ≤ age)
  | _ => true

/-- Whether no call of the sequence can lower the age. -/
def EntityOp.keepsAgeRun (ids : TierIDs) (b : Behaviour) :
    LivingPlant → World → List EntityOp → Bool
  | _, _, [] => true
  | p, w, op :: rest =>
    EntityOp.keepsAge p op &&
      match EntityOp.apply ids b p w op with
      | some r => EntityOp.keepsAgeRun ids b r.1 r.2 rest
      | none => true

/-- Modelled from the spec: the growth states of the absent `state/*.cpp` age the
entity.  Section 4.3: "Age increments by exactly 1 per `grow` call regardless of
state." -/
def Behaviour.GrowAges (b : Behaviour) : Prop :=
  ∀ (s : MaturityState) (q : LivingPlant), (b.grow s q).age = q.age + 1

/-! ## Singleton.cpp: the destructor step by step -/

/-- The statements of `Inventory::~Inventory` (Singleton.cpp, lines 41-76). -/
inductive DtorStep where
  | stopTicker
  | deleteInventory
  | deleteStringFactory
  | deleteWaterStrategies
  | deleteSunStrategies
  | deleteStates
  | deleteStaff
  | deleteCustomers
  | clearInstance
deriving DecidableEq, Repr

/-- The run of `Inventory::~Inventory`: its statements in the order they execute, each with
the state of the process in which it starts.  The `delete` statements free objects that the
state does not track, so the state changes at `stopTicker()` and at `instance = NULL`
only. -/
def World.dtorTrace (w : World) : List (DtorStep × World) :=
  let w1 := (World.stopTicker w).2
  [ (DtorStep.stopTicker, w),
    (DtorStep.deleteInventory, w1),
    (DtorStep.deleteStringFactory, w1),
    (DtorStep.deleteWaterStrategies, w1),
    (DtorStep.deleteSunStrategies, w1),
    (DtorStep.deleteStates, w1),
    (DtorStep.deleteStaff, w1),
    (DtorStep.deleteCustomers, w1),
    (DtorStep.clearInstance, w1) ]

/-- The state in which the run of the destructor ends. -/
def World.dtorFinal (w : World) : World :=
  { (World.stopTicker w).2 with inst := none }

/-! ## Singleton.cpp: stopTicker branch by branch -/

/-- The paths through `Inventory::stopTicker` (Singleton.cpp, lines 173-193): the flag is
clear; the thread is joined, deleted and `TickerThread` cleared; the thread object is
deleted and `TickerThread` keeps its value; there is no thread object. -/
inductive StopBranch where
  | notRunning
  | joined
  | deletedOnly
  | noHandle
deriving DecidableEq, Repr

/-- The path `Inventory::stopTicker` takes in a state. -/
def World.stopTickerBranch (w : World) : StopBranch :=
  if w.onFlag = true then
    match w.TickerThread with
    | some t => if t.joinable = true then StopBranch.joined else StopBranch.deletedOnly
    | none => StopBranch.noHandle
  else
    StopBranch.notRunning

/-! ## Singleton.cpp: startTicker under two callers -/

/-- Where a caller of `Inventory::startTicker` (Singleton.cpp, lines 158-172) stands:
before `getInstance()`, before `on.load()`, before `on.store(true)`, before the test of
`TickerThread`, before `TickerThread = new thread(...)`, or returned with a value. -/
inductive StartPc where
  | atEntry
  | atLoad
  | atStore
  | atCheck
  | atCreate
  | returned (value : Bool)
deriving DecidableEq, Repr

/-- One step of a caller of `startTicker`: the atomic operations `on.load()` and
`on.store(true)` are steps of their own, as the code has them. -/
def World.startTickerStep (ids : TierIDs) (w : World) : StartPc → StartPc × World
  | StartPc.atEntry => (StartPc.atLoad, (World.getInstance ids w).2)
  | StartPc.atLoad =>
    if w.onFlag = false then (StartPc.atStore, w) else (StartPc.returned false, w)
  | StartPc.atStore => (StartPc.atCheck, { w with onFlag := true })
  | StartPc.atCheck =>
    match w.TickerThread with
    | none => (StartPc.atCreate, w)
    | some _ => (StartPc.returned true, w)
  | StartPc.atCreate =>
    let g := w.heap.alloc
    (StartPc.returned true,
      { w with heap := g.2,
               TickerThread := some { addr := g.1, joinable := true },
               drivers := g.1 :: w.drivers })
  | StartPc.returned value => (StartPc.returned value, w)

/-- A caller that runs `n` steps on its own. -/
def World.startTickerSolo (ids : TierIDs) : Nat → StartPc × World → StartPc × World
  | 0, s => s
  | n + 1, s => World.startTickerSolo ids n (World.startTickerStep ids s.2 s.1)

/-- Two threads, each in a call of `startTicker`, and the state they share. -/
structure TwoCallers where
  first : StartPc
  second : StartPc
  world : World
deriving DecidableEq, Repr

/-- The two threads run by a schedule: `false` lets the first thread take its next step,
`true` the second. -/
def TwoCallers.run (ids : TierIDs) : TwoCallers → List Bool → TwoCallers
  | c, [] => c
  | c, false :: rest =>
    TwoCallers.run ids
      { c with first := (World.startTickerStep ids c.world c.first).1,
               world := (World.startTickerStep ids c.world c.first).2 } rest
  | c, true :: rest =>
    TwoCallers.run ids
      { c with second := (World.startTickerStep ids c.world c.second).1,
               world := (World.startTickerStep ids c.world c.second).2 } rest

/-! ## What a cache holds -/

/-- What a cache holds apart from the addresses of its flyweights: the keys in order of
insertion, newest first, each with the data of its flyweight. -/
def FlyweightFactory.content {ID T : Type} (f : FlyweightFactory ID T) :
    List (ID × Option T) :=
  f.cache.map (fun e => (e.1, e.2.data))

/-! ## Sample states -/

/-- A factory after two insertions, on a free store whose first unused address was 10. -/
def sampleFactory : FlyweightFactory Int String × Heap :=
  FlyweightFactory.runCalls [(0, some "Insert1"), (1, some "Insert2")]
    (FlyweightFactory.new, { next := 10 })

/-- Tier identifiers for the sample states: 1 to 4 for the strategies, as the tests call
`setWaterStrategy(1)`, and 0 to 3 for the growth states. -/
def sampleIDs : TierIDs :=
  { lowWater := 1, midWater := 2, highWater := 3, alternatingWater := 4,
    lowSun := 1, midSun := 2, highSun := 3, alternatingSun := 4,
    seed := 0, vegetative := 1, mature := 2, dead := 3 }

/-- A state in which the instance exists and the driver is stopped. -/
def sampleStopped : World :=
  World.run sampleIDs (World.init 100) [Call.getInstance, Call.getString "Spring"]

/-- A state in which the driver runs. -/
def sampleRunning : World :=
  World.run sampleIDs (World.init 100)
    [Call.getString "Spring", Call.startTicker, Call.stopTicker, Call.startTicker]

/-- A behaviour with the magnitudes the unit tests report for a `Tree`, and growth
states that age the entity by a day and take five units from each level, clamped at 0. -/
def sampleBehaviour : Behaviour :=
  { waterAmount := fun s _ =>
      match s with
      | WaterStrategy.LowWater => 35
      | WaterStrategy.MidWater => 45
      | WaterStrategy.HighWater => 65
      | WaterStrategy.AlternatingWater => 2,
    sunAmount := fun s _ =>
      match s with
      | SunStrategy.LowSun => 12
      | SunStrategy.MidSun => 40
      | SunStrategy.HighSun => 72
      | SunStrategy.AlternatingSun => 16,
    grow := fun _ q =>
      { q with age := q.age + 1,
               waterLevel := max 0 (q.waterLevel - 5),
               sunExposure := max 0 (q.sunExposure - 5) } }

/-- An entity with a modifier chain, a hydration strategy and a growth state attached,
standing at level 20 for both resources. -/
def samplePlant : LivingPlant :=
  { price := 150,
    affectWaterValue := 5,
    affectSunValue := 5,
    name := some { addr := 1, data := some { addr := 0, val := "Tree" } },
    decorator := some { addr := 2, getPrice := 175, affectWater := 8, affectSunlight := 6 },
    age := 3,
    health := 50,
    waterLevel := 20,
    sunExposure := 20,
    season := none,
    maturityState := some { addr := 10, data := some MaturityState.Seed },
    waterStrategy := some { addr := 11, data := some WaterStrategy.LowWater },
    sunStrategy := none }

/-- A store that holds the sample entity at address 40. -/
def sampleStore : PlantStore :=
  { objs := [(40, samplePlant)] }

/-- A schedule in which both threads read the flag before either sets it, and both test
`TickerThread` before either assigns it. -/
def sampleSchedule : List Bool :=
  [false, true, false, true, false, true, false, true, false, true]

/-- Two threads about to call `startTicker` while the driver is stopped. -/
def sampleCallers : TwoCallers :=
  { first := StartPc.atEntry, second := StartPc.atEntry, world := sampleStopped }

/-! ## Lemmas on the cache -/

section CacheLemmas

theorem findEntry_mem {ID V : Type} [DecidableEq ID] {l : List (ID × V)} {id : ID} {v : V}
    (hf : findEntry l id = some v) : (id, v) ∈ l := by
  induction l with
  | nil => simp [findEntry] at hf
  | cons e rest ih =>
    obtain ⟨k, w⟩ := e
    by_cases hk : k = id
    · simp [findEntry, hk] at hf
      simp [hk, hf]
    · simp [findEntry, hk] at hf
      exact List.mem_cons_of_mem _ (ih hf)

theorem findEntry_isSome_iff {ID V : Type} [DecidableEq ID] {l : List (ID × V)} {id : ID} :
    (findEntry l id).isSome ↔ id ∈ l.map Prod.fst := by
  induction l with
  | nil => simp [findEntry]
  | cons e rest ih =>
    obtain ⟨k, w⟩ := e
    by_cases hk : k = id
    · simp [findEntry, hk]
    · have hk' : ¬ id = k := fun h => hk h.symm
      simp [findEntry, hk, hk', ih]

/-- In a list whose entries have pairwise different addresses, two entries with the same
address are the same entry. -/
theorem entry_eq_of_addr_eq {ID T : Type} {l : List (ID × Flyweight T)}
    (hp : l.Pairwise (fun a b => a.2.addr ≠ b.2.addr))
    {e1 e2 : ID × Flyweight T} (h1 : e1 ∈ l) (h2 : e2 ∈ l)
    (ha : e1.2.addr = e2.2.addr) : e1 = e2 := by
  induction l with
  | nil => simp at h1
  | cons x rest ih =>
    rw [List.pairwise_cons] at hp
    rcases List.mem_cons.1 h1 with g1 | g1 <;> rcases List.mem_cons.1 h2 with g2 | g2
    · rw [g1, g2]
    · rw [g1] at ha
      exact absurd ha (hp.1 e2 g2)
    · rw [g2] at ha
      exact absurd ha.symm (hp.1 e1 g1)
    · exact ih hp.2 g1 g2

theorem getFlyweight_fresh {ID T : Type} [DecidableEq ID] (f : FlyweightFactory ID T) (h : Heap) (id : ID) (data : Option T)
    (hf : f.Fresh h) :
    (f.getFlyweight h id data).2.1.Fresh (f.getFlyweight h id data).2.2 := by
  unfold FlyweightFactory.getFlyweight
  cases hfind : findEntry f.cache id with
  | some fly => exact hf
  | none =>
    cases data with
    | none => exact hf
    | some d =>
      obtain ⟨hlt, hpw⟩ := hf
      refine ⟨?_, ?_⟩
      · intro e he
        simp only [Heap.alloc, Flyweight.mk_at] at he ⊢
        rcases List.mem_cons.1 he with he | he
        · subst he
          exact Nat.lt_succ_self _
        · exact Nat.lt_succ_of_lt (hlt e he)
      · simp only [Heap.alloc, Flyweight.mk_at]
        rw [List.pairwise_cons]
        refine ⟨?_, hpw⟩
        intro e he
        exact (Nat.ne_of_lt (hlt e he)).symm

theorem reachable_fresh {ID T : Type} [DecidableEq ID] {f : FlyweightFactory ID T} {h : Heap}
    (hr : FlyweightFactory.Reachable f h) : f.Fresh h := by
  induction hr with
  | ctor h => exact ⟨by simp [FlyweightFactory.new], by simp [FlyweightFactory.new]⟩
  | call f h id data _ ih => exact getFlyweight_fresh f h id data ih
  | other f h n _ ih =>
    exact ⟨fun e he => Nat.lt_of_lt_of_le (ih.1 e he) (Nat.le_add_right _ _), ih.2⟩

/-- A request for a key that is cached returns the cached flyweight and changes nothing. -/
theorem getFlyweight_hit {ID T : Type} [DecidableEq ID] (f : FlyweightFactory ID T) (h : Heap) (id : ID) (data : Option T)
    {fly : Flyweight T} (hfind : findEntry f.cache id = some fly) :
    f.getFlyweight h id data = (Except.ok fly, f, h) := by
  simp [FlyweightFactory.getFlyweight, hfind]

/-- A call of `getFlyweight` keeps every entry that was there. -/
theorem getFlyweight_keeps {ID T : Type} [DecidableEq ID] (f : FlyweightFactory ID T) (h : Heap) (id : ID) (data : Option T)
    {k : ID} {fly : Flyweight T} (hfind : findEntry f.cache k = some fly) :
    findEntry (f.getFlyweight h id data).2.1.cache k = some fly := by
  unfold FlyweightFactory.getFlyweight
  cases hid : findEntry f.cache id with
  | some g => exact hfind
  | none =>
    cases data with
    | none => exact hfind
    | some d =>
      have hne : ¬ id = k := by
        intro he
        rw [he, hfind] at hid
        exact Option.noConfusion hid
      simp [Heap.alloc, findEntry, hne, hfind]

theorem runCalls_keeps {ID T : Type} [DecidableEq ID] (calls : List (ID × Option T)) (s : FlyweightFactory ID T × Heap)
    {k : ID} {fly : Flyweight T} (hfind : findEntry s.1.cache k = some fly) :
    findEntry (FlyweightFactory.runCalls calls s).1.cache k = some fly := by
  induction calls generalizing s with
  | nil => exact hfind
  | cons c rest ih =>
    obtain ⟨id, data⟩ := c
    exact ih _ (getFlyweight_keeps s.1 s.2 id data hfind)

/-- A request without data never changes the factory or the free store. -/
theorem getFlyweight_null_state {ID T : Type} [DecidableEq ID] (f : FlyweightFactory ID T)
    (h : Heap) (id : ID) : (f.getFlyweight h id none).2 = (f, h) := by
  unfold FlyweightFactory.getFlyweight
  cases findEntry f.cache id <;> rfl

/-- A request without data for a key that is not cached throws. -/
theorem getFlyweight_null_miss {ID T : Type} [DecidableEq ID] (f : FlyweightFactory ID T)
    (h : Heap) (id : ID) (hfind : findEntry f.cache id = none) :
    f.getFlyweight h id none = (Except.error "Data given for flyweight is NULL", f, h) := by
  simp [FlyweightFactory.getFlyweight, hfind]

/-- A request with data for a key that is not cached stores a new flyweight for the data. -/
theorem getFlyweight_insert {ID T : Type} [DecidableEq ID] (f : FlyweightFactory ID T)
    (h : Heap) (id : ID) (d : T) (hfind : findEntry f.cache id = none) :
    f.getFlyweight h id (some d) =
      (Except.ok { addr := h.next, data := some d },
       { cache := (id, { addr := h.next, data := some d }) :: f.cache },
       { next := h.next + 1 }) := by
  simp [FlyweightFactory.getFlyweight, hfind, Heap.alloc, Flyweight.mk_at]

theorem findEntry_none_iff {ID V : Type} [DecidableEq ID] {l : List (ID × V)} {id : ID} :
    findEntry l id = none ↔ id ∉ l.map Prod.fst := by
  rw [← findEntry_isSome_iff]
  cases findEntry l id <;> simp

theorem runCalls_keys {ID T : Type} [DecidableEq ID] (calls : List (ID × Option T))
    (s : FlyweightFactory ID T × Heap) {k : ID} (hk : k ∈ s.1.keys) :
    k ∈ (FlyweightFactory.runCalls calls s).1.keys := by
  have hs : (findEntry s.1.cache k).isSome := findEntry_isSome_iff.2 hk
  obtain ⟨fly, hfly⟩ := Option.isSome_iff_exists.1 hs
  have := runCalls_keeps calls s hfly
  exact findEntry_isSome_iff.1 (by rw [this]; rfl)

end CacheLemmas

/-! ## Lemmas on the singleton -/

section WorldLemmas

/-- The keys after a call are the keys before it and possibly the requested one. -/
theorem getFlyweight_keys {ID T : Type} [DecidableEq ID] (f : FlyweightFactory ID T)
    (h : Heap) (id : ID) (data : Option T) {k : ID}
    (hk : k ∈ (f.getFlyweight h id data).2.1.keys) : k = id ∨ k ∈ f.keys := by
  unfold FlyweightFactory.getFlyweight at hk
  cases hfind : findEntry f.cache id with
  | some fly =>
    rw [hfind] at hk
    exact Or.inr hk
  | none =>
    rw [hfind] at hk
    cases data with
    | none => exact Or.inr hk
    | some d =>
      simp only [Heap.alloc, FlyweightFactory.keys, List.map_cons, List.mem_cons] at hk
      exact hk

/-- After a request with data the key is cached; it holds that data if it was absent. -/
theorem getFlyweight_stores {ID T : Type} [DecidableEq ID] (f : FlyweightFactory ID T)
    (h : Heap) (id : ID) (d : T) (habs : id ∉ f.keys) :
    findEntry (f.getFlyweight h id (some d)).2.1.cache id
      = some { addr := h.next, data := some d } := by
  rw [getFlyweight_insert f h id d (findEntry_none_iff.2 habs)]
  simp [findEntry]

theorem getInstance_inst (ids : TierIDs) (w : World) :
    (World.getInstance ids w).2.inst = some (World.getInstance ids w).1 := by
  unfold World.getInstance
  cases hw : w.inst with
  | none => rfl
  | some inv => simpa using hw

theorem getInstance_of_some (ids : TierIDs) (w : World) {inv : Inventory}
    (hw : w.inst = some inv) : World.getInstance ids w = (inv, w) := by
  simp [World.getInstance, hw]

theorem getInstance_idem (ids : TierIDs) (w : World) :
    World.getInstance ids (World.getInstance ids w).2 = World.getInstance ids w :=
  getInstance_of_some ids _ (getInstance_inst ids w)

theorem getInstance_sound (ids : TierIDs) (w : World) (hs : World.Sound ids w) :
    World.Sound ids (World.getInstance ids w).2 ∧
    (World.getInstance ids w).2.onFlag = w.onFlag ∧
    (World.getInstance ids w).2.TickerThread = w.TickerThread ∧
    (World.getInstance ids w).2.drivers = w.drivers := by
  cases hw : w.inst with
  | some inv =>
    rw [getInstance_of_some ids w hw]
    exact ⟨hs, rfl, rfl, rfl⟩
  | none =>
    have hoff : w.onFlag = false := hs.stopped hw
    have hshape : World.getInstance ids w =
        ((Inventory.ctor ids w.heap.alloc.1 { w with heap := w.heap.alloc.2 }).1,
         { (Inventory.ctor ids w.heap.alloc.1 { w with heap := w.heap.alloc.2 }).2 with
           inst := some (Inventory.ctor ids w.heap.alloc.1 { w with heap := w.heap.alloc.2 }).1 }) := by
      simp [World.getInstance, hw]
    rw [hshape]
    refine ⟨⟨?_, ?_, ?_⟩, ?_, rfl, rfl⟩
    · intro hc
      exact Option.noConfusion hc
    · have hd := hs.driver
      rw [hoff] at hd
      simpa [Inventory.ctor] using hd
    · intro inv hinv
      have : (Inventory.ctor ids w.heap.alloc.1 { w with heap := w.heap.alloc.2 }).1 = inv :=
        Option.some.inj hinv
      rw [← this]
      exact ⟨_, _, rfl, rfl, rfl⟩
    · rw [hoff]
      rfl

theorem getWaterFly_hit (ids : TierIDs) (inv : Inventory) (h : Heap) (id : Int)
    {fly : Flyweight WaterStrategy} (hfind : findEntry inv.waterStrategies.cache id = some fly) :
    inv.getWaterFly ids h id = (Except.ok fly, inv, h) := by
  simp only [Inventory.getWaterFly, getFlyweight_hit _ h id none hfind]

theorem getWaterFly_miss (ids : TierIDs) (inv : Inventory) (h : Heap) (id : Int)
    (hfind : findEntry inv.waterStrategies.cache id = none) :
    inv.getWaterFly ids h id
      = ((inv.waterStrategies.getFlyweight h ids.lowWater none).1, inv, h) := by
  simp only [Inventory.getWaterFly, getFlyweight_null_miss _ h id hfind,
    getFlyweight_null_state]

theorem getWaterFly_state (ids : TierIDs) (inv : Inventory) (h : Heap) (id : Int) :
    (inv.getWaterFly ids h id).2 = (inv, h) := by
  cases hfind : findEntry inv.waterStrategies.cache id with
  | some fly => rw [getWaterFly_hit ids inv h id hfind]
  | none => rw [getWaterFly_miss ids inv h id hfind]

theorem getSunFly_hit (ids : TierIDs) (inv : Inventory) (h : Heap) (id : Int)
    {fly : Flyweight SunStrategy} (hfind : findEntry inv.sunStrategies.cache id = some fly) :
    inv.getSunFly ids h id = (Except.ok fly, inv, h) := by
  simp only [Inventory.getSunFly, getFlyweight_hit _ h id none hfind]

theorem getSunFly_miss (ids : TierIDs) (inv : Inventory) (h : Heap) (id : Int)
    (hfind : findEntry inv.sunStrategies.cache id = none) :
    inv.getSunFly ids h id
      = ((inv.sunStrategies.getFlyweight h ids.lowSun none).1, inv, h) := by
  simp only [Inventory.getSunFly, getFlyweight_null_miss _ h id hfind,
    getFlyweight_null_state]

theorem getSunFly_state (ids : TierIDs) (inv : Inventory) (h : Heap) (id : Int) :
    (inv.getSunFly ids h id).2 = (inv, h) := by
  cases hfind : findEntry inv.sunStrategies.cache id with
  | some fly => rw [getSunFly_hit ids inv h id hfind]
  | none => rw [getSunFly_miss ids inv h id hfind]

theorem getStates_hit (ids : TierIDs) (inv : Inventory) (h : Heap) (id : Int)
    {fly : Flyweight MaturityState} (hfind : findEntry inv.states.cache id = some fly) :
    inv.getStates ids h id = (Except.ok fly, inv, h) := by
  simp only [Inventory.getStates, getFlyweight_hit _ h id none hfind]

theorem getStates_miss (ids : TierIDs) (inv : Inventory) (h : Heap) (id : Int)
    (hfind : findEntry inv.states.cache id = none) :
    inv.getStates ids h id = ((inv.states.getFlyweight h ids.seed none).1, inv, h) := by
  simp only [Inventory.getStates, getFlyweight_null_miss _ h id hfind,
    getFlyweight_null_state]

theorem getStates_state (ids : TierIDs) (inv : Inventory) (h : Heap) (id : Int) :
    (inv.getStates ids h id).2 = (inv, h) := by
  cases hfind : findEntry inv.states.cache id with
  | some fly => rw [getStates_hit ids inv h id hfind]
  | none => rw [getStates_miss ids inv h id hfind]

/-- A world whose `inst` and `heap` are written back with the values they have. -/
theorem world_writeback (w : World) {inv : Inventory} (hw : w.inst = some inv) :
    { w with inst := some inv, heap := w.heap } = w := by
  cases w
  simp only [World.mk.injEq] at hw ⊢
  simp_all

/-- A lookup of a water strategy through the singleton leaves the state as
`getInstance` leaves it. -/
theorem world_getWaterFly_state (ids : TierIDs) (w : World) (id : Int) :
    (World.getWaterFly ids w id).2 = (World.getInstance ids w).2 := by
  simp only [World.getWaterFly, getWaterFly_state]
  exact world_writeback _ (getInstance_inst ids w)

theorem world_getSunFly_state (ids : TierIDs) (w : World) (id : Int) :
    (World.getSunFly ids w id).2 = (World.getInstance ids w).2 := by
  simp only [World.getSunFly, getSunFly_state]
  exact world_writeback _ (getInstance_inst ids w)

theorem world_getStates_state (ids : TierIDs) (w : World) (id : Int) :
    (World.getStates ids w id).2 = (World.getInstance ids w).2 := by
  simp only [World.getStates, getStates_state]
  exact world_writeback _ (getInstance_inst ids w)

/-- What `startTicker` does in a sound state whose flag is clear. -/
theorem startTicker_of_off (ids : TierIDs) (w : World) (hs : World.Sound ids w)
    (hoff : w.onFlag = false) :
    World.startTicker ids w =
      (true, { (World.getInstance ids w).2 with
        heap := (World.getInstance ids w).2.heap.alloc.2,
        onFlag := true,
        TickerThread :=
          some { addr := (World.getInstance ids w).2.heap.alloc.1, joinable := true },
        drivers := [(World.getInstance ids w).2.heap.alloc.1] }) := by
  obtain ⟨_, hon, hth, hdr⟩ := getInstance_sound ids w hs
  have hd := hs.driver
  rw [hoff] at hd hon
  rcases hd with ⟨_, hnone, hnil⟩ | ⟨hc, _⟩
  · rw [hnone] at hth
    rw [hnil] at hdr
    simp [World.startTicker, hon, hth, hdr]
  · exact Bool.noConfusion hc

/-- What `startTicker` does in a sound state whose flag is set. -/
theorem startTicker_of_on (ids : TierIDs) (w : World) (hs : World.Sound ids w)
    (hon : w.onFlag = true) :
    World.startTicker ids w = (false, (World.getInstance ids w).2) := by
  obtain ⟨_, hflag, _, _⟩ := getInstance_sound ids w hs
  rw [hon] at hflag
  simp [World.startTicker, hflag]

/-- What `stopTicker` does in a sound state whose flag is set. -/
theorem stopTicker_of_on (ids : TierIDs) (w : World) (hs : World.Sound ids w)
    (hon : w.onFlag = true) :
    World.stopTicker w =
      (true, { w with onFlag := false, TickerThread := none, drivers := [] }) := by
  have hd := hs.driver
  rw [hon] at hd
  rcases hd with ⟨hc, _⟩ | ⟨_, a, hth, hdr⟩
  · exact Bool.noConfusion hc
  · simp [World.stopTicker, hon, hth, hdr]

/-- What `stopTicker` does when the flag is clear. -/
theorem stopTicker_of_off (w : World) (hoff : w.onFlag = false) :
    World.stopTicker w = (false, w) := by
  simp [World.stopTicker, hoff]

theorem startTicker_sound (ids : TierIDs) (w : World) (hs : World.Sound ids w) :
    World.Sound ids (World.startTicker ids w).2 := by
  obtain ⟨hg, _, _, _⟩ := getInstance_sound ids w hs
  cases hflag : w.onFlag with
  | false =>
    rw [startTicker_of_off ids w hs hflag]
    refine ⟨?_, ?_, ?_⟩
    · intro hc
      have := getInstance_inst ids w
      simp only [] at hc
      rw [this] at hc
      exact Option.noConfusion hc
    · exact Or.inr ⟨rfl, _, rfl, rfl⟩
    · exact hg.tiers
  | true =>
    rw [startTicker_of_on ids w hs hflag]
    exact hg

theorem stopTicker_sound (ids : TierIDs) (w : World) (hs : World.Sound ids w) :
    World.Sound ids (World.stopTicker w).2 := by
  cases hflag : w.onFlag with
  | false =>
    rw [stopTicker_of_off w hflag]
    exact hs
  | true =>
    rw [stopTicker_of_on ids w hs hflag]
    exact ⟨fun _ => rfl, Or.inl ⟨rfl, rfl, rfl⟩, hs.tiers⟩

theorem destroy_sound (ids : TierIDs) (w : World) (hs : World.Sound ids w) :
    World.Sound ids (World.destroy w) := by
  unfold World.destroy
  cases hw : w.inst with
  | none => exact hs
  | some inv =>
    have h := stopTicker_sound ids w hs
    refine ⟨?_, ?_, ?_⟩
    · intro _
      cases hflag : w.onFlag with
      | false => rw [stopTicker_of_off w hflag]; exact hflag
      | true => rw [stopTicker_of_on ids w hs hflag]
    · exact h.driver
    · intro inv' hc
      exact Option.noConfusion hc

/-- Replacing the instance by one with the same strategy and state caches, and moving
the allocation mark, keeps a state sound. -/
theorem sound_replace (ids : TierIDs) (w : World) (hs : World.Sound ids w)
    (inv inv' : Inventory) (hw : w.inst = some inv) (h : Heap)
    (hwater : inv'.waterStrategies = inv.waterStrategies)
    (hsun : inv'.sunStrategies = inv.sunStrategies)
    (hstates : inv'.states = inv.states) :
    World.Sound ids { w with inst := some inv', heap := h } := by
  refine ⟨?_, hs.driver, ?_⟩
  · intro hc
    exact Option.noConfusion hc
  · intro i hi
    have : inv' = i := Option.some.inj hi
    rw [← this, hwater, hsun, hstates]
    exact hs.tiers inv hw

theorem step_sound (ids : TierIDs) (w : World) (c : Call) (hs : World.Sound ids w) :
    World.Sound ids (World.step ids w c) := by
  have hg := (getInstance_sound ids w hs).1
  have hi := getInstance_inst ids w
  cases c with
  | getInstance => exact hg
  | destroy => exact destroy_sound ids w hs
  | startTicker => exact startTicker_sound ids w hs
  | stopTicker => exact stopTicker_sound ids w hs
  | getString str => exact sound_replace ids _ hg _ _ hi _ rfl rfl rfl
  | getWaterFly id =>
    show World.Sound ids (World.getWaterFly ids w id).2
    rw [world_getWaterFly_state]
    exact hg
  | getSunFly id =>
    show World.Sound ids (World.getSunFly ids w id).2
    rw [world_getSunFly_state]
    exact hg
  | getStates id =>
    show World.Sound ids (World.getStates ids w id).2
    rw [world_getStates_state]
    exact hg
  | addStaff staff =>
    exact sound_replace ids _ hg _ ((World.getInstance ids w).1.addStaff staff) hi
      (World.getInstance ids w).2.heap rfl rfl rfl
  | addCustomer customer =>
    exact sound_replace ids _ hg _ ((World.getInstance ids w).1.addCustomer customer) hi
      (World.getInstance ids w).2.heap rfl rfl rfl
  | allocate n => exact ⟨hs.stopped, hs.driver, hs.tiers⟩

theorem run_sound (ids : TierIDs) (calls : List Call) (w : World) (hs : World.Sound ids w) :
    World.Sound ids (World.run ids w calls) := by
  induction calls generalizing w with
  | nil => exact hs
  | cons c rest ih => exact ih _ (step_sound ids w c hs)

theorem init_sound (ids : TierIDs) (n : Addr) : World.Sound ids (World.init n) :=
  ⟨fun _ => rfl, Or.inl ⟨rfl, rfl, rfl⟩, fun _ hc => Option.noConfusion hc⟩

theorem reachable_sound (ids : TierIDs) (w : World) (hr : World.Reachable ids w) :
    World.Sound ids w := by
  obtain ⟨n, calls, rfl⟩ := hr
  exact run_sound ids calls _ (init_sound ids n)

theorem reachable_step (ids : TierIDs) (w : World) (c : Call)
    (hr : World.Reachable ids w) : World.Reachable ids (World.step ids w c) := by
  obtain ⟨n, calls, rfl⟩ := hr
  refine ⟨n, calls ++ [c], ?_⟩
  have hrun : ∀ (l : List Call) (v : World),
      World.run ids v (l ++ [c]) = World.step ids (World.run ids v l) c := by
    intro l
    induction l with
    | nil => intro v; rfl
    | cons x xs ih => intro v; exact ih _
  exact (hrun calls _).symm

/-- Four insertions into an empty factory, as the constructor of the inventory makes
them for each family: the keys are among the four identifiers, the first identifier holds
the first object, and each later identifier holds its object unless an earlier one took
the key. -/
theorem four_insertions {T : Type} (h0 : Heap) (k1 k2 k3 k4 : Int) (d1 d2 d3 d4 : T)
    (r1 r2 r3 r4 : Except String (Flyweight T) × FlyweightFactory Int T × Heap)
    (e1 : r1 = (FlyweightFactory.new : FlyweightFactory Int T).getFlyweight h0 k1 (some d1))
    (e2 : r2 = r1.2.1.getFlyweight r1.2.2 k2 (some d2))
    (e3 : r3 = r2.2.1.getFlyweight r2.2.2 k3 (some d3))
    (e4 : r4 = r3.2.1.getFlyweight r3.2.2 k4 (some d4)) :
    (∀ k ∈ r4.2.1.keys, k = k1 ∨ k = k2 ∨ k = k3 ∨ k = k4) ∧
    (∃ fly, findEntry r4.2.1.cache k1 = some fly ∧ fly.data = some d1) ∧
    (k2 ≠ k1 → ∃ fly, findEntry r4.2.1.cache k2 = some fly ∧ fly.data = some d2) ∧
    (k3 ≠ k1 → k3 ≠ k2 → ∃ fly, findEntry r4.2.1.cache k3 = some fly ∧ fly.data = some d3) ∧
    (k4 ≠ k1 → k4 ≠ k2 → k4 ≠ k3 →
      ∃ fly, findEntry r4.2.1.cache k4 = some fly ∧ fly.data = some d4) := by
  have hk1 : ∀ k ∈ r1.2.1.keys, k = k1 := by
    intro k hk
    rw [e1] at hk
    rcases getFlyweight_keys _ _ _ _ hk with h | h
    · exact h
    · simp [FlyweightFactory.keys, FlyweightFactory.new] at h
  have hk2 : ∀ k ∈ r2.2.1.keys, k = k1 ∨ k = k2 := by
    intro k hk
    rw [e2] at hk
    rcases getFlyweight_keys _ _ _ _ hk with h | h
    · exact Or.inr h
    · exact Or.inl (hk1 k h)
  have hk3 : ∀ k ∈ r3.2.1.keys, k = k1 ∨ k = k2 ∨ k = k3 := by
    intro k hk
    rw [e3] at hk
    rcases getFlyweight_keys _ _ _ _ hk with h | h
    · exact Or.inr (Or.inr h)
    · rcases hk2 k h with h | h
      · exact Or.inl h
      · exact Or.inr (Or.inl h)
  have hk4 : ∀ k ∈ r4.2.1.keys, k = k1 ∨ k = k2 ∨ k = k3 ∨ k = k4 := by
    intro k hk
    rw [e4] at hk
    rcases getFlyweight_keys _ _ _ _ hk with h | h
    · exact Or.inr (Or.inr (Or.inr h))
    · rcases hk3 k h with h | h | h
      · exact Or.inl h
      · exact Or.inr (Or.inl h)
      · exact Or.inr (Or.inr (Or.inl h))
  refine ⟨hk4, ?_, ?_, ?_, ?_⟩
  · have s1 : findEntry r1.2.1.cache k1 = some { addr := h0.next, data := some d1 } := by
      rw [e1]
      exact getFlyweight_stores _ h0 k1 d1 (by simp [FlyweightFactory.keys, FlyweightFactory.new])
    have s2 := getFlyweight_keeps r1.2.1 r1.2.2 k2 (some d2) s1
    rw [← e2] at s2
    have s3 := getFlyweight_keeps r2.2.1 r2.2.2 k3 (some d3) s2
    rw [← e3] at s3
    have s4 := getFlyweight_keeps r3.2.1 r3.2.2 k4 (some d4) s3
    rw [← e4] at s4
    exact ⟨_, s4, rfl⟩
  · intro n1
    have s2 : findEntry r2.2.1.cache k2 = some { addr := r1.2.2.next, data := some d2 } := by
      rw [e2]
      exact getFlyweight_stores _ _ k2 d2 (fun hc => n1 (hk1 k2 hc))
    have s3 := getFlyweight_keeps r2.2.1 r2.2.2 k3 (some d3) s2
    rw [← e3] at s3
    have s4 := getFlyweight_keeps r3.2.1 r3.2.2 k4 (some d4) s3
    rw [← e4] at s4
    exact ⟨_, s4, rfl⟩
  · intro n1 n2
    have s3 : findEntry r3.2.1.cache k3 = some { addr := r2.2.2.next, data := some d3 } := by
      rw [e3]
      refine getFlyweight_stores _ _ k3 d3 (fun hc => ?_)
      rcases hk2 k3 hc with h | h
      · exact n1 h
      · exact n2 h
    have s4 := getFlyweight_keeps r3.2.1 r3.2.2 k4 (some d4) s3
    rw [← e4] at s4
    exact ⟨_, s4, rfl⟩
  · intro n1 n2 n3
    have s4 : findEntry r4.2.1.cache k4 = some { addr := r3.2.2.next, data := some d4 } := by
      rw [e4]
      refine getFlyweight_stores _ _ k4 d4 (fun hc => ?_)
      rcases hk3 k4 hc with h | h | h
      · exact n1 h
      · exact n2 h
      · exact n3 h
    exact ⟨_, s4, rfl⟩

/-- The hydration cache the constructor builds. -/
theorem ctor_water (ids : TierIDs) (a : Addr) (w0 : World) :
    (∀ k ∈ (Inventory.ctor ids a w0).1.waterStrategies.keys,
      k = ids.lowWater ∨ k = ids.midWater ∨ k = ids.highWater ∨ k = ids.alternatingWater) ∧
    (∃ fly, findEntry (Inventory.ctor ids a w0).1.waterStrategies.cache ids.lowWater = some fly ∧
      fly.data = some WaterStrategy.LowWater) ∧
    (ids.midWater ≠ ids.lowWater →
      ∃ fly, findEntry (Inventory.ctor ids a w0).1.waterStrategies.cache ids.midWater = some fly ∧
        fly.data = some WaterStrategy.MidWater) ∧
    (ids.highWater ≠ ids.lowWater → ids.highWater ≠ ids.midWater →
      ∃ fly, findEntry (Inventory.ctor ids a w0).1.waterStrategies.cache ids.highWater = some fly ∧
        fly.data = some WaterStrategy.HighWater) ∧
    (ids.alternatingWater ≠ ids.lowWater → ids.alternatingWater ≠ ids.midWater →
      ids.alternatingWater ≠ ids.highWater →
      ∃ fly, findEntry (Inventory.ctor ids a w0).1.waterStrategies.cache ids.alternatingWater
          = some fly ∧ fly.data = some WaterStrategy.AlternatingWater) :=
  four_insertions _ _ _ _ _ _ _ _ _ _ _ _ _ rfl rfl rfl rfl

/-- The light cache the constructor builds. -/
theorem ctor_sun (ids : TierIDs) (a : Addr) (w0 : World) :
    (∀ k ∈ (Inventory.ctor ids a w0).1.sunStrategies.keys,
      k = ids.lowSun ∨ k = ids.midSun ∨ k = ids.highSun ∨ k = ids.alternatingSun) ∧
    (∃ fly, findEntry (Inventory.ctor ids a w0).1.sunStrategies.cache ids.lowSun = some fly ∧
      fly.data = some SunStrategy.LowSun) ∧
    (ids.midSun ≠ ids.lowSun →
      ∃ fly, findEntry (Inventory.ctor ids a w0).1.sunStrategies.cache ids.midSun = some fly ∧
        fly.data = some SunStrategy.MidSun) ∧
    (ids.highSun ≠ ids.lowSun → ids.highSun ≠ ids.midSun →
      ∃ fly, findEntry (Inventory.ctor ids a w0).1.sunStrategies.cache ids.highSun = some fly ∧
        fly.data = some SunStrategy.HighSun) ∧
    (ids.alternatingSun ≠ ids.lowSun → ids.alternatingSun ≠ ids.midSun →
      ids.alternatingSun ≠ ids.highSun →
      ∃ fly, findEntry (Inventory.ctor ids a w0).1.sunStrategies.cache ids.alternatingSun
          = some fly ∧ fly.data = some SunStrategy.AlternatingSun) :=
  four_insertions _ _ _ _ _ _ _ _ _ _ _ _ _ rfl rfl rfl rfl

/-- The growth state cache the constructor builds. -/
theorem ctor_states (ids : TierIDs) (a : Addr) (w0 : World) :
    (∀ k ∈ (Inventory.ctor ids a w0).1.states.keys,
      k = ids.seed ∨ k = ids.vegetative ∨ k = ids.mature ∨ k = ids.dead) ∧
    (∃ fly, findEntry (Inventory.ctor ids a w0).1.states.cache ids.seed = some fly ∧
      fly.data = some MaturityState.Seed) ∧
    (ids.vegetative ≠ ids.seed →
      ∃ fly, findEntry (Inventory.ctor ids a w0).1.states.cache ids.vegetative = some fly ∧
        fly.data = some MaturityState.Vegetative) ∧
    (ids.mature ≠ ids.seed → ids.mature ≠ ids.vegetative →
      ∃ fly, findEntry (Inventory.ctor ids a w0).1.states.cache ids.mature = some fly ∧
        fly.data = some MaturityState.Mature) ∧
    (ids.dead ≠ ids.seed → ids.dead ≠ ids.vegetative → ids.dead ≠ ids.mature →
      ∃ fly, findEntry (Inventory.ctor ids a w0).1.states.cache ids.dead = some fly ∧
        fly.data = some MaturityState.Dead) :=
  four_insertions _ _ _ _ _ _ _ _ _ _ _ _ _ rfl rfl rfl rfl

theorem world_getWaterFly_eq (ids : TierIDs) (w : World) (id : Int) :
    World.getWaterFly ids w id =
      (((World.getInstance ids w).1.getWaterFly ids (World.getInstance ids w).2.heap id).1,
       (World.getInstance ids w).2) :=
  Prod.ext rfl (world_getWaterFly_state ids w id)

theorem world_getSunFly_eq (ids : TierIDs) (w : World) (id : Int) :
    World.getSunFly ids w id =
      (((World.getInstance ids w).1.getSunFly ids (World.getInstance ids w).2.heap id).1,
       (World.getInstance ids w).2) :=
  Prod.ext rfl (world_getSunFly_state ids w id)

theorem world_getStates_eq (ids : TierIDs) (w : World) (id : Int) :
    World.getStates ids w id =
      (((World.getInstance ids w).1.getStates ids (World.getInstance ids w).2.heap id).1,
       (World.getInstance ids w).2) :=
  Prod.ext rfl (world_getStates_state ids w id)

/-- The caches of the instance that `getInstance` returns in a sound state are caches
the constructor built. -/
theorem getInstance_tiers (ids : TierIDs) (w : World) (hs : World.Sound ids w) :
    ∃ (a : Addr) (w0 : World),
      (World.getInstance ids w).1.waterStrategies = (Inventory.ctor ids a w0).1.waterStrategies ∧
      (World.getInstance ids w).1.sunStrategies = (Inventory.ctor ids a w0).1.sunStrategies ∧
      (World.getInstance ids w).1.states = (Inventory.ctor ids a w0).1.states :=
  (getInstance_sound ids w hs).1.tiers _ (getInstance_inst ids w)

theorem sampleStopped_reachable : World.Reachable sampleIDs sampleStopped :=
  ⟨100, [Call.getInstance, Call.getString "Spring"], rfl⟩

theorem sampleRunning_reachable : World.Reachable sampleIDs sampleRunning :=
  ⟨100, [Call.getString "Spring", Call.startTicker, Call.stopTicker, Call.startTicker], rfl⟩

end WorldLemmas

/-! ## The flyweight cache -/

theorem sampleFactory_reachable :
    FlyweightFactory.Reachable sampleFactory.1 sampleFactory.2 :=
  FlyweightFactory.Reachable.call _ _ 1 (some "Insert2")
    (FlyweightFactory.Reachable.call _ _ 0 (some "Insert1")
      (FlyweightFactory.Reachable.ctor { next := 10 }))

/-- C1: in every factory state that can arise, requests for two cached keys both succeed,
leave the factory as it was, and return the identical flyweight instance (the same
address, and then the same object) if and only if the two keys are equal; whether data
is passed along makes no difference. -/
theorem getFlyweight_identical_iff_same_key {ID T : Type} [DecidableEq ID]
    (f : FlyweightFactory ID T) (h : Heap) (hr : FlyweightFactory.Reachable f h)
    (k1 k2 : ID) (d1 d2 : Option T) (h1 : k1 ∈ f.keys) (h2 : k2 ∈ f.keys) :
    ∃ p1 p2 : Flyweight T,
      f.getFlyweight h k1 d1 = (Except.ok p1, f, h) ∧
      f.getFlyweight h k2 d2 = (Except.ok p2, f, h) ∧
      (p1.addr = p2.addr ↔ k1 = k2) ∧ (p1 = p2 ↔ k1 = k2) := by
  obtain ⟨p1, hp1⟩ := Option.isSome_iff_exists.1 (findEntry_isSome_iff.2 h1)
  obtain ⟨p2, hp2⟩ := Option.isSome_iff_exists.1 (findEntry_isSome_iff.2 h2)
  have key : p1.addr = p2.addr → k1 = k2 := by
    intro ha
    have he := entry_eq_of_addr_eq (reachable_fresh hr).2 (findEntry_mem hp1)
      (findEntry_mem hp2) ha
    exact congrArg Prod.fst he
  have back : k1 = k2 → p1 = p2 := by
    intro hk
    rw [hk, hp2] at hp1
    exact (Option.some.inj hp1).symm
  refine ⟨p1, p2, getFlyweight_hit f h k1 d1 hp1, getFlyweight_hit f h k2 d2 hp2, ?_, ?_⟩
  · exact ⟨key, fun hk => congrArg Flyweight.addr (back hk)⟩
  · exact ⟨fun he => key (congrArg Flyweight.addr he), back⟩

/-- Witness for C1: the sample factory with the cached keys 0 and 1. -/
theorem getFlyweight_identical_iff_same_key_witness :
    FlyweightFactory.Reachable sampleFactory.1 sampleFactory.2 ∧
    (0 : Int) ∈ sampleFactory.1.keys ∧ (1 : Int) ∈ sampleFactory.1.keys ∧
    ∃ p1 p2 : Flyweight String,
      sampleFactory.1.getFlyweight sampleFactory.2 0 none
        = (Except.ok p1, sampleFactory.1, sampleFactory.2) ∧
      sampleFactory.1.getFlyweight sampleFactory.2 1 (some "other")
        = (Except.ok p2, sampleFactory.1, sampleFactory.2) ∧
      (p1.addr = p2.addr ↔ (0 : Int) = 1) ∧ (p1 = p2 ↔ (0 : Int) = 1) :=
  ⟨sampleFactory_reachable, by decide, by decide,
    getFlyweight_identical_iff_same_key sampleFactory.1 sampleFactory.2
      sampleFactory_reachable 0 1 none (some "other") (by decide) (by decide)⟩

/-- C2: whatever calls of `getFlyweight` follow, with or without data, succeeding or
throwing, (a) a key that is cached stays cached with the very flyweight (address and
data) it had, and a later request for it with any data returns that flyweight and
changes nothing; (b) a key inserted with data `d1` is served with the flyweight that the
insertion returned, holding `d1`, and a later request with other data `d2` returns it
unchanged; (c) every key that was cached is still cached. -/
theorem getFlyweight_first_insertion_wins {ID T : Type} [DecidableEq ID]
    (f : FlyweightFactory ID T) (h : Heap) (calls : List (ID × Option T)) (k : ID)
    (d2 : Option T) :
    (∀ fly : Flyweight T, findEntry f.cache k = some fly →
      findEntry (FlyweightFactory.runCalls calls (f, h)).1.cache k = some fly ∧
      (FlyweightFactory.runCalls calls (f, h)).1.getFlyweight
          (FlyweightFactory.runCalls calls (f, h)).2 k d2
        = (Except.ok fly, FlyweightFactory.runCalls calls (f, h))) ∧
    (∀ d1 : T, findEntry f.cache k = none →
      ∃ fly : Flyweight T,
        (f.getFlyweight h k (some d1)).1 = Except.ok fly ∧ fly.getState = some d1 ∧
        (FlyweightFactory.runCalls calls (f.getFlyweight h k (some d1)).2).1.getFlyweight
            (FlyweightFactory.runCalls calls (f.getFlyweight h k (some d1)).2).2 k d2
          = (Except.ok fly, FlyweightFactory.runCalls calls (f.getFlyweight h k (some d1)).2)) ∧
    (∀ k' : ID, k' ∈ f.keys → k' ∈ (FlyweightFactory.runCalls calls (f, h)).1.keys) := by
  refine ⟨?_, ?_, ?_⟩
  · intro fly hfly
    have hk := runCalls_keeps calls (f, h) hfly
    exact ⟨hk, getFlyweight_hit _ _ k d2 hk⟩
  · intro d1 hnone
    refine ⟨{ addr := h.next, data := some d1 }, ?_, rfl, ?_⟩
    · rw [getFlyweight_insert f h k d1 hnone]
    · have hstored : findEntry (f.getFlyweight h k (some d1)).2.1.cache k
          = some { addr := h.next, data := some d1 } := by
        rw [getFlyweight_insert f h k d1 hnone]
        simp [findEntry]
      exact getFlyweight_hit _ _ k d2 (runCalls_keeps calls _ hstored)
  · intro k' hk'
    exact runCalls_keys calls (f, h) hk'

/-- Witness for C2: the sample factory, the cached key 0 and the fresh key 7, followed
by a failing request, a request for 0 with other data, and an insertion. -/
theorem getFlyweight_first_insertion_wins_witness :
    findEntry sampleFactory.1.cache 0 = some { addr := 10, data := some "Insert1" } ∧
    findEntry sampleFactory.1.cache 7 = none ∧
    (FlyweightFactory.runCalls [(5, none), (0, some "late"), (3, some "x")]
        sampleFactory).1.getFlyweight
      (FlyweightFactory.runCalls [(5, none), (0, some "late"), (3, some "x")] sampleFactory).2
      0 (some "later")
      = (Except.ok { addr := 10, data := some "Insert1" },
         FlyweightFactory.runCalls [(5, none), (0, some "late"), (3, some "x")] sampleFactory) :=
  ⟨by decide, by decide,
    ((getFlyweight_first_insertion_wins sampleFactory.1 sampleFactory.2
      [(5, none), (0, some "late"), (3, some "x")] 0 (some "later")).1
        { addr := 10, data := some "Insert1" } (by decide)).2⟩

/-- C3: a request without data throws, and then with the message
"Data given for flyweight is NULL", if and only if the key is not cached; the request
leaves the factory and the free store exactly as they were, so after a failure the key is
still absent and every entry is unchanged. -/
theorem getFlyweight_null_throws_iff_absent {ID T : Type} [DecidableEq ID]
    (f : FlyweightFactory ID T) (h : Heap) (k : ID) :
    ((f.getFlyweight h k none).1 = Except.error "Data given for flyweight is NULL"
        ↔ k ∉ f.keys) ∧
    ((∃ e : String, (f.getFlyweight h k none).1 = Except.error e) ↔ k ∉ f.keys) ∧
    (f.getFlyweight h k none).2 = (f, h) := by
  have hstate := getFlyweight_null_state f h k
  cases hfind : findEntry f.cache k with
  | none =>
    have habs : k ∉ f.keys := findEntry_none_iff.1 hfind
    have hcall := getFlyweight_null_miss f h k hfind
    refine ⟨?_, ?_, hstate⟩
    · rw [hcall]
      exact ⟨fun _ => habs, fun _ => rfl⟩
    · rw [hcall]
      exact ⟨fun _ => habs, fun _ => ⟨_, rfl⟩⟩
  | some fly =>
    have hpres : k ∈ f.keys := findEntry_isSome_iff.1 (by rw [hfind]; rfl)
    have hcall := getFlyweight_hit f h k none hfind
    refine ⟨?_, ?_, hstate⟩
    · rw [hcall]
      exact ⟨fun hc => Except.noConfusion hc, fun hc => absurd hpres hc⟩
    · rw [hcall]
      exact ⟨fun hc => by obtain ⟨e, he⟩ := hc; exact Except.noConfusion he,
        fun hc => absurd hpres hc⟩

/-! ## The inventory singleton -/

/-- C4: in every reachable state and for every integer `id` that is not the identifier of
a hydration tier, `getWaterFly(id)` returns normally, and returns the very flyweight that
`getWaterFly(LowWater::getID())` returns (called afterwards, or in its place), which wraps
the `LowWater` object; likewise `getSunFly(id)` returns the `LowSun` flyweight for an `id`
that is no light tier, and `getStates(id)` the `Seed` flyweight for an `id` that is no
growth state. -/
theorem getFly_unknown_id_falls_back (ids : TierIDs) (w : World)
    (hr : World.Reachable ids w) (id : Int) :
    (id ∉ [ids.lowWater, ids.midWater, ids.highWater, ids.alternatingWater] →
      ∃ fly : Flyweight WaterStrategy,
        (World.getWaterFly ids w id).1 = Except.ok fly ∧
        (World.getWaterFly ids (World.getWaterFly ids w id).2 ids.lowWater).1 = Except.ok fly ∧
        (World.getWaterFly ids w ids.lowWater).1 = Except.ok fly ∧
        fly.getState = some WaterStrategy.LowWater) ∧
    (id ∉ [ids.lowSun, ids.midSun, ids.highSun, ids.alternatingSun] →
      ∃ fly : Flyweight SunStrategy,
        (World.getSunFly ids w id).1 = Except.ok fly ∧
        (World.getSunFly ids (World.getSunFly ids w id).2 ids.lowSun).1 = Except.ok fly ∧
        (World.getSunFly ids w ids.lowSun).1 = Except.ok fly ∧
        fly.getState = some SunStrategy.LowSun) ∧
    (id ∉ [ids.seed, ids.vegetative, ids.mature, ids.dead] →
      ∃ fly : Flyweight MaturityState,
        (World.getStates ids w id).1 = Except.ok fly ∧
        (World.getStates ids (World.getStates ids w id).2 ids.seed).1 = Except.ok fly ∧
        (World.getStates ids w ids.seed).1 = Except.ok fly ∧
        fly.getState = some MaturityState.Seed) := by
  have hs := reachable_sound ids w hr
  obtain ⟨a, w0, hwater, hsun, hstates⟩ := getInstance_tiers ids w hs
  refine ⟨?_, ?_, ?_⟩
  · intro hid
    obtain ⟨hkeys, ⟨fly, hlow, hdata⟩, _⟩ := ctor_water ids a w0
    rw [← hwater] at hkeys hlow
    have hnone : findEntry (World.getInstance ids w).1.waterStrategies.cache id = none := by
      refine findEntry_none_iff.2 (fun hc => hid ?_)
      simpa using hkeys id hc
    refine ⟨fly, ?_, ?_, ?_, hdata⟩
    · rw [world_getWaterFly_eq, getWaterFly_miss ids _ _ id hnone,
        getFlyweight_hit _ _ _ none hlow]
    · rw [world_getWaterFly_state, world_getWaterFly_eq, getInstance_idem,
        getWaterFly_hit ids _ _ _ hlow]
    · rw [world_getWaterFly_eq, getWaterFly_hit ids _ _ _ hlow]
  · intro hid
    obtain ⟨hkeys, ⟨fly, hlow, hdata⟩, _⟩ := ctor_sun ids a w0
    rw [← hsun] at hkeys hlow
    have hnone : findEntry (World.getInstance ids w).1.sunStrategies.cache id = none := by
      refine findEntry_none_iff.2 (fun hc => hid ?_)
      simpa using hkeys id hc
    refine ⟨fly, ?_, ?_, ?_, hdata⟩
    · rw [world_getSunFly_eq, getSunFly_miss ids _ _ id hnone,
        getFlyweight_hit _ _ _ none hlow]
    · rw [world_getSunFly_state, world_getSunFly_eq, getInstance_idem,
        getSunFly_hit ids _ _ _ hlow]
    · rw [world_getSunFly_eq, getSunFly_hit ids _ _ _ hlow]
  · intro hid
    obtain ⟨hkeys, ⟨fly, hlow, hdata⟩, _⟩ := ctor_states ids a w0
    rw [← hstates] at hkeys hlow
    have hnone : findEntry (World.getInstance ids w).1.states.cache id = none := by
      refine findEntry_none_iff.2 (fun hc => hid ?_)
      simpa using hkeys id hc
    refine ⟨fly, ?_, ?_, ?_, hdata⟩
    · rw [world_getStates_eq, getStates_miss ids _ _ id hnone,
        getFlyweight_hit _ _ _ none hlow]
    · rw [world_getStates_state, world_getStates_eq, getInstance_idem,
        getStates_hit ids _ _ _ hlow]
    · rw [world_getStates_eq, getStates_hit ids _ _ _ hlow]

/-- Witness for C4: the identifier 5000 of the unit test, in the sample state. -/
theorem getFly_unknown_id_falls_back_witness :
    World.Reachable sampleIDs sampleStopped ∧
    (5000 : Int) ∉ [sampleIDs.lowWater, sampleIDs.midWater, sampleIDs.highWater,
      sampleIDs.alternatingWater] ∧
    ∃ fly : Flyweight WaterStrategy,
      (World.getWaterFly sampleIDs sampleStopped 5000).1 = Except.ok fly ∧
      (World.getWaterFly sampleIDs (World.getWaterFly sampleIDs sampleStopped 5000).2
        sampleIDs.lowWater).1 = Except.ok fly ∧
      (World.getWaterFly sampleIDs sampleStopped sampleIDs.lowWater).1 = Except.ok fly ∧
      fly.getState = some WaterStrategy.LowWater :=
  ⟨sampleStopped_reachable, by decide,
    (getFly_unknown_id_falls_back sampleIDs sampleStopped sampleStopped_reachable 5000).1
      (by decide)⟩

/-- C5: in every reachable state `startTicker()` returns true if and only if the running
flag was clear when it was called, and the flag is set when it returns; so a second call
right after it returns false, and of two consecutive calls made from the stopped state
the first returns true and the second false. -/
theorem startTicker_true_iff_was_stopped (ids : TierIDs) (w : World)
    (hr : World.Reachable ids w) :
    ((World.startTicker ids w).1 = true ↔ w.onFlag = false) ∧
    (World.startTicker ids w).2.onFlag = true ∧
    (World.startTicker ids (World.startTicker ids w).2).1 = false ∧
    (w.onFlag = false →
      (World.startTicker ids w).1 = true ∧
      (World.startTicker ids (World.startTicker ids w).2).1 = false) := by
  have hs := reachable_sound ids w hr
  have hflag : (World.startTicker ids w).2.onFlag = true := by
    cases hw : w.onFlag with
    | false => rw [startTicker_of_off ids w hs hw]
    | true =>
      rw [startTicker_of_on ids w hs hw, (getInstance_sound ids w hs).2.1]
      exact hw
  have hsecond : (World.startTicker ids (World.startTicker ids w).2).1 = false := by
    rw [startTicker_of_on ids _ (startTicker_sound ids w hs) hflag]
  have hiff : (World.startTicker ids w).1 = true ↔ w.onFlag = false := by
    cases hw : w.onFlag with
    | false => rw [startTicker_of_off ids w hs hw]; simp
    | true => rw [startTicker_of_on ids w hs hw]; simp
  exact ⟨hiff, hflag, hsecond, fun hoff => ⟨hiff.2 hoff, hsecond⟩⟩

/-- Witness for C5: the sample state in which the driver is stopped. -/
theorem startTicker_true_iff_was_stopped_witness :
    World.Reachable sampleIDs sampleStopped ∧ sampleStopped.onFlag = false ∧
    (World.startTicker sampleIDs sampleStopped).1 = true ∧
    (World.startTicker sampleIDs (World.startTicker sampleIDs sampleStopped).2).1 = false :=
  ⟨sampleStopped_reachable, by decide,
    (startTicker_true_iff_was_stopped sampleIDs sampleStopped sampleStopped_reachable).2.2.2
      (by decide)⟩

/-- C6: in every reachable state `stopTicker()` returns true if and only if the running
flag was set when it was called; when it returns the flag is clear, `TickerThread` is
null and no driver thread is left; and a call made while the flag is clear returns false
and changes nothing. -/
theorem stopTicker_true_iff_was_running (ids : TierIDs) (w : World)
    (hr : World.Reachable ids w) :
    ((World.stopTicker w).1 = true ↔ w.onFlag = true) ∧
    (World.stopTicker w).2.onFlag = false ∧
    (World.stopTicker w).2.TickerThread = none ∧
    (World.stopTicker w).2.drivers = [] ∧
    (w.onFlag = false → World.stopTicker w = (false, w)) := by
  have hs := reachable_sound ids w hr
  cases hw : w.onFlag with
  | true =>
    rw [stopTicker_of_on ids w hs hw]
    exact ⟨by simp, rfl, rfl, rfl, fun hc => Bool.noConfusion hc⟩
  | false =>
    rw [stopTicker_of_off w hw]
    have hd := hs.driver
    rw [hw] at hd
    rcases hd with ⟨_, hth, hdr⟩ | ⟨hc, _⟩
    · exact ⟨by simp, hw, hth, hdr, fun _ => rfl⟩
    · exact Bool.noConfusion hc

/-- Witness for C6: the sample state in which the driver runs. -/
theorem stopTicker_true_iff_was_running_witness :
    World.Reachable sampleIDs sampleRunning ∧
    ((World.stopTicker sampleRunning).1 = true ↔ sampleRunning.onFlag = true) ∧
    (World.stopTicker sampleRunning).2.onFlag = false ∧
    (World.stopTicker sampleRunning).2.TickerThread = none ∧
    (World.stopTicker sampleRunning).2.drivers = [] ∧
    (sampleRunning.onFlag = false → World.stopTicker sampleRunning = (false, sampleRunning)) :=
  ⟨sampleRunning_reachable,
    stopTicker_true_iff_was_running sampleIDs sampleRunning sampleRunning_reachable⟩

/-- C7: in every reachable state at most one driver thread exists, one exists exactly
when the running flag is set, and it is the thread `TickerThread` points to; a
`startTicker` that returns true launches exactly one new driver, one that returns false
launches none; a `stopTicker` that returns true leaves no driver and clears
`TickerThread`, and the `startTicker` after it returns true and launches a driver
again. -/
theorem at_most_one_driver (ids : TierIDs) (w : World) (hr : World.Reachable ids w) :
    w.drivers.length ≤ 1 ∧
    (w.drivers.length = 1 ↔ w.onFlag = true) ∧
    (w.drivers = (w.TickerThread.map Thread.addr).toList) ∧
    ((World.startTicker ids w).1 = true →
      w.drivers = [] ∧
      ∃ a : Addr, (World.startTicker ids w).2.drivers = [a] ∧
        (World.startTicker ids w).2.TickerThread = some { addr := a, joinable := true }) ∧
    ((World.startTicker ids w).1 = false →
      (World.startTicker ids w).2.drivers = w.drivers) ∧
    ((World.stopTicker w).1 = true →
      (World.stopTicker w).2.drivers = [] ∧ (World.stopTicker w).2.TickerThread = none ∧
      (World.startTicker ids (World.stopTicker w).2).1 = true ∧
      (World.startTicker ids (World.stopTicker w).2).2.drivers.length = 1) := by
  have hs := reachable_sound ids w hr
  have hd := hs.driver
  cases hw : w.onFlag with
  | false =>
    rw [hw] at hd
    rcases hd with ⟨_, hth, hdr⟩ | ⟨hc, _⟩
    · refine ⟨by simp [hdr], by simp [hdr], by simp [hdr, hth], ?_, ?_, ?_⟩
      · intro _
        rw [startTicker_of_off ids w hs hw]
        exact ⟨hdr, _, rfl, rfl⟩
      · intro hc
        rw [startTicker_of_off ids w hs hw] at hc
        exact Bool.noConfusion hc
      · intro hc
        rw [stopTicker_of_off w hw] at hc
        exact Bool.noConfusion hc
    · exact Bool.noConfusion hc
  | true =>
    rw [hw] at hd
    rcases hd with ⟨hc, _⟩ | ⟨_, a, hth, hdr⟩
    · exact Bool.noConfusion hc
    · refine ⟨by simp [hdr], by simp [hdr], by simp [hdr, hth], ?_, ?_, ?_⟩
      · intro hc
        rw [startTicker_of_on ids w hs hw] at hc
        exact Bool.noConfusion hc
      · intro _
        rw [startTicker_of_on ids w hs hw]
        exact (getInstance_sound ids w hs).2.2.2
      · intro _
        have hstop := stopTicker_sound ids w hs
        rw [stopTicker_of_on ids w hs hw] at hstop ⊢
        refine ⟨rfl, rfl, ?_, ?_⟩
        · rw [startTicker_of_off ids _ hstop rfl]
        · rw [startTicker_of_off ids _ hstop rfl]
          rfl

/-- Witness for C7: the sample state in which the driver runs. -/
theorem at_most_one_driver_witness :
    World.Reachable sampleIDs sampleRunning ∧ sampleRunning.drivers.length = 1 ∧
    (World.stopTicker sampleRunning).1 = true ∧
    (World.stopTicker sampleRunning).2.drivers = [] ∧
    (World.stopTicker sampleRunning).2.TickerThread = none ∧
    (World.startTicker sampleIDs (World.stopTicker sampleRunning).2).1 = true ∧
    (World.startTicker sampleIDs (World.stopTicker sampleRunning).2).2.drivers.length = 1 :=
  ⟨sampleRunning_reachable, by decide, by decide,
    (at_most_one_driver sampleIDs sampleRunning sampleRunning_reachable).2.2.2.2.2
      (by decide)⟩

/-! ## Lemmas on living plants -/

section PlantLemmas

/-- A request with data never throws. -/
theorem getFlyweight_data_ok {ID T : Type} [DecidableEq ID] (f : FlyweightFactory ID T)
    (h : Heap) (id : ID) (d : T) :
    ∃ fly : Flyweight T, (f.getFlyweight h id (some d)).1 = Except.ok fly := by
  cases hfind : findEntry f.cache id with
  | some fly => exact ⟨fly, by rw [getFlyweight_hit f h id (some d) hfind]⟩
  | none => exact ⟨_, by rw [getFlyweight_insert f h id d hfind]⟩

/-- The string lookup through the singleton never throws. -/
theorem world_getString_ok (ids : TierIDs) (w : World) (str : String) :
    ∃ fly : Flyweight HeapString, (World.getString ids w str).1 = Except.ok fly :=
  getFlyweight_data_ok _ _ _ _

/-- The constructor of a living plant returns an entity with the given base values, no
strategy, state or modifier chain, and all four metrics at zero. -/
theorem ctor_ok (ids : TierIDs) (w : World) (name : String) (price : Rat)
    (waterAffect sunAffect : Int) :
    ∃ p : LivingPlant,
      LivingPlant.ctor ids w name price waterAffect sunAffect
        = (Except.ok p, (World.getString ids w name).2) ∧
      p.affectWaterValue = waterAffect ∧ p.affectSunValue = sunAffect ∧
      p.waterLevel = 0 ∧ p.sunExposure = 0 ∧ p.age = 0 ∧ p.health = 0 ∧
      p.waterStrategy = none ∧ p.sunStrategy = none ∧ p.maturityState = none ∧
      p.decorator = none := by
  obtain ⟨fly, hfly⟩ := world_getString_ok ids w name
  refine ⟨{ price := price, affectWaterValue := waterAffect, affectSunValue := sunAffect,
            name := some fly, decorator := none, age := 0, health := 0, waterLevel := 0,
            sunExposure := 0, season := none, maturityState := none, waterStrategy := none,
            sunStrategy := none }, ?_, rfl, rfl, rfl, rfl, rfl, rfl, rfl, rfl, rfl, rfl⟩
  unfold LivingPlant.ctor
  simp only [hfly]

/-- One guarded operation keeps both levels at or above zero. -/
theorem apply_nonneg (b : Behaviour) (hgrow : b.GrowClamps) (p q : LivingPlant)
    (op : PlantOp) (hw : 0 ≤ p.waterLevel) (hsun : 0 ≤ p.sunExposure)
    (hg : PlantOp.guarded p op = true) (hq : PlantOp.apply b p op = some q) :
    0 ≤ q.waterLevel ∧ 0 ≤ q.sunExposure := by
  cases op with
  | setWaterLevel n =>
    simp only [PlantOp.apply, Option.some.injEq] at hq
    subst hq
    exact ⟨of_decide_eq_true hg, hsun⟩
  | setSunExposure n =>
    simp only [PlantOp.apply, Option.some.injEq] at hq
    subst hq
    exact ⟨hw, of_decide_eq_true hg⟩
  | water =>
    simp only [PlantOp.apply, LivingPlant.water] at hq
    cases hstrat : p.waterStrategy with
    | none =>
      simp only [hstrat, Option.some.injEq] at hq
      subst hq
      exact ⟨hw, hsun⟩
    | some fly =>
      cases hstate : fly.getState with
      | none => simp only [hstrat, hstate] at hq; exact Option.noConfusion hq
      | some strategy =>
        simp only [hstrat, hstate, Option.some.injEq] at hq
        subst hq
        refine ⟨?_, hsun⟩
        show 0 ≤ p.waterLevel + ((b.waterAmount strategy p : Nat) : Int)
        exact Int.add_nonneg hw (Int.ofNat_nonneg _)
  | setOutside =>
    simp only [PlantOp.apply, LivingPlant.setOutside] at hq
    cases hstrat : p.sunStrategy with
    | none =>
      simp only [hstrat, Option.some.injEq] at hq
      subst hq
      exact ⟨hw, hsun⟩
    | some fly =>
      cases hstate : fly.getState with
      | none => simp only [hstrat, hstate] at hq; exact Option.noConfusion hq
      | some strategy =>
        simp only [hstrat, hstate, Option.some.injEq] at hq
        subst hq
        refine ⟨hw, ?_⟩
        show 0 ≤ p.sunExposure + ((b.sunAmount strategy p : Nat) : Int)
        exact Int.add_nonneg hsun (Int.ofNat_nonneg _)
  | update =>
    simp only [PlantOp.apply, Option.some.injEq] at hq
    subst hq
    simp only [PlantOp.guarded, Bool.and_eq_true, decide_eq_true_eq] at hg
    obtain ⟨g1, g2⟩ := hg
    unfold LivingPlant.effectiveWater at g1
    unfold LivingPlant.effectiveSun at g2
    unfold LivingPlant.update
    cases hdec : p.decorator with
    | none =>
      rw [hdec] at g1 g2
      exact ⟨Int.sub_nonneg_of_le g1, Int.sub_nonneg_of_le g2⟩
    | some d =>
      rw [hdec] at g1 g2
      exact ⟨Int.sub_nonneg_of_le g1, Int.sub_nonneg_of_le g2⟩
  | tick =>
    simp only [PlantOp.apply, LivingPlant.tick] at hq
    cases hm : p.maturityState with
    | none => simp only [hm] at hq; exact Option.noConfusion hq
    | some fly =>
      cases hstate : fly.getState with
      | none => simp only [hm, hstate] at hq; exact Option.noConfusion hq
      | some state =>
        simp only [hm, hstate, Option.some.injEq] at hq
        subst hq
        exact hgrow state p hw hsun

/-- A guarded sequence of operations keeps both levels at or above zero. -/
theorem runOps_nonneg (b : Behaviour) (hgrow : b.GrowClamps) (ops : List PlantOp)
    (p q : LivingPlant) (hw : 0 ≤ p.waterLevel) (hsun : 0 ≤ p.sunExposure)
    (hg : PlantOp.guardedRun b p ops = true) (hq : PlantOp.runOps b p ops = some q) :
    0 ≤ q.waterLevel ∧ 0 ≤ q.sunExposure := by
  induction ops generalizing p with
  | nil =>
    simp only [PlantOp.runOps, Option.some.injEq] at hq
    subst hq
    exact ⟨hw, hsun⟩
  | cons op rest ih =>
    simp only [PlantOp.runOps] at hq
    simp only [PlantOp.guardedRun, Bool.and_eq_true] at hg
    cases hstep : PlantOp.apply b p op with
    | none => rw [hstep] at hq; exact Option.noConfusion hq
    | some r =>
      rw [hstep] at hq hg
      obtain ⟨hr1, hr2⟩ := apply_nonneg b hgrow p r op hw hsun hg.1 hstep
      exact ih r hr1 hr2 hg.2 hq

theorem sampleBehaviour_growClamps : sampleBehaviour.GrowClamps := by
  intro s q _ _
  exact ⟨le_max_left _ _, le_max_left _ _⟩

theorem sampleBehaviour_meetsFixture : sampleBehaviour.MeetsFixture := by
  intro q _ _
  exact ⟨rfl, rfl, rfl⟩

/-- Assigning a hydration strategy whose identifier is cached stores the cached
flyweight in the entity and leaves the state as `getInstance` leaves it. -/
theorem setWaterStrategy_hit (ids : TierIDs) (p : LivingPlant) (w : World) (id : Int)
    {fly : Flyweight WaterStrategy}
    (hfind : findEntry (World.getInstance ids w).1.waterStrategies.cache id = some fly) :
    p.setWaterStrategy ids w id
      = (Except.ok { p with waterStrategy := some fly }, (World.getInstance ids w).2) := by
  unfold LivingPlant.setWaterStrategy
  simp only [world_getWaterFly_eq, getWaterFly_hit ids _ _ id hfind]

/-- Watering an entity whose strategy flyweight holds the strategy `strategy`. -/
theorem water_of_strategy (b : Behaviour) (p : LivingPlant) {fly : Flyweight WaterStrategy}
    {strategy : WaterStrategy} (hdata : fly.data = some strategy) :
    ({ p with waterStrategy := some fly } : LivingPlant).water b
      = some (strategy.water b { p with waterStrategy := some fly }).2 := by
  simp only [LivingPlant.water, Flyweight.getState, hdata]

end PlantLemmas

/-! ## Living plants -/

/-- Counterexample to C8: a freshly constructed `Tree` (base affect values 5) stands at
hydration and light level -5 after one `update()`, and at hydration level -1 after
`setWaterLevel(-1)`. -/
theorem levels_fall_below_zero :
    ((LivingPlant.treeCtor sampleIDs sampleStopped).1.toOption.bind
        (fun p => PlantOp.runOps sampleBehaviour p [PlantOp.update])).map
      (fun q => (q.waterLevel, q.sunExposure)) = some (-5, -5) ∧
    ((LivingPlant.treeCtor sampleIDs sampleStopped).1.toOption.bind
        (fun p => PlantOp.runOps sampleBehaviour p [PlantOp.setWaterLevel (-1)])).map
      (fun q => (q.waterLevel, q.sunExposure)) = some (-1, 0) := by
  decide

/-- C8 (amended): a constructed entity stands at hydration and light level 0, and from
any entity whose levels are not negative, every sequence of `setWaterLevel`,
`setSunExposure`, `water`, `setOutside`, `update` and `tick` that is guarded (each setter
is given a non-negative value, each `update` finds both levels at least as large as the
effective affect values it subtracts) leaves both levels non-negative, the growth states
keeping levels at or above zero as the spec has them. -/
theorem levels_nonneg_along_guarded_runs (ids : TierIDs) (b : Behaviour)
    (hgrow : b.GrowClamps) :
    (∀ (w : World) (name : String) (price : Rat) (waterAffect sunAffect : Int),
      ∃ (p : LivingPlant) (w1 : World),
        LivingPlant.ctor ids w name price waterAffect sunAffect = (Except.ok p, w1) ∧
        p.waterLevel = 0 ∧ p.sunExposure = 0) ∧
    (∀ (p q : LivingPlant) (ops : List PlantOp),
      0 ≤ p.waterLevel → 0 ≤ p.sunExposure → PlantOp.guardedRun b p ops = true →
      PlantOp.runOps b p ops = some q → 0 ≤ q.waterLevel ∧ 0 ≤ q.sunExposure) := by
  refine ⟨?_, ?_⟩
  · intro w name price waterAffect sunAffect
    obtain ⟨p, hp, _, _, h0, h1, _⟩ := ctor_ok ids w name price waterAffect sunAffect
    exact ⟨p, _, hp, h0, h1⟩
  · intro p q ops hw hsun hg hq
    exact runOps_nonneg b hgrow ops p q hw hsun hg hq

/-- Witness for C8 (amended): the sample entity, watered, updated, ticked and set to a
new level. -/
theorem levels_nonneg_along_guarded_runs_witness :
    sampleBehaviour.GrowClamps ∧
    (0 : Int) ≤ samplePlant.waterLevel ∧ (0 : Int) ≤ samplePlant.sunExposure ∧
    PlantOp.guardedRun sampleBehaviour samplePlant
      [PlantOp.water, PlantOp.update, PlantOp.tick, PlantOp.setSunExposure 4] = true ∧
    ∃ q : LivingPlant,
      PlantOp.runOps sampleBehaviour samplePlant
        [PlantOp.water, PlantOp.update, PlantOp.tick, PlantOp.setSunExposure 4] = some q ∧
      0 ≤ q.waterLevel ∧ 0 ≤ q.sunExposure :=
  ⟨sampleBehaviour_growClamps, by decide, by decide, by decide,
    ⟨{ samplePlant with age := 4, waterLevel := 42, sunExposure := 4 }, by decide,
      (levels_nonneg_along_guarded_runs sampleIDs sampleBehaviour
        sampleBehaviour_growClamps).2 samplePlant
        { samplePlant with age := 4, waterLevel := 42, sunExposure := 4 }
        [PlantOp.water, PlantOp.update, PlantOp.tick, PlantOp.setSunExposure 4]
        (by decide) (by decide) (by decide) (by decide)⟩⟩

/-- C9: with the tier identifiers 1, 2 and 3 for `LowWater`, `MidWater` and `HighWater`
and strategies of the magnitudes of the spec's fixture, every entity constructed in a
reachable state with base hydration-affect 5 stands at hydration level 0, and assigning
it the strategy 1, 2 or 3 and calling `water()` once leaves the level at exactly 35, 45
and 65: the level rises by exactly the delta the assigned strategy returns. -/
theorem water_after_tier_assignment (ids : TierIDs) (b : Behaviour) (w : World)
    (hr : World.Reachable ids w) (name : String) (price : Rat) (sunAffect : Int)
    (hlow : ids.lowWater = 1) (hmid : ids.midWater = 2) (hhigh : ids.highWater = 3)
    (hfix : b.MeetsFixture) :
    ∃ (p : LivingPlant) (w1 : World),
      LivingPlant.ctor ids w name price 5 sunAffect = (Except.ok p, w1) ∧
      p.waterLevel = 0 ∧
      (∃ (p1 p2 : LivingPlant) (w2 : World) (fly : Flyweight WaterStrategy),
        p.setWaterStrategy ids w1 1 = (Except.ok p1, w2) ∧
        p1.waterStrategy = some fly ∧ fly.getState = some WaterStrategy.LowWater ∧
        p1.water b = some p2 ∧ p2.waterLevel = 35 ∧
        p2.waterLevel = p1.waterLevel + (WaterStrategy.LowWater.water b p1).1) ∧
      (∃ (p1 p2 : LivingPlant) (w2 : World) (fly : Flyweight WaterStrategy),
        p.setWaterStrategy ids w1 2 = (Except.ok p1, w2) ∧
        p1.waterStrategy = some fly ∧ fly.getState = some WaterStrategy.MidWater ∧
        p1.water b = some p2 ∧ p2.waterLevel = 45 ∧
        p2.waterLevel = p1.waterLevel + (WaterStrategy.MidWater.water b p1).1) ∧
      (∃ (p1 p2 : LivingPlant) (w2 : World) (fly : Flyweight WaterStrategy),
        p.setWaterStrategy ids w1 3 = (Except.ok p1, w2) ∧
        p1.waterStrategy = some fly ∧ fly.getState = some WaterStrategy.HighWater ∧
        p1.water b = some p2 ∧ p2.waterLevel = 65 ∧
        p2.waterLevel = p1.waterLevel + (WaterStrategy.HighWater.water b p1).1) := by
  obtain ⟨p, hp, haff, _, hlevel, _⟩ := ctor_ok ids w name price 5 sunAffect
  have hs1 : World.Sound ids (World.getString ids w name).2 :=
    step_sound ids w (Call.getString name) (reachable_sound ids w hr)
  obtain ⟨a, w0, hwater, _, _⟩ := getInstance_tiers ids _ hs1
  obtain ⟨_, ⟨f1, hf1, hd1⟩, hm, hh, _⟩ := ctor_water ids a w0
  have n21 : ids.midWater ≠ ids.lowWater := by rw [hlow, hmid]; decide
  have n31 : ids.highWater ≠ ids.lowWater := by rw [hlow, hhigh]; decide
  have n32 : ids.highWater ≠ ids.midWater := by rw [hmid, hhigh]; decide
  obtain ⟨f2, hf2, hd2⟩ := hm n21
  obtain ⟨f3, hf3, hd3⟩ := hh n31 n32
  rw [← hwater] at hf1 hf2 hf3
  rw [hlow] at hf1
  rw [hmid] at hf2
  rw [hhigh] at hf3
  refine ⟨p, _, hp, hlevel, ?_, ?_, ?_⟩
  · refine ⟨_, _, _, f1, setWaterStrategy_hit ids p _ 1 hf1, rfl, hd1,
      water_of_strategy b p hd1, ?_, rfl⟩
    have := (hfix { p with waterStrategy := some f1 } haff hlevel).1
    show p.waterLevel
      + ((b.waterAmount WaterStrategy.LowWater { p with waterStrategy := some f1 } : Nat) : Int)
      = _
    rw [this, hlevel]
    rfl
  · refine ⟨_, _, _, f2, setWaterStrategy_hit ids p _ 2 hf2, rfl, hd2,
      water_of_strategy b p hd2, ?_, rfl⟩
    have := (hfix { p with waterStrategy := some f2 } haff hlevel).2.1
    show p.waterLevel
      + ((b.waterAmount WaterStrategy.MidWater { p with waterStrategy := some f2 } : Nat) : Int)
      = _
    rw [this, hlevel]
    rfl
  · refine ⟨_, _, _, f3, setWaterStrategy_hit ids p _ 3 hf3, rfl, hd3,
      water_of_strategy b p hd3, ?_, rfl⟩
    have := (hfix { p with waterStrategy := some f3 } haff hlevel).2.2
    show p.waterLevel
      + ((b.waterAmount WaterStrategy.HighWater { p with waterStrategy := some f3 } : Nat) : Int)
      = _
    rw [this, hlevel]
    rfl

/-- Witness for C9: the entity `LivingPlant("Test Plant", 25.0, 5, 5)` of the unit test,
constructed in the sample state. -/
theorem water_after_tier_assignment_witness :
    World.Reachable sampleIDs sampleStopped ∧
    sampleIDs.lowWater = 1 ∧ sampleIDs.midWater = 2 ∧ sampleIDs.highWater = 3 ∧
    sampleBehaviour.MeetsFixture ∧
    ∃ (p : LivingPlant) (w1 : World),
      LivingPlant.ctor sampleIDs sampleStopped "Test Plant" 25 5 5 = (Except.ok p, w1) ∧
      p.waterLevel = 0 ∧
      (∃ (p1 p2 : LivingPlant) (w2 : World) (fly : Flyweight WaterStrategy),
        p.setWaterStrategy sampleIDs w1 1 = (Except.ok p1, w2) ∧
        p1.waterStrategy = some fly ∧ fly.getState = some WaterStrategy.LowWater ∧
        p1.water sampleBehaviour = some p2 ∧ p2.waterLevel = 35 ∧
        p2.waterLevel
          = p1.waterLevel + (WaterStrategy.LowWater.water sampleBehaviour p1).1) ∧
      (∃ (p1 p2 : LivingPlant) (w2 : World) (fly : Flyweight WaterStrategy),
        p.setWaterStrategy sampleIDs w1 2 = (Except.ok p1, w2) ∧
        p1.waterStrategy = some fly ∧ fly.getState = some WaterStrategy.MidWater ∧
        p1.water sampleBehaviour = some p2 ∧ p2.waterLevel = 45 ∧
        p2.waterLevel
          = p1.waterLevel + (WaterStrategy.MidWater.water sampleBehaviour p1).1) ∧
      (∃ (p1 p2 : LivingPlant) (w2 : World) (fly : Flyweight WaterStrategy),
        p.setWaterStrategy sampleIDs w1 3 = (Except.ok p1, w2) ∧
        p1.waterStrategy = some fly ∧ fly.getState = some WaterStrategy.HighWater ∧
        p1.water sampleBehaviour = some p2 ∧ p2.waterLevel = 65 ∧
        p2.waterLevel
          = p1.waterLevel + (WaterStrategy.HighWater.water sampleBehaviour p1).1) :=
  ⟨sampleStopped_reachable, rfl, rfl, rfl, sampleBehaviour_meetsFixture,
    water_after_tier_assignment sampleIDs sampleBehaviour sampleStopped
      sampleStopped_reachable "Test Plant" 25 5 rfl rfl rfl sampleBehaviour_meetsFixture⟩

/-- C10: `update()` sets the hydration level to its previous value minus W and the light
level to its previous value minus S, where W and S are what the modifier chain returns
from `affectWater()` and `affectSunlight()` when a chain is attached, and the base affect
values of the entity otherwise; age and health, and every other member, keep their
values. -/
theorem update_subtracts_effective_affect (p : LivingPlant) :
    (∀ d : ModifierChain, p.decorator = some d →
      p.update.waterLevel = p.waterLevel - d.affectWater ∧
      p.update.sunExposure = p.sunExposure - d.affectSunlight) ∧
    (p.decorator = none →
      p.update.waterLevel = p.waterLevel - p.affectWater ∧
      p.update.sunExposure = p.sunExposure - p.affectSunlight) ∧
    p.update.age = p.age ∧ p.update.health = p.health ∧
    p.update = { p with waterLevel := p.update.waterLevel,
                        sunExposure := p.update.sunExposure } := by
  unfold LivingPlant.update
  cases hdec : p.decorator with
  | none =>
    refine ⟨fun d hd => Option.noConfusion hd, fun _ => ⟨rfl, rfl⟩, rfl, rfl, rfl⟩
  | some c =>
    refine ⟨fun d hd => ?_, fun hc => Option.noConfusion hc, rfl, rfl, rfl⟩
    have : c = d := Option.some.inj hd
    rw [← this]
    exact ⟨rfl, rfl⟩

/-- Witness for C10: the sample entity, whose modifier chain returns 8 and 6 while its
own base affect values are 5 and 5. -/
theorem update_subtracts_effective_affect_witness :
    samplePlant.decorator
      = some { addr := 2, getPrice := 175, affectWater := 8, affectSunlight := 6 } ∧
    samplePlant.update.waterLevel = 20 - 8 ∧ samplePlant.update.sunExposure = 20 - 6 :=
  ⟨rfl,
    (update_subtracts_effective_affect samplePlant).1
      { addr := 2, getPrice := 175, affectWater := 8, affectSunlight := 6 } rfl⟩

/-! ## Lemmas on the store of living plants -/

section StoreLemmas

/-- A call on one object leaves the object at every other address as it was. -/
theorem call_read_other (s : PlantStore) (a a' : Addr) (method : LivingPlant → LivingPlant)
    (hne : a ≠ a') : (s.call a' method).read a = s.read a := by
  have key : ∀ l : List (Addr × LivingPlant),
      findEntry (l.map (fun e => if e.1 = a' then (e.1, method e.2) else e)) a
        = findEntry l a := by
    intro l
    induction l with
    | nil => rfl
    | cons e rest ih =>
      obtain ⟨k, v⟩ := e
      show findEntry ((if k = a' then (k, method v) else (k, v)) ::
          rest.map (fun e => if e.1 = a' then (e.1, method e.2) else e)) a
        = findEntry ((k, v) :: rest) a
      by_cases hk' : k = a'
      · have hk : ¬ k = a := fun hc => hne (hc.symm.trans hk')
        rw [if_pos hk']
        simp only [findEntry, if_neg hk]
        exact ih
      · rw [if_neg hk']
        simp only [findEntry, ih]
  exact key s.objs

/-- An object that the store holds lies below the allocation mark. -/
theorem read_below (s : PlantStore) (h : Heap) (hb : s.Below h) {a : Addr} {p : LivingPlant}
    (hr : s.read a = some p) : a < h.next :=
  hb (a, p) (findEntry_mem hr)

end StoreLemmas

/-! ## Watering, ticking and copying -/

/-- C11: `water()` on an entity with no hydration strategy returns the entity as it was,
so age, health, hydration level and light level are unchanged; `setOutside()` on an entity
with no light strategy does the same; and a freshly constructed entity has neither
strategy, so both calls leave it unchanged. -/
theorem water_without_strategy_is_noop (b : Behaviour) :
    (∀ p : LivingPlant, p.waterStrategy = none → p.water b = some p) ∧
    (∀ p : LivingPlant, p.sunStrategy = none → p.setOutside b = some p) ∧
    (∀ (ids : TierIDs) (w : World) (name : String) (price : Rat) (waterAffect sunAffect : Int),
      ∃ (p : LivingPlant) (w1 : World),
        LivingPlant.ctor ids w name price waterAffect sunAffect = (Except.ok p, w1) ∧
        p.water b = some p ∧ p.setOutside b = some p) := by
  have hwater : ∀ p : LivingPlant, p.waterStrategy = none → p.water b = some p := by
    intro p hp
    simp only [LivingPlant.water, hp]
  have hsun : ∀ p : LivingPlant, p.sunStrategy = none → p.setOutside b = some p := by
    intro p hp
    simp only [LivingPlant.setOutside, hp]
  refine ⟨hwater, hsun, ?_⟩
  intro ids w name price waterAffect sunAffect
  obtain ⟨p, hp, _, _, _, _, _, _, hw, hs, _⟩ := ctor_ok ids w name price waterAffect sunAffect
  exact ⟨p, _, hp, hwater p hw, hsun p hs⟩

/-- Witness for C11: the sample entity, which has no light strategy. -/
theorem water_without_strategy_is_noop_witness :
    samplePlant.sunStrategy = none ∧
    samplePlant.setOutside sampleBehaviour = some samplePlant :=
  ⟨rfl, (water_without_strategy_is_noop sampleBehaviour).2.1 samplePlant rfl⟩

/-- C12 (failing input): a freshly constructed `Tree` has no growth state, and `tick()`
on it dereferences the null `maturityState`: the call has no result. -/
theorem tick_of_fresh_tree_faults :
    ((LivingPlant.treeCtor sampleIDs sampleStopped).1.toOption.map
        (fun p => p.maturityState)) = some none ∧
    ((LivingPlant.treeCtor sampleIDs sampleStopped).1.toOption.map
        (fun p => p.tick sampleBehaviour)) = some none := by
  decide

/-- C14: `clone()` on a stored entity `e` creates a new object at an address different
from that of `e`; its name, season, hydration strategy, light strategy and growth state
are the very flyweights of `e`, its age, health, hydration level, light level, price and
base affect values equal those of `e`, and `e` itself is unchanged; afterwards no member
function called on the clone changes `e`, and none called on `e` changes the clone. -/
theorem clone_shares_flyweights_and_copies_metrics (s : PlantStore) (h : Heap) (self : Addr)
    (e : LivingPlant) (hb : s.Below h) (he : s.read self = some e) :
    ∃ (c : LivingPlant) (a : Addr) (s1 : PlantStore) (h1 : Heap),
      s.clone h self = some (a, s1, h1) ∧ a ≠ self ∧
      s1.read a = some c ∧ s1.read self = some e ∧
      c.name = e.name ∧ c.season = e.season ∧ c.waterStrategy = e.waterStrategy ∧
      c.sunStrategy = e.sunStrategy ∧ c.maturityState = e.maturityState ∧
      c.age = e.age ∧ c.health = e.health ∧ c.waterLevel = e.waterLevel ∧
      c.sunExposure = e.sunExposure ∧ c.price = e.price ∧
      c.affectWaterValue = e.affectWaterValue ∧ c.affectSunValue = e.affectSunValue ∧
      (∀ method : LivingPlant → LivingPlant, (s1.call a method).read self = some e) ∧
      (∀ method : LivingPlant → LivingPlant, (s1.call self method).read a = some c) := by
  have hlt : self < h.next := read_below s h hb he
  have hne : h.next ≠ self := Nat.ne_of_gt hlt
  have hclone : s.clone h self
      = some (h.next, { objs := (h.next, LivingPlant.copyCtor e) :: s.objs },
          { next := h.next + 1 }) := by
    simp only [PlantStore.clone, he, Heap.alloc]
  have hreadc : PlantStore.read { objs := (h.next, LivingPlant.copyCtor e) :: s.objs } h.next
      = some (LivingPlant.copyCtor e) := by
    simp [PlantStore.read, findEntry]
  have hreade : PlantStore.read { objs := (h.next, LivingPlant.copyCtor e) :: s.objs } self
      = some e := by
    simp only [PlantStore.read, findEntry, hne, if_false]
    exact he
  refine ⟨LivingPlant.copyCtor e, h.next, _, _, hclone, hne, hreadc, hreade,
    rfl, rfl, rfl, rfl, rfl, rfl, rfl, rfl, rfl, rfl, rfl, rfl, ?_, ?_⟩
  · intro method
    rw [call_read_other _ self h.next method hne.symm]
    exact hreade
  · intro method
    rw [call_read_other _ h.next self method hne]
    exact hreadc

/-- Witness for C14: the sample entity at address 40, cloned when the allocation mark
stands at 100. -/
theorem clone_shares_flyweights_and_copies_metrics_witness :
    sampleStore.Below { next := 100 } ∧ sampleStore.read 40 = some samplePlant ∧
    ∃ (c : LivingPlant) (a : Addr) (s1 : PlantStore) (h1 : Heap),
      sampleStore.clone { next := 100 } 40 = some (a, s1, h1) ∧ a ≠ 40 ∧
      s1.read a = some c ∧ s1.read 40 = some samplePlant ∧
      c.name = samplePlant.name ∧ c.season = samplePlant.season ∧
      c.waterStrategy = samplePlant.waterStrategy ∧
      c.sunStrategy = samplePlant.sunStrategy ∧
      c.maturityState = samplePlant.maturityState ∧
      c.age = samplePlant.age ∧ c.health = samplePlant.health ∧
      c.waterLevel = samplePlant.waterLevel ∧
      c.sunExposure = samplePlant.sunExposure ∧ c.price = samplePlant.price ∧
      c.affectWaterValue = samplePlant.affectWaterValue ∧
      c.affectSunValue = samplePlant.affectSunValue ∧
      (∀ method : LivingPlant → LivingPlant, (s1.call a method).read 40 = some samplePlant) ∧
      (∀ method : LivingPlant → LivingPlant, (s1.call 40 method).read a = some c) :=
  ⟨by intro e he; simp [sampleStore] at he; rw [he]; decide, rfl,
    clone_shares_flyweights_and_copies_metrics sampleStore { next := 100 } 40 samplePlant
      (by intro e he; simp [sampleStore] at he; rw [he]; decide) rfl⟩

/-- C15 (failing input): the sample entity has a modifier chain attached, and the object
`clone()` creates from it has none. -/
theorem clone_drops_modifier_chain :
    samplePlant.decorator.isSome = true ∧
    ((sampleStore.clone { next := 100 } 40).bind (fun r => r.2.1.read r.1)).map
      (fun c => c.decorator) = some none := by
  decide

/-- C19: for distinct keys `k1`, `k2` that are not cached and data `d1`, `d2`, after
`getFlyweight(k1, d1)` and `getFlyweight(k2, d2)` the request `getFlyweight(k1)` returns
the flyweight the first insertion returned, whose state is `d1`, and `getFlyweight(k2)`
the one the second insertion returned, whose state is `d2`. -/
theorem getFlyweight_stores_data_under_key {ID T : Type} [DecidableEq ID]
    (f : FlyweightFactory ID T) (h : Heap) (k1 k2 : ID) (d1 d2 : T)
    (hne : k1 ≠ k2) (h1 : k1 ∉ f.keys) (h2 : k2 ∉ f.keys) :
    ∃ p1 p2 : Flyweight T,
      (f.getFlyweight h k1 (some d1)).1 = Except.ok p1 ∧
      ((f.getFlyweight h k1 (some d1)).2.1.getFlyweight
        (f.getFlyweight h k1 (some d1)).2.2 k2 (some d2)).1 = Except.ok p2 ∧
      (((f.getFlyweight h k1 (some d1)).2.1.getFlyweight
          (f.getFlyweight h k1 (some d1)).2.2 k2 (some d2)).2.1.getFlyweight
        ((f.getFlyweight h k1 (some d1)).2.1.getFlyweight
          (f.getFlyweight h k1 (some d1)).2.2 k2 (some d2)).2.2 k1 none).1 = Except.ok p1 ∧
      p1.getState = some d1 ∧
      (((f.getFlyweight h k1 (some d1)).2.1.getFlyweight
          (f.getFlyweight h k1 (some d1)).2.2 k2 (some d2)).2.1.getFlyweight
        ((f.getFlyweight h k1 (some d1)).2.1.getFlyweight
          (f.getFlyweight h k1 (some d1)).2.2 k2 (some d2)).2.2 k2 none).1 = Except.ok p2 ∧
      p2.getState = some d2 := by
  have a1 : k2 ∉ (f.getFlyweight h k1 (some d1)).2.1.keys := by
    intro hc
    rcases getFlyweight_keys f h k1 (some d1) hc with hk | hk
    · exact hne hk.symm
    · exact h2 hk
  have s1 := getFlyweight_stores f h k1 d1 h1
  have s2 := getFlyweight_stores _ (f.getFlyweight h k1 (some d1)).2.2 k2 d2 a1
  have keep := getFlyweight_keeps _ (f.getFlyweight h k1 (some d1)).2.2 k2 (some d2) s1
  refine ⟨{ addr := h.next, data := some d1 },
    { addr := (f.getFlyweight h k1 (some d1)).2.2.next, data := some d2 }, ?_, ?_, ?_, rfl,
    ?_, rfl⟩
  · rw [getFlyweight_insert f h k1 d1 (findEntry_none_iff.2 h1)]
  · rw [getFlyweight_insert _ _ k2 d2 (findEntry_none_iff.2 a1)]
  · rw [getFlyweight_hit _ _ k1 none keep]
  · rw [getFlyweight_hit _ _ k2 none s2]

/-- Witness for C19: the keys 5 and 6 in the sample factory, as in the unit test for
strings. -/
theorem getFlyweight_stores_data_under_key_witness :
    (5 : Int) ≠ 6 ∧ (5 : Int) ∉ sampleFactory.1.keys ∧ (6 : Int) ∉ sampleFactory.1.keys ∧
    ∃ p1 p2 : Flyweight String,
      (sampleFactory.1.getFlyweight sampleFactory.2 5 (some "five")).1 = Except.ok p1 ∧
      ((sampleFactory.1.getFlyweight sampleFactory.2 5 (some "five")).2.1.getFlyweight
        (sampleFactory.1.getFlyweight sampleFactory.2 5 (some "five")).2.2 6
          (some "six")).1 = Except.ok p2 ∧
      (((sampleFactory.1.getFlyweight sampleFactory.2 5 (some "five")).2.1.getFlyweight
          (sampleFactory.1.getFlyweight sampleFactory.2 5 (some "five")).2.2 6
            (some "six")).2.1.getFlyweight
        ((sampleFactory.1.getFlyweight sampleFactory.2 5 (some "five")).2.1.getFlyweight
          (sampleFactory.1.getFlyweight sampleFactory.2 5 (some "five")).2.2 6
            (some "six")).2.2 5 none).1 = Except.ok p1 ∧
      p1.getState = some "five" ∧
      (((sampleFactory.1.getFlyweight sampleFactory.2 5 (some "five")).2.1.getFlyweight
          (sampleFactory.1.getFlyweight sampleFactory.2 5 (some "five")).2.2 6
            (some "six")).2.1.getFlyweight
        ((sampleFactory.1.getFlyweight sampleFactory.2 5 (some "five")).2.1.getFlyweight
          (sampleFactory.1.getFlyweight sampleFactory.2 5 (some "five")).2.2 6
            (some "six")).2.2 6 none).1 = Except.ok p2 ∧
      p2.getState = some "six" :=
  ⟨by decide, by decide, by decide,
    getFlyweight_stores_data_under_key sampleFactory.1 sampleFactory.2 5 6 "five" "six"
      (by decide) (by decide) (by decide)⟩

section InstanceLemmas

theorem getInstance_of_none (ids : TierIDs) (w : World) (hw : w.inst = none) :
    World.getInstance ids w =
      ((Inventory.ctor ids w.heap.alloc.1 { w with heap := w.heap.alloc.2 }).1,
       { (Inventory.ctor ids w.heap.alloc.1 { w with heap := w.heap.alloc.2 }).2 with
         inst := some (Inventory.ctor ids w.heap.alloc.1 { w with heap := w.heap.alloc.2 }).1 }) := by
  simp [World.getInstance, hw]

/-- A call other than the destruction keeps the instance, at its address. -/
theorem step_keeps_instance (ids : TierIDs) (w : World) (c : Call) (hc : c ≠ Call.destroy)
    (inv : Inventory) (hw : w.inst = some inv) :
    ∃ inv' : Inventory, (World.step ids w c).inst = some inv' ∧ inv'.addr = inv.addr := by
  have hg := getInstance_of_some ids w hw
  cases c with
  | getInstance => exact ⟨inv, by simp only [World.step, hg, hw], rfl⟩
  | destroy => exact absurd rfl hc
  | startTicker =>
    refine ⟨inv, ?_, rfl⟩
    simp only [World.step, World.startTicker, hg]
    split
    · split <;> exact hw
    · exact hw
  | stopTicker =>
    refine ⟨inv, ?_, rfl⟩
    simp only [World.step, World.stopTicker]
    split
    · split
      · split <;> exact hw
      · exact hw
    · exact hw
  | getString str =>
    exact ⟨(inv.getString w.heap str).2.1, by simp only [World.step, World.getString, hg], rfl⟩
  | getWaterFly id =>
    exact ⟨inv, by simp only [World.step, world_getWaterFly_state, hg, hw], rfl⟩
  | getSunFly id =>
    exact ⟨inv, by simp only [World.step, world_getSunFly_state, hg, hw], rfl⟩
  | getStates id =>
    exact ⟨inv, by simp only [World.step, world_getStates_state, hg, hw], rfl⟩
  | addStaff staff => exact ⟨inv.addStaff staff, by simp only [World.step, hg], rfl⟩
  | addCustomer customer =>
    exact ⟨inv.addCustomer customer, by simp only [World.step, hg], rfl⟩
  | allocate n => exact ⟨inv, by simp only [World.step, hw], rfl⟩

/-- A sequence of calls without a destruction keeps the instance, at its address. -/
theorem run_keeps_instance (ids : TierIDs) (calls : List Call) (hnd : Call.destroy ∉ calls)
    (w : World) (inv : Inventory) (hw : w.inst = some inv) :
    ∃ inv' : Inventory, (World.run ids w calls).inst = some inv' ∧ inv'.addr = inv.addr := by
  induction calls generalizing w inv with
  | nil => exact ⟨inv, hw, rfl⟩
  | cons c rest ih =>
    have hc : c ≠ Call.destroy := fun h => hnd (by rw [h]; exact List.mem_cons_self _ _)
    have hrest : Call.destroy ∉ rest := fun h => hnd (List.mem_cons_of_mem _ h)
    obtain ⟨inv1, h1, ha1⟩ := step_keeps_instance ids w c hc inv hw
    obtain ⟨inv2, h2, ha2⟩ := ih hrest (World.step ids w c) inv1 h1
    exact ⟨inv2, h2, ha2.trans ha1⟩

end InstanceLemmas

/-! ## The instance -/

/-- C16: after a call of `getInstance()`, whatever calls other than a destruction follow,
a further `getInstance()` returns the instance at the same address and changes nothing,
so it constructs no inventory; the first call constructs the inventory when none exists
and returns the existing one otherwise. -/
theorem getInstance_same_instance (ids : TierIDs) (w : World) (calls : List Call)
    (hnd : Call.destroy ∉ calls) :
    (World.getInstance ids (World.run ids (World.getInstance ids w).2 calls)).1.addr
      = (World.getInstance ids w).1.addr ∧
    (World.getInstance ids (World.run ids (World.getInstance ids w).2 calls)).2
      = World.run ids (World.getInstance ids w).2 calls ∧
    (World.run ids (World.getInstance ids w).2 calls).inst
      = some (World.getInstance ids (World.run ids (World.getInstance ids w).2 calls)).1 ∧
    (w.inst = none →
      (World.getInstance ids w).1
        = (Inventory.ctor ids w.heap.alloc.1 { w with heap := w.heap.alloc.2 }).1) ∧
    (∀ inv : Inventory, w.inst = some inv → World.getInstance ids w = (inv, w)) := by
  obtain ⟨inv', hinv', haddr⟩ :=
    run_keeps_instance ids calls hnd _ _ (getInstance_inst ids w)
  have hsecond := getInstance_of_some ids _ hinv'
  refine ⟨?_, ?_, ?_, ?_, ?_⟩
  · rw [hsecond]
    exact haddr
  · rw [hsecond]
  · rw [hsecond]
    exact hinv'
  · intro hw
    rw [getInstance_of_none ids w hw]
  · intro inv hw
    exact getInstance_of_some ids w hw

/-- Witness for C16: from program start, with strings, staff and the driver used between
the two calls. -/
theorem getInstance_same_instance_witness :
    Call.destroy ∉ [Call.getString "Spring", Call.addStaff none, Call.startTicker,
      Call.getWaterFly 9, Call.stopTicker] ∧
    (World.getInstance sampleIDs (World.run sampleIDs
        (World.getInstance sampleIDs (World.init 100)).2
        [Call.getString "Spring", Call.addStaff none, Call.startTicker,
          Call.getWaterFly 9, Call.stopTicker])).1.addr
      = (World.getInstance sampleIDs (World.init 100)).1.addr :=
  ⟨by decide,
    (getInstance_same_instance sampleIDs (World.init 100)
      [Call.getString "Spring", Call.addStaff none, Call.startTicker,
        Call.getWaterFly 9, Call.stopTicker] (by decide)).1⟩

/-! ## Lemmas on the pre-populated tiers -/

section TierLemmas

/-- Four pairwise distinct identifiers. -/
theorem nodup_four {k1 k2 k3 k4 : Int} (hd : [k1, k2, k3, k4].Nodup) :
    k2 ≠ k1 ∧ k3 ≠ k1 ∧ k3 ≠ k2 ∧ k4 ≠ k1 ∧ k4 ≠ k2 ∧ k4 ≠ k3 := by
  simp only [List.nodup_cons, List.mem_cons, List.mem_singleton, not_or, List.not_mem_nil,
    not_false_eq_true, List.nodup_nil, and_true] at hd
  obtain ⟨⟨h12, h13, h14⟩, ⟨h23, h24⟩, h34⟩ := hd
  exact ⟨Ne.symm h12, Ne.symm h13, Ne.symm h23, Ne.symm h14, Ne.symm h24, Ne.symm h34⟩

/-- Four insertions under pairwise distinct identifiers leave four entries. -/
theorem four_insertions_length {T : Type} (h0 : Heap) (k1 k2 k3 k4 : Int) (d1 d2 d3 d4 : T)
    (r1 r2 r3 r4 : Except String (Flyweight T) × FlyweightFactory Int T × Heap)
    (e1 : r1 = (FlyweightFactory.new : FlyweightFactory Int T).getFlyweight h0 k1 (some d1))
    (e2 : r2 = r1.2.1.getFlyweight r1.2.2 k2 (some d2))
    (e3 : r3 = r2.2.1.getFlyweight r2.2.2 k3 (some d3))
    (e4 : r4 = r3.2.1.getFlyweight r3.2.2 k4 (some d4))
    (hd : [k1, k2, k3, k4].Nodup) : r4.2.1.cache.length = 4 := by
  obtain ⟨n21, n31, n32, n41, n42, n43⟩ := nodup_four hd
  have a1 : k1 ∉ (FlyweightFactory.new : FlyweightFactory Int T).keys := by
    simp [FlyweightFactory.keys, FlyweightFactory.new]
  have i1 := getFlyweight_insert (FlyweightFactory.new : FlyweightFactory Int T) h0 k1 d1
    (findEntry_none_iff.2 a1)
  rw [← e1] at i1
  have a2 : findEntry r1.2.1.cache k2 = none := by
    rw [i1]
    simp [findEntry, FlyweightFactory.new, Ne.symm n21]
  have i2 := getFlyweight_insert r1.2.1 r1.2.2 k2 d2 a2
  rw [← e2] at i2
  have a3 : findEntry r2.2.1.cache k3 = none := by
    rw [i2, i1]
    simp [findEntry, FlyweightFactory.new, Ne.symm n31, Ne.symm n32]
  have i3 := getFlyweight_insert r2.2.1 r2.2.2 k3 d3 a3
  rw [← e3] at i3
  have a4 : findEntry r3.2.1.cache k4 = none := by
    rw [i3, i2, i1]
    simp [findEntry, FlyweightFactory.new, Ne.symm n41, Ne.symm n42, Ne.symm n43]
  have i4 := getFlyweight_insert r3.2.1 r3.2.2 k4 d4 a4
  rw [← e4] at i4
  rw [i4, i3, i2, i1]
  rfl

/-- A hydration lookup of a cached identifier in the state `getInstance` leaves. -/
theorem served_water (ids : TierIDs) (w : World) (id : Int) (obj : WaterStrategy)
    (hfind : ∃ fly, findEntry (World.getInstance ids w).1.waterStrategies.cache id = some fly ∧
      fly.data = some obj) :
    ServedFrom (World.getInstance ids w).1.waterStrategies id obj (World.getInstance ids w).2
      (World.getWaterFly ids (World.getInstance ids w).2 id) := by
  obtain ⟨fly, hf, hdata⟩ := hfind
  exact ⟨fly, hf, hdata,
    by rw [world_getWaterFly_eq, getInstance_idem, getWaterFly_hit ids _ _ _ hf]⟩

/-- A light lookup of a cached identifier in the state `getInstance` leaves. -/
theorem served_sun (ids : TierIDs) (w : World) (id : Int) (obj : SunStrategy)
    (hfind : ∃ fly, findEntry (World.getInstance ids w).1.sunStrategies.cache id = some fly ∧
      fly.data = some obj) :
    ServedFrom (World.getInstance ids w).1.sunStrategies id obj (World.getInstance ids w).2
      (World.getSunFly ids (World.getInstance ids w).2 id) := by
  obtain ⟨fly, hf, hdata⟩ := hfind
  exact ⟨fly, hf, hdata,
    by rw [world_getSunFly_eq, getInstance_idem, getSunFly_hit ids _ _ _ hf]⟩

/-- A growth state lookup of a cached identifier in the state `getInstance` leaves. -/
theorem served_states (ids : TierIDs) (w : World) (id : Int) (obj : MaturityState)
    (hfind : ∃ fly, findEntry (World.getInstance ids w).1.states.cache id = some fly ∧
      fly.data = some obj) :
    ServedFrom (World.getInstance ids w).1.states id obj (World.getInstance ids w).2
      (World.getStates ids (World.getInstance ids w).2 id) := by
  obtain ⟨fly, hf, hdata⟩ := hfind
  exact ⟨fly, hf, hdata,
    by rw [world_getStates_eq, getInstance_idem, getStates_hit ids _ _ _ hf]⟩

theorem ctor_water_length (ids : TierIDs) (a : Addr) (w0 : World)
    (hd : [ids.lowWater, ids.midWater, ids.highWater, ids.alternatingWater].Nodup) :
    (Inventory.ctor ids a w0).1.waterStrategies.cache.length = 4 :=
  four_insertions_length _ _ _ _ _ _ _ _ _ _ _ _ _ rfl rfl rfl rfl hd

theorem ctor_sun_length (ids : TierIDs) (a : Addr) (w0 : World)
    (hd : [ids.lowSun, ids.midSun, ids.highSun, ids.alternatingSun].Nodup) :
    (Inventory.ctor ids a w0).1.sunStrategies.cache.length = 4 :=
  four_insertions_length _ _ _ _ _ _ _ _ _ _ _ _ _ rfl rfl rfl rfl hd

theorem ctor_states_length (ids : TierIDs) (a : Addr) (w0 : World)
    (hd : [ids.seed, ids.vegetative, ids.mature, ids.dead].Nodup) :
    (Inventory.ctor ids a w0).1.states.cache.length = 4 :=
  four_insertions_length _ _ _ _ _ _ _ _ _ _ _ _ _ rfl rfl rfl rfl hd

end TierLemmas

/-! ## The pre-populated tiers -/

/-- C17: when `getInstance()` has just constructed the inventory and the four tier
identifiers of each family are pairwise distinct, each of `getWaterFly`, `getSunFly` and
`getStates` applied to the identifier of a tier finds it in its cache, without entering
the fallback, and returns a flyweight that wraps the object of that tier; and each of the
three caches holds exactly four entries. -/
theorem constructor_populates_tiers (ids : TierIDs) (hd : ids.Distinct) (w : World)
    (hw : w.inst = none) :
    (ServedFrom (World.getInstance ids w).1.waterStrategies ids.lowWater
        WaterStrategy.LowWater (World.getInstance ids w).2
        (World.getWaterFly ids (World.getInstance ids w).2 ids.lowWater) ∧
      ServedFrom (World.getInstance ids w).1.waterStrategies ids.midWater
        WaterStrategy.MidWater (World.getInstance ids w).2
        (World.getWaterFly ids (World.getInstance ids w).2 ids.midWater) ∧
      ServedFrom (World.getInstance ids w).1.waterStrategies ids.highWater
        WaterStrategy.HighWater (World.getInstance ids w).2
        (World.getWaterFly ids (World.getInstance ids w).2 ids.highWater) ∧
      ServedFrom (World.getInstance ids w).1.waterStrategies ids.alternatingWater
        WaterStrategy.AlternatingWater (World.getInstance ids w).2
        (World.getWaterFly ids (World.getInstance ids w).2 ids.alternatingWater) ∧
      (World.getInstance ids w).1.waterStrategies.cache.length = 4) ∧
    (ServedFrom (World.getInstance ids w).1.sunStrategies ids.lowSun
        SunStrategy.LowSun (World.getInstance ids w).2
        (World.getSunFly ids (World.getInstance ids w).2 ids.lowSun) ∧
      ServedFrom (World.getInstance ids w).1.sunStrategies ids.midSun
        SunStrategy.MidSun (World.getInstance ids w).2
        (World.getSunFly ids (World.getInstance ids w).2 ids.midSun) ∧
      ServedFrom (World.getInstance ids w).1.sunStrategies ids.highSun
        SunStrategy.HighSun (World.getInstance ids w).2
        (World.getSunFly ids (World.getInstance ids w).2 ids.highSun) ∧
      ServedFrom (World.getInstance ids w).1.sunStrategies ids.alternatingSun
        SunStrategy.AlternatingSun (World.getInstance ids w).2
        (World.getSunFly ids (World.getInstance ids w).2 ids.alternatingSun) ∧
      (World.getInstance ids w).1.sunStrategies.cache.length = 4) ∧
    (ServedFrom (World.getInstance ids w).1.states ids.seed
        MaturityState.Seed (World.getInstance ids w).2
        (World.getStates ids (World.getInstance ids w).2 ids.seed) ∧
      ServedFrom (World.getInstance ids w).1.states ids.vegetative
        MaturityState.Vegetative (World.getInstance ids w).2
        (World.getStates ids (World.getInstance ids w).2 ids.vegetative) ∧
      ServedFrom (World.getInstance ids w).1.states ids.mature
        MaturityState.Mature (World.getInstance ids w).2
        (World.getStates ids (World.getInstance ids w).2 ids.mature) ∧
      ServedFrom (World.getInstance ids w).1.states ids.dead
        MaturityState.Dead (World.getInstance ids w).2
        (World.getStates ids (World.getInstance ids w).2 ids.dead) ∧
      (World.getInstance ids w).1.states.cache.length = 4) := by
  have hinv : (World.getInstance ids w).1
      = (Inventory.ctor ids w.heap.alloc.1 { w with heap := w.heap.alloc.2 }).1 := by
    rw [getInstance_of_none ids w hw]
  obtain ⟨hwater, hsun, hstates⟩ := hd
  refine ⟨?_, ?_, ?_⟩
  · obtain ⟨n21, n31, n32, n41, n42, n43⟩ := nodup_four hwater
    obtain ⟨_, c1, c2, c3, c4⟩ :=
      ctor_water ids w.heap.alloc.1 { w with heap := w.heap.alloc.2 }
    have hlen := ctor_water_length ids w.heap.alloc.1 { w with heap := w.heap.alloc.2 } hwater
    rw [← hinv] at c1 c2 c3 c4 hlen
    exact ⟨served_water ids w _ _ c1, served_water ids w _ _ (c2 n21),
      served_water ids w _ _ (c3 n31 n32), served_water ids w _ _ (c4 n41 n42 n43), hlen⟩
  · obtain ⟨n21, n31, n32, n41, n42, n43⟩ := nodup_four hsun
    obtain ⟨_, c1, c2, c3, c4⟩ :=
      ctor_sun ids w.heap.alloc.1 { w with heap := w.heap.alloc.2 }
    have hlen := ctor_sun_length ids w.heap.alloc.1 { w with heap := w.heap.alloc.2 } hsun
    rw [← hinv] at c1 c2 c3 c4 hlen
    exact ⟨served_sun ids w _ _ c1, served_sun ids w _ _ (c2 n21),
      served_sun ids w _ _ (c3 n31 n32), served_sun ids w _ _ (c4 n41 n42 n43), hlen⟩
  · obtain ⟨n21, n31, n32, n41, n42, n43⟩ := nodup_four hstates
    obtain ⟨_, c1, c2, c3, c4⟩ :=
      ctor_states ids w.heap.alloc.1 { w with heap := w.heap.alloc.2 }
    have hlen := ctor_states_length ids w.heap.alloc.1 { w with heap := w.heap.alloc.2 } hstates
    rw [← hinv] at c1 c2 c3 c4 hlen
    exact ⟨served_states ids w _ _ c1, served_states ids w _ _ (c2 n21),
      served_states ids w _ _ (c3 n31 n32), served_states ids w _ _ (c4 n41 n42 n43), hlen⟩

/-- Witness for C17: the sample identifiers at program start. -/
theorem constructor_populates_tiers_witness :
    sampleIDs.Distinct ∧ (World.init 100).inst = none ∧
    (World.getInstance sampleIDs (World.init 100)).1.waterStrategies.cache.length = 4 ∧
    ServedFrom (World.getInstance sampleIDs (World.init 100)).1.states sampleIDs.dead
      MaturityState.Dead (World.getInstance sampleIDs (World.init 100)).2
      (World.getStates sampleIDs (World.getInstance sampleIDs (World.init 100)).2
        sampleIDs.dead) :=
  ⟨by decide, rfl,
    (constructor_populates_tiers sampleIDs (by decide) (World.init 100) rfl).1.2.2.2.2,
    (constructor_populates_tiers sampleIDs (by decide) (World.init 100) rfl).2.2.2.2.2.1⟩

/-! ## The growth states -/

/-- Assigning a growth state whose identifier is cached stores the cached flyweight in
the entity and leaves the state as `getInstance` leaves it. -/
theorem setMaturity_hit (ids : TierIDs) (p : LivingPlant) (w : World) (id : Int)
    {fly : Flyweight MaturityState}
    (hfind : findEntry (World.getInstance ids w).1.states.cache id = some fly) :
    p.setMaturity ids w id
      = (Except.ok { p with maturityState := some fly }, (World.getInstance ids w).2) := by
  unfold LivingPlant.setMaturity
  simp only [world_getStates_eq, getStates_hit ids _ _ id hfind]

/-- C13: with pairwise distinct tier identifiers and in every reachable state, one `grow`
call of the `Mature` state, as the spec describes it, takes an entity in the `Mature`
state with age 119 and health 10, whatever its hydration and light levels, to age 120, to
the `Dead` state, and to hydration level, light level and health 0; and `tick()`, which
hands the entity to the `grow` of its state, returns that entity. -/
theorem mature_dies_at_terminal_age (ids : TierIDs) (hd : ids.Distinct) (w : World)
    (hr : World.Reachable ids w) (stay : LivingPlant → LivingPlant) (p : LivingPlant)
    (fly : Flyweight MaturityState) (hstate : p.maturityState = some fly)
    (hmature : fly.getState = some MaturityState.Mature)
    (hage : p.age = 119) (_hhealth : p.health = 10) :
    ∃ (q : LivingPlant) (w1 : World) (dead : Flyweight MaturityState),
      MaturityState.growMature ids stay p w = (Except.ok q, w1) ∧
      q.age = 120 ∧
      q.maturityState = some dead ∧ dead.getState = some MaturityState.Dead ∧
      (World.getStates ids w ids.dead).1 = Except.ok dead ∧
      q.waterLevel = 0 ∧ q.sunExposure = 0 ∧ q.health = 0 ∧
      (∀ b : Behaviour, b.grow MaturityState.Mature p = q → p.tick b = some q) := by
  have hs := reachable_sound ids w hr
  obtain ⟨a, w0, _, _, hstates⟩ := getInstance_tiers ids w hs
  obtain ⟨_, _, _, n41, n42, n43⟩ := nodup_four hd.2.2
  obtain ⟨_, _, _, _, c4⟩ := ctor_states ids a w0
  obtain ⟨dead, hdead, hdata⟩ := c4 n41 n42 n43
  rw [← hstates] at hdead
  have hset := setMaturity_hit ids (p.setAge (p.age + 1)) w ids.dead hdead
  have hcond : 120 ≤ (p.setAge (p.age + 1)).age ∨ (p.setAge (p.age + 1)).health = 0 := by
    refine Or.inl ?_
    show (120 : Int) ≤ p.age + 1
    rw [hage]
    decide
  have hgrow : MaturityState.growMature ids stay p w
      = (Except.ok
          ((({ p.setAge (p.age + 1) with maturityState := some dead } : LivingPlant).setWaterLevel
            0).setSunExposure 0 |>.setHealth 0),
         (World.getInstance ids w).2) := by
    unfold MaturityState.growMature
    simp only [if_pos hcond, hset]
  refine ⟨_, _, dead, hgrow, ?_, rfl, hdata, ?_, rfl, rfl, rfl, ?_⟩
  · show p.age + 1 = 120
    rw [hage]
    rfl
  · rw [world_getStates_eq, getStates_hit ids _ _ _ hdead]
  · intro b hb
    simp only [LivingPlant.tick, hstate, hmature, hb]

/-- Witness for C13: the sample entity, set to the `Mature` flyweight of the sample state,
to age 119 and to health 10. -/
theorem mature_dies_at_terminal_age_witness :
    sampleIDs.Distinct ∧ World.Reachable sampleIDs sampleStopped ∧
    ∃ (q : LivingPlant) (w1 : World) (dead : Flyweight MaturityState),
      MaturityState.growMature sampleIDs (fun x => x)
        { samplePlant with
          maturityState := some { addr := 112, data := some MaturityState.Mature },
          age := 119, health := 10 } sampleStopped = (Except.ok q, w1) ∧
      q.age = 120 ∧
      q.maturityState = some dead ∧ dead.getState = some MaturityState.Dead ∧
      (World.getStates sampleIDs sampleStopped sampleIDs.dead).1 = Except.ok dead ∧
      q.waterLevel = 0 ∧ q.sunExposure = 0 ∧ q.health = 0 ∧
      (∀ b : Behaviour,
        b.grow MaturityState.Mature
          { samplePlant with
            maturityState := some { addr := 112, data := some MaturityState.Mature },
            age := 119, health := 10 } = q →
        LivingPlant.tick b
          { samplePlant with
            maturityState := some { addr := 112, data := some MaturityState.Mature },
            age := 119, health := 10 } = some q) :=
  ⟨by decide, sampleStopped_reachable,
    mature_dies_at_terminal_age sampleIDs (by decide) sampleStopped sampleStopped_reachable
      (fun x => x)
      { samplePlant with
        maturityState := some { addr := 112, data := some MaturityState.Mature },
        age := 119, health := 10 }
      { addr := 112, data := some MaturityState.Mature } rfl rfl rfl rfl⟩

/-! ## Lemmas on the string cache -/

section StringLemmas

theorem fresh_mono {ID T : Type} [DecidableEq ID] (f : FlyweightFactory ID T) (h h' : Heap)
    (hf : f.Fresh h) (hle : h.next ≤ h'.next) : f.Fresh h' :=
  ⟨fun e he => Nat.lt_of_lt_of_le (hf.1 e he) hle, hf.2⟩

theorem getFlyweight_heap_le {ID T : Type} [DecidableEq ID] (f : FlyweightFactory ID T)
    (h : Heap) (id : ID) (data : Option T) :
    h.next ≤ (f.getFlyweight h id data).2.2.next := by
  unfold FlyweightFactory.getFlyweight
  cases findEntry f.cache id with
  | some fly => exact Nat.le_refl _
  | none =>
    cases data with
    | none => exact Nat.le_refl _
    | some d => exact Nat.le_succ _

theorem ctor_heap_le (ids : TierIDs) (a : Addr) (w : World) :
    w.heap.next ≤ (Inventory.ctor ids a w).2.heap.next := by
  unfold Inventory.ctor
  simp only
  refine Nat.le_trans (Nat.le_succ _) ?_
  iterate 11 refine Nat.le_trans ?_ (getFlyweight_heap_le _ _ _ _)
  exact getFlyweight_heap_le _ _ _ _

theorem getInstance_heap_le (ids : TierIDs) (w : World) :
    w.heap.next ≤ (World.getInstance ids w).2.heap.next := by
  cases hw : w.inst with
  | some inv => rw [getInstance_of_some ids w hw]
  | none =>
    rw [getInstance_of_none ids w hw]
    have h1 : w.heap.next ≤ w.heap.alloc.2.next := Nat.le_succ _
    exact Nat.le_trans h1
      (ctor_heap_le ids w.heap.alloc.1 { w with heap := w.heap.alloc.2 })

/-- A state whose instance has the string cache of the instance of a sound state, and
whose allocation mark is not lower, is sound. -/
theorem strings_transfer (w w' : World) (hs : w.StringsSound)
    (hinst : ∀ inv' : Inventory, w'.inst = some inv' →
      ∃ inv : Inventory, w.inst = some inv ∧ inv'.stringFactory = inv.stringFactory)
    (hheap : w.heap.next ≤ w'.heap.next) : w'.StringsSound := by
  intro inv' hinv'
  obtain ⟨inv, hinv, hsame⟩ := hinst inv' hinv'
  obtain ⟨hf, hk⟩ := hs inv hinv
  rw [hsame]
  exact ⟨fresh_mono _ _ _ hf hheap, hk⟩

theorem getInstance_strings (ids : TierIDs) (w : World) (hs : w.StringsSound) :
    (World.getInstance ids w).2.StringsSound := by
  cases hw : w.inst with
  | some inv =>
    rw [getInstance_of_some ids w hw]
    exact hs
  | none =>
    intro inv hinv
    rw [getInstance_inst] at hinv
    have hinv' := Option.some.inj hinv
    rw [← hinv', getInstance_of_none ids w hw]
    refine ⟨⟨?_, ?_⟩, ?_⟩
    · intro e he
      simp [Inventory.ctor, FlyweightFactory.new] at he
    · simp [Inventory.ctor, FlyweightFactory.new]
    · intro e he
      simp [Inventory.ctor, FlyweightFactory.new] at he

/-- What `getString` does to a sound string cache: the cache stays sound, it keeps every
entry, and the flyweight returned is the entry under the string and holds the string. -/
theorem getString_sound (inv : Inventory) (h : Heap) (str : String)
    (hf : inv.stringFactory.Fresh h) (hk : inv.stringFactory.Keyed) :
    (inv.getString h str).2.1.stringFactory.Fresh (inv.getString h str).2.2 ∧
    (inv.getString h str).2.1.stringFactory.Keyed ∧
    (∀ (k : String) (fly : Flyweight HeapString),
      findEntry inv.stringFactory.cache k = some fly →
      findEntry (inv.getString h str).2.1.stringFactory.cache k = some fly) ∧
    ∃ (fly : Flyweight HeapString) (a : Addr),
      (inv.getString h str).1 = Except.ok fly ∧
      findEntry (inv.getString h str).2.1.stringFactory.cache str = some fly ∧
      fly.data = some { addr := a, val := str } := by
  have hf1 : inv.stringFactory.Fresh h.alloc.2 := fresh_mono _ _ _ hf (Nat.le_succ _)
  have hfresh := getFlyweight_fresh inv.stringFactory h.alloc.2 str
    (some { addr := h.alloc.1, val := str }) hf1
  refine ⟨hfresh, ?_, ?_, ?_⟩
  · show FlyweightFactory.Keyed (inv.stringFactory.getFlyweight h.alloc.2 str
      (some { addr := h.alloc.1, val := str })).2.1
    cases hfind : findEntry inv.stringFactory.cache str with
    | some fly =>
      rw [getFlyweight_hit _ _ _ _ hfind]
      exact hk
    | none =>
      rw [getFlyweight_insert _ _ _ _ hfind]
      intro e he
      rcases List.mem_cons.1 he with he | he
      · rw [he]
        exact ⟨_, rfl⟩
      · exact hk e he
  · intro k fly hfly
    exact getFlyweight_keeps inv.stringFactory h.alloc.2 str _ hfly
  · show ∃ (fly : Flyweight HeapString) (a : Addr),
      (inv.stringFactory.getFlyweight h.alloc.2 str
        (some { addr := h.alloc.1, val := str })).1 = Except.ok fly ∧
      findEntry (inv.stringFactory.getFlyweight h.alloc.2 str
        (some { addr := h.alloc.1, val := str })).2.1.cache str = some fly ∧
      fly.data = some { addr := a, val := str }
    cases hfind : findEntry inv.stringFactory.cache str with
    | some fly =>
      obtain ⟨a, ha⟩ := hk (str, fly) (findEntry_mem hfind)
      rw [getFlyweight_hit _ _ _ _ hfind]
      exact ⟨fly, a, rfl, hfind, ha⟩
    | none =>
      rw [getFlyweight_insert _ _ _ _ hfind]
      exact ⟨_, h.alloc.1, rfl, by simp [findEntry], rfl⟩

/-- The string lookup through the singleton in a sound state. -/
theorem world_getString_sound (ids : TierIDs) (w : World) (str : String)
    (hs : w.StringsSound) :
    (World.getString ids w str).2.StringsSound ∧
    ∃ (fly : Flyweight HeapString) (a : Addr) (inv' : Inventory),
      (World.getString ids w str).1 = Except.ok fly ∧
      fly.data = some { addr := a, val := str } ∧
      (World.getString ids w str).2.inst = some inv' ∧
      findEntry inv'.stringFactory.cache str = some fly ∧
      (∀ (k : String) (g : Flyweight HeapString),
        findEntry (World.getInstance ids w).1.stringFactory.cache k = some g →
        findEntry inv'.stringFactory.cache k = some g) := by
  obtain ⟨hf, hk⟩ := getInstance_strings ids w hs _ (getInstance_inst ids w)
  obtain ⟨hf', hk', hkeep, fly, a, hres, hfind, hdata⟩ :=
    getString_sound (World.getInstance ids w).1 (World.getInstance ids w).2.heap str hf hk
  refine ⟨?_, fly, a, _, hres, hdata, rfl, hfind, hkeep⟩
  intro inv hinv
  have : ((World.getInstance ids w).1.getString (World.getInstance ids w).2.heap str).2.1
      = inv := Option.some.inj hinv
  rw [← this]
  exact ⟨hf', hk'⟩

theorem step_strings (ids : TierIDs) (w : World) (c : Call) (hs : w.StringsSound) :
    (World.step ids w c).StringsSound := by
  have hg := getInstance_strings ids w hs
  have hi := getInstance_inst ids w
  cases c with
  | getInstance => exact hg
  | destroy =>
    refine strings_transfer w _ hs ?_ ?_
    · intro inv' hinv'
      simp only [World.step, World.destroy] at hinv'
      cases hw : w.inst with
      | none => rw [hw] at hinv'; simp only [hw] at hinv'; exact Option.noConfusion hinv'
      | some inv => rw [hw] at hinv'; exact Option.noConfusion hinv'
    · simp only [World.step, World.destroy, World.stopTicker]
      split
      · exact Nat.le_refl _
      · split
        · split
          · split <;> exact Nat.le_refl _
          · exact Nat.le_refl _
        · exact Nat.le_refl _
  | startTicker =>
    refine strings_transfer _ _ hg ?_ ?_
    · intro inv' hinv'
      refine ⟨inv', ?_, rfl⟩
      simp only [World.step, World.startTicker] at hinv'
      split at hinv'
      · split at hinv' <;> exact hinv'
      · exact hinv'
    · simp only [World.step, World.startTicker]
      split
      · split
        · exact Nat.le_succ _
        · exact Nat.le_refl _
      · exact Nat.le_refl _
  | stopTicker =>
    refine strings_transfer w _ hs ?_ ?_
    · intro inv' hinv'
      refine ⟨inv', ?_, rfl⟩
      simp only [World.step, World.stopTicker] at hinv'
      split at hinv'
      · split at hinv'
        · split at hinv' <;> exact hinv'
        · exact hinv'
      · exact hinv'
    · simp only [World.step, World.stopTicker]
      split
      · split
        · split <;> exact Nat.le_refl _
        · exact Nat.le_refl _
      · exact Nat.le_refl _
  | getString str => exact (world_getString_sound ids w str hs).1
  | getWaterFly id =>
    show (World.getWaterFly ids w id).2.StringsSound
    rw [world_getWaterFly_state]
    exact hg
  | getSunFly id =>
    show (World.getSunFly ids w id).2.StringsSound
    rw [world_getSunFly_state]
    exact hg
  | getStates id =>
    show (World.getStates ids w id).2.StringsSound
    rw [world_getStates_state]
    exact hg
  | addStaff staff =>
    refine strings_transfer _ _ hg ?_ (Nat.le_refl _)
    intro inv' hinv'
    exact ⟨_, hi, by rw [← Option.some.inj hinv']; rfl⟩
  | addCustomer customer =>
    refine strings_transfer _ _ hg ?_ (Nat.le_refl _)
    intro inv' hinv'
    exact ⟨_, hi, by rw [← Option.some.inj hinv']; rfl⟩
  | allocate n =>
    refine strings_transfer w _ hs ?_ (Nat.le_add_right _ _)
    intro inv' hinv'
    exact ⟨inv', hinv', rfl⟩

theorem reachable_strings (ids : TierIDs) (w : World) (hr : World.Reachable ids w) :
    w.StringsSound := by
  obtain ⟨n, calls, rfl⟩ := hr
  have hrun : ∀ (l : List Call) (v : World), v.StringsSound →
      (World.run ids v l).StringsSound := by
    intro l
    induction l with
    | nil => intro v hv; exact hv
    | cons c rest ih => intro v hv; exact ih _ (step_strings ids v c hv)
  exact hrun calls _ (fun inv hinv => Option.noConfusion hinv)

end StringLemmas

/-! ## The string cache -/

/-- C18: in every reachable state and for all strings `a` and `b`, the empty string
included, `getString(a)` returns a flyweight whose state is a string equal to `a`, and
`getString(b)` called after it returns the identical flyweight (the same address, and then
the same object) if and only if `a = b`; so calling `getString(a)` twice returns the same
flyweight. -/
theorem getString_identical_iff_equal (ids : TierIDs) (w : World)
    (hr : World.Reachable ids w) (a b : String) :
    ∃ (f1 f2 : Flyweight HeapString) (s1 : HeapString),
      (World.getString ids w a).1 = Except.ok f1 ∧
      f1.getState = some s1 ∧ s1.val = a ∧
      (World.getString ids (World.getString ids w a).2 b).1 = Except.ok f2 ∧
      (f1.addr = f2.addr ↔ a = b) ∧ (f1 = f2 ↔ a = b) := by
  have hs := reachable_strings ids w hr
  obtain ⟨hs1, f1, a1, inv1, hres1, hdata1, hinst1, hfind1, _⟩ :=
    world_getString_sound ids w a hs
  obtain ⟨hs2, f2, a2, inv2, hres2, _, hinst2, hfind2, hkeep2⟩ :=
    world_getString_sound ids (World.getString ids w a).2 b hs1
  rw [getInstance_of_some ids _ hinst1] at hkeep2
  have hkept : findEntry inv2.stringFactory.cache a = some f1 := hkeep2 a f1 hfind1
  have hfresh := (hs2 inv2 hinst2).1
  have key : f1.addr = f2.addr → a = b := by
    intro ha
    have he := entry_eq_of_addr_eq hfresh.2 (findEntry_mem hkept) (findEntry_mem hfind2) ha
    exact congrArg Prod.fst he
  have back : a = b → f1 = f2 := by
    intro hab
    rw [hab, hfind2] at hkept
    exact (Option.some.inj hkept).symm
  refine ⟨f1, f2, { addr := a1, val := a }, hres1, hdata1, rfl, hres2, ?_, ?_⟩
  · exact ⟨key, fun hab => congrArg Flyweight.addr (back hab)⟩
  · exact ⟨fun he => key (congrArg Flyweight.addr he), back⟩

/-- Witness for C18: the strings "Spring" and "Summer" in the sample state, where
"Spring" is cached already. -/
theorem getString_identical_iff_equal_witness :
    World.Reachable sampleIDs sampleStopped ∧
    ∃ (f1 f2 : Flyweight HeapString) (s1 : HeapString),
      (World.getString sampleIDs sampleStopped "Spring").1 = Except.ok f1 ∧
      f1.getState = some s1 ∧ s1.val = "Spring" ∧
      (World.getString sampleIDs (World.getString sampleIDs sampleStopped "Spring").2
        "Summer").1 = Except.ok f2 ∧
      (f1.addr = f2.addr ↔ "Spring" = "Summer") ∧ (f1 = f2 ↔ "Spring" = "Summer") :=
  ⟨sampleStopped_reachable,
    getString_identical_iff_equal sampleIDs sampleStopped sampleStopped_reachable
      "Spring" "Summer"⟩

/-! ## Season aggregates -/

section SeasonLemmas

/-- Two lookups of one string in a row return one flyweight. -/
theorem getString_twice (ids : TierIDs) (w : World) (str : String) (hs : w.StringsSound) :
    ∃ fly : Flyweight HeapString,
      (World.getString ids w str).1 = Except.ok fly ∧
      (World.getString ids (World.getString ids w str).2 str).1 = Except.ok fly := by
  obtain ⟨hs1, f1, _, inv1, hres1, _, hinst1, hfind1, _⟩ :=
    world_getString_sound ids w str hs
  obtain ⟨_, f2, _, inv2, hres2, _, _, hfind2, hkeep2⟩ :=
    world_getString_sound ids (World.getString ids w str).2 str hs1
  rw [getInstance_of_some ids _ hinst1] at hkeep2
  have hkept := hkeep2 str f1 hfind1
  rw [hfind2] at hkept
  have : f2 = f1 := Option.some.inj hkept
  rw [this] at hres2
  exact ⟨f1, hres1, hres2⟩

/-- The string constructor of the aggregate leaves the state as `getString` leaves it and
stores the flyweight `getString` returns. -/
theorem ofString_eq (ids : TierIDs) (plants : Addr) (season : String) (w : World)
    {fly : Flyweight HeapString} (hfly : (World.getString ids w season).1 = Except.ok fly) :
    AggSeason.ofString ids plants season w
      = (Except.ok { plants := plants, targetSeason := some fly },
         (World.getString ids w season).2) := by
  unfold AggSeason.ofString
  simp only [hfly]

end SeasonLemmas

/-- C21: in every reachable state, for every plant list and every season string `s`, the
aggregate built from the string `s` and the aggregate built from the flyweight
`getString(s)` hold the identical target-season flyweight, whichever of the two is obtained
first; the two aggregates are equal, so whatever an iterator computes from one it computes
from the other. -/
theorem aggSeason_constructors_agree (ids : TierIDs) (w : World)
    (hr : World.Reachable ids w) (plants : Addr) (s : String) :
    (∃ (fly : Flyweight HeapString) (agg : AggSeason),
      (World.getString ids w s).1 = Except.ok fly ∧
      (AggSeason.ofString ids plants s (World.getString ids w s).2).1 = Except.ok agg ∧
      agg.targetSeason = some fly ∧
      agg = AggSeason.ofFlyweight plants (some fly) ∧
      ∀ (α : Type) (iterate : AggSeason → α),
        iterate agg = iterate (AggSeason.ofFlyweight plants (some fly))) ∧
    (∃ (fly : Flyweight HeapString) (agg : AggSeason),
      (AggSeason.ofString ids plants s w).1 = Except.ok agg ∧
      (World.getString ids (AggSeason.ofString ids plants s w).2 s).1 = Except.ok fly ∧
      agg.targetSeason = some fly ∧
      agg = AggSeason.ofFlyweight plants (some fly) ∧
      ∀ (α : Type) (iterate : AggSeason → α),
        iterate agg = iterate (AggSeason.ofFlyweight plants (some fly))) := by
  have hs := reachable_strings ids w hr
  obtain ⟨fly, h1, h2⟩ := getString_twice ids w s hs
  refine ⟨⟨fly, { plants := plants, targetSeason := some fly }, h1, ?_, rfl, rfl,
    fun _ _ => rfl⟩, ⟨fly, { plants := plants, targetSeason := some fly }, ?_, ?_, rfl, rfl,
    fun _ _ => rfl⟩⟩
  · rw [ofString_eq ids plants s _ h2]
  · rw [ofString_eq ids plants s w h1]
  · rw [ofString_eq ids plants s w h1]
    exact h2

/-- Witness for C21: the season "Spring" in the sample state. -/
theorem aggSeason_constructors_agree_witness :
    World.Reachable sampleIDs sampleStopped ∧
    ∃ (fly : Flyweight HeapString) (agg : AggSeason),
      (World.getString sampleIDs sampleStopped "Spring").1 = Except.ok fly ∧
      (AggSeason.ofString sampleIDs 50 "Spring"
        (World.getString sampleIDs sampleStopped "Spring").2).1 = Except.ok agg ∧
      agg.targetSeason = some fly ∧
      agg = AggSeason.ofFlyweight 50 (some fly) ∧
      ∀ (α : Type) (iterate : AggSeason → α),
        iterate agg = iterate (AggSeason.ofFlyweight 50 (some fly)) :=
  ⟨sampleStopped_reachable,
    (aggSeason_constructors_agree sampleIDs sampleStopped sampleStopped_reachable 50
      "Spring").1⟩

/-! ## Lemmas on lookups in reachable states -/

section LookupLemmas

/-- A hydration lookup in a sound state returns normally: the cached flyweight when the
identifier is cached, the `LowWater` flyweight otherwise. -/
theorem world_getWaterFly_total (ids : TierIDs) (w : World) (hs : World.Sound ids w)
    (id : Int) :
    ∃ fly : Flyweight WaterStrategy,
      World.getWaterFly ids w id = (Except.ok fly, (World.getInstance ids w).2) ∧
      (∀ g, findEntry (World.getInstance ids w).1.waterStrategies.cache id = some g →
        fly = g) ∧
      (findEntry (World.getInstance ids w).1.waterStrategies.cache id = none →
        findEntry (World.getInstance ids w).1.waterStrategies.cache ids.lowWater = some fly ∧
        fly.getState = some WaterStrategy.LowWater) := by
  obtain ⟨a, w0, hwater, _, _⟩ := getInstance_tiers ids w hs
  obtain ⟨_, ⟨low, hlow, hdata⟩, _⟩ := ctor_water ids a w0
  rw [← hwater] at hlow
  cases hfind : findEntry (World.getInstance ids w).1.waterStrategies.cache id with
  | some g =>
    refine ⟨g, ?_, fun g' hg' => (Option.some.inj hg').symm ▸ rfl, fun hc => Option.noConfusion hc⟩
    rw [world_getWaterFly_eq, getWaterFly_hit ids _ _ _ hfind]
  | none =>
    refine ⟨low, ?_, fun g' hg' => Option.noConfusion hg', fun _ => ⟨hlow, hdata⟩⟩
    rw [world_getWaterFly_eq, getWaterFly_miss ids _ _ id hfind,
      getFlyweight_hit _ _ _ none hlow]

/-- A light lookup in a sound state returns normally. -/
theorem world_getSunFly_total (ids : TierIDs) (w : World) (hs : World.Sound ids w)
    (id : Int) :
    ∃ fly : Flyweight SunStrategy,
      World.getSunFly ids w id = (Except.ok fly, (World.getInstance ids w).2) ∧
      (∀ g, findEntry (World.getInstance ids w).1.sunStrategies.cache id = some g →
        fly = g) ∧
      (findEntry (World.getInstance ids w).1.sunStrategies.cache id = none →
        findEntry (World.getInstance ids w).1.sunStrategies.cache ids.lowSun = some fly ∧
        fly.getState = some SunStrategy.LowSun) := by
  obtain ⟨a, w0, _, hsun, _⟩ := getInstance_tiers ids w hs
  obtain ⟨_, ⟨low, hlow, hdata⟩, _⟩ := ctor_sun ids a w0
  rw [← hsun] at hlow
  cases hfind : findEntry (World.getInstance ids w).1.sunStrategies.cache id with
  | some g =>
    refine ⟨g, ?_, fun g' hg' => (Option.some.inj hg').symm ▸ rfl, fun hc => Option.noConfusion hc⟩
    rw [world_getSunFly_eq, getSunFly_hit ids _ _ _ hfind]
  | none =>
    refine ⟨low, ?_, fun g' hg' => Option.noConfusion hg', fun _ => ⟨hlow, hdata⟩⟩
    rw [world_getSunFly_eq, getSunFly_miss ids _ _ id hfind,
      getFlyweight_hit _ _ _ none hlow]

/-- A growth state lookup in a sound state returns normally. -/
theorem world_getStates_total (ids : TierIDs) (w : World) (hs : World.Sound ids w)
    (id : Int) :
    ∃ fly : Flyweight MaturityState,
      World.getStates ids w id = (Except.ok fly, (World.getInstance ids w).2) ∧
      (∀ g, findEntry (World.getInstance ids w).1.states.cache id = some g → fly = g) ∧
      (findEntry (World.getInstance ids w).1.states.cache id = none →
        findEntry (World.getInstance ids w).1.states.cache ids.seed = some fly ∧
        fly.getState = some MaturityState.Seed) := by
  obtain ⟨a, w0, _, _, hstates⟩ := getInstance_tiers ids w hs
  obtain ⟨_, ⟨low, hlow, hdata⟩, _⟩ := ctor_states ids a w0
  rw [← hstates] at hlow
  cases hfind : findEntry (World.getInstance ids w).1.states.cache id with
  | some g =>
    refine ⟨g, ?_, fun g' hg' => (Option.some.inj hg').symm ▸ rfl, fun hc => Option.noConfusion hc⟩
    rw [world_getStates_eq, getStates_hit ids _ _ _ hfind]
  | none =>
    refine ⟨low, ?_, fun g' hg' => Option.noConfusion hg', fun _ => ⟨hlow, hdata⟩⟩
    rw [world_getStates_eq, getStates_miss ids _ _ id hfind,
      getFlyweight_hit _ _ _ none hlow]

theorem keys_of_content {ID T : Type} (f : FlyweightFactory ID T) :
    f.keys = f.content.map Prod.fst := by
  simp [FlyweightFactory.keys, FlyweightFactory.content, List.map_map, Function.comp_def]

/-- What a cache holds after a request depends on what it held, not on addresses. -/
theorem content_getFlyweight {ID T : Type} [DecidableEq ID] (f f' : FlyweightFactory ID T)
    (h h' : Heap) (id : ID) (data : Option T) (hc : f.content = f'.content) :
    (f.getFlyweight h id data).2.1.content = (f'.getFlyweight h' id data).2.1.content := by
  have hk : f.keys = f'.keys := by rw [keys_of_content, keys_of_content, hc]
  cases hfind : findEntry f.cache id with
  | some fly =>
    have hin : id ∈ f'.keys := hk ▸ findEntry_isSome_iff.1 (by rw [hfind]; rfl)
    obtain ⟨fly', hfly'⟩ := Option.isSome_iff_exists.1 (findEntry_isSome_iff.2 hin)
    rw [getFlyweight_hit f h id data hfind, getFlyweight_hit f' h' id data hfly']
    exact hc
  | none =>
    have hout : id ∉ f'.keys := hk ▸ findEntry_none_iff.1 hfind
    have hfind' := findEntry_none_iff.2 hout
    cases data with
    | none =>
      rw [getFlyweight_null_miss f h id hfind, getFlyweight_null_miss f' h' id hfind']
      exact hc
    | some d =>
      rw [getFlyweight_insert f h id d hfind, getFlyweight_insert f' h' id d hfind']
      simp only [FlyweightFactory.content, List.map_cons] at hc ⊢
      rw [hc]

/-- What the three caches hold after the constructor does not depend on the state the
constructor started in. -/
theorem ctor_content (ids : TierIDs) (a a' : Addr) (w w' : World) :
    (Inventory.ctor ids a w).1.waterStrategies.content
      = (Inventory.ctor ids a' w').1.waterStrategies.content ∧
    (Inventory.ctor ids a w).1.sunStrategies.content
      = (Inventory.ctor ids a' w').1.sunStrategies.content ∧
    (Inventory.ctor ids a w).1.states.content
      = (Inventory.ctor ids a' w').1.states.content :=
  ⟨content_getFlyweight _ _ _ _ _ _ (content_getFlyweight _ _ _ _ _ _
      (content_getFlyweight _ _ _ _ _ _ (content_getFlyweight _ _ _ _ _ _ rfl))),
   content_getFlyweight _ _ _ _ _ _ (content_getFlyweight _ _ _ _ _ _
      (content_getFlyweight _ _ _ _ _ _ (content_getFlyweight _ _ _ _ _ _ rfl))),
   content_getFlyweight _ _ _ _ _ _ (content_getFlyweight _ _ _ _ _ _
      (content_getFlyweight _ _ _ _ _ _ (content_getFlyweight _ _ _ _ _ _ rfl)))⟩

end LookupLemmas

/-! ## Lookups in reachable states -/

/-- Counterexample to C22: in the sample state the identifier 5000 is not cached, and
`getStates(5000)` throws nothing: it returns the `Seed` flyweight. -/
theorem getStates_unknown_id_returns_seed :
    (5000 : Int) ∉ (World.getInstance sampleIDs sampleStopped).1.states.keys ∧
    (World.getStates sampleIDs sampleStopped 5000).1.toOption
      = some { addr := 110, data := some MaturityState.Seed } := by
  decide

/-- C22 (amended): in every reachable state `getStates(id)` throws for no `id`: it
returns the cached growth state flyweight when `id` is cached and the `Seed` flyweight when
it is not, and leaves the state as `getInstance` leaves it. -/
theorem getStates_never_throws (ids : TierIDs) (w : World) (hr : World.Reachable ids w)
    (id : Int) :
    ∃ fly : Flyweight MaturityState,
      World.getStates ids w id = (Except.ok fly, (World.getInstance ids w).2) ∧
      (∀ g, findEntry (World.getInstance ids w).1.states.cache id = some g → fly = g) ∧
      (id ∉ (World.getInstance ids w).1.states.keys →
        findEntry (World.getInstance ids w).1.states.cache ids.seed = some fly ∧
        fly.getState = some MaturityState.Seed) := by
  obtain ⟨fly, h1, h2, h3⟩ := world_getStates_total ids w (reachable_sound ids w hr) id
  exact ⟨fly, h1, h2, fun hid => h3 (findEntry_none_iff.2 hid)⟩

/-- Witness for C22 (amended): the identifier 5000 in the sample state. -/
theorem getStates_never_throws_witness :
    World.Reachable sampleIDs sampleStopped ∧
    ∃ fly : Flyweight MaturityState,
      World.getStates sampleIDs sampleStopped 5000
        = (Except.ok fly, (World.getInstance sampleIDs sampleStopped).2) ∧
      (∀ g, findEntry (World.getInstance sampleIDs sampleStopped).1.states.cache 5000
        = some g → fly = g) ∧
      ((5000 : Int) ∉ (World.getInstance sampleIDs sampleStopped).1.states.keys →
        findEntry (World.getInstance sampleIDs sampleStopped).1.states.cache sampleIDs.seed
          = some fly ∧
        fly.getState = some MaturityState.Seed) :=
  ⟨sampleStopped_reachable,
    getStates_never_throws sampleIDs sampleStopped sampleStopped_reachable 5000⟩

/-- C27: in every reachable state and for every integer `id`, `setWaterStrategy(id)` stores
in the entity exactly the flyweight `getWaterFly(id)` returns, the `LowWater` flyweight for
an `id` that is not cached, and changes no other member; a second entity given the same
`id` afterwards references the identical flyweight; `setSunStrategy` with `getSunFly` and
`setMaturity` with `getStates` behave the same way. -/
theorem setters_reference_cached_flyweight (ids : TierIDs) (w : World)
    (hr : World.Reachable ids w) (p p2 : LivingPlant) (id : Int) :
    (∃ fly : Flyweight WaterStrategy,
      (World.getWaterFly ids w id).1 = Except.ok fly ∧
      p.setWaterStrategy ids w id
        = (Except.ok { p with waterStrategy := some fly }, (World.getWaterFly ids w id).2) ∧
      p2.setWaterStrategy ids (p.setWaterStrategy ids w id).2 id
        = (Except.ok { p2 with waterStrategy := some fly },
            (World.getWaterFly ids w id).2) ∧
      (id ∉ (World.getInstance ids w).1.waterStrategies.keys →
        fly.getState = some WaterStrategy.LowWater)) ∧
    (∃ fly : Flyweight SunStrategy,
      (World.getSunFly ids w id).1 = Except.ok fly ∧
      p.setSunStrategy ids w id
        = (Except.ok { p with sunStrategy := some fly }, (World.getSunFly ids w id).2) ∧
      p2.setSunStrategy ids (p.setSunStrategy ids w id).2 id
        = (Except.ok { p2 with sunStrategy := some fly }, (World.getSunFly ids w id).2) ∧
      (id ∉ (World.getInstance ids w).1.sunStrategies.keys →
        fly.getState = some SunStrategy.LowSun)) ∧
    (∃ fly : Flyweight MaturityState,
      (World.getStates ids w id).1 = Except.ok fly ∧
      p.setMaturity ids w id
        = (Except.ok { p with maturityState := some fly }, (World.getStates ids w id).2) ∧
      p2.setMaturity ids (p.setMaturity ids w id).2 id
        = (Except.ok { p2 with maturityState := some fly }, (World.getStates ids w id).2) ∧
      (id ∉ (World.getInstance ids w).1.states.keys →
        fly.getState = some MaturityState.Seed)) := by
  have hs := reachable_sound ids w hr
  have hs' := (getInstance_sound ids w hs).1
  refine ⟨?_, ?_, ?_⟩
  · obtain ⟨fly, h1, _, h3⟩ := world_getWaterFly_total ids w hs id
    obtain ⟨fly', h1', _, _⟩ := world_getWaterFly_total ids _ hs' id
    rw [getInstance_idem] at h1'
    have hsame : fly' = fly := by
      have e1 := world_getWaterFly_eq ids w id
      have e2 := world_getWaterFly_eq ids (World.getInstance ids w).2 id
      rw [getInstance_idem] at e2
      rw [h1] at e1
      rw [h1'] at e2
      have := congrArg Prod.fst (e2.trans e1.symm)
      exact Except.ok.inj this
    rw [hsame] at h1'
    have hp : p.setWaterStrategy ids w id
        = (Except.ok { p with waterStrategy := some fly }, (World.getInstance ids w).2) := by
      unfold LivingPlant.setWaterStrategy
      simp only [h1]
    refine ⟨fly, by rw [h1], by rw [hp, h1], ?_, fun hid => (h3 (findEntry_none_iff.2 hid)).2⟩
    rw [hp, h1]
    unfold LivingPlant.setWaterStrategy
    simp only [h1']
  · obtain ⟨fly, h1, _, h3⟩ := world_getSunFly_total ids w hs id
    obtain ⟨fly', h1', _, _⟩ := world_getSunFly_total ids _ hs' id
    rw [getInstance_idem] at h1'
    have hsame : fly' = fly := by
      have e1 := world_getSunFly_eq ids w id
      have e2 := world_getSunFly_eq ids (World.getInstance ids w).2 id
      rw [getInstance_idem] at e2
      rw [h1] at e1
      rw [h1'] at e2
      have := congrArg Prod.fst (e2.trans e1.symm)
      exact Except.ok.inj this
    rw [hsame] at h1'
    have hp : p.setSunStrategy ids w id
        = (Except.ok { p with sunStrategy := some fly }, (World.getInstance ids w).2) := by
      unfold LivingPlant.setSunStrategy
      simp only [h1]
    refine ⟨fly, by rw [h1], by rw [hp, h1], ?_, fun hid => (h3 (findEntry_none_iff.2 hid)).2⟩
    rw [hp, h1]
    unfold LivingPlant.setSunStrategy
    simp only [h1']
  · obtain ⟨fly, h1, _, h3⟩ := world_getStates_total ids w hs id
    obtain ⟨fly', h1', _, _⟩ := world_getStates_total ids _ hs' id
    rw [getInstance_idem] at h1'
    have hsame : fly' = fly := by
      have e1 := world_getStates_eq ids w id
      have e2 := world_getStates_eq ids (World.getInstance ids w).2 id
      rw [getInstance_idem] at e2
      rw [h1] at e1
      rw [h1'] at e2
      have := congrArg Prod.fst (e2.trans e1.symm)
      exact Except.ok.inj this
    rw [hsame] at h1'
    have hp : p.setMaturity ids w id
        = (Except.ok { p with maturityState := some fly }, (World.getInstance ids w).2) := by
      unfold LivingPlant.setMaturity
      simp only [h1]
    refine ⟨fly, by rw [h1], by rw [hp, h1], ?_, fun hid => (h3 (findEntry_none_iff.2 hid)).2⟩
    rw [hp, h1]
    unfold LivingPlant.setMaturity
    simp only [h1']

/-- Witness for C27: the sample entity and a copy of it, given the unknown identifier 5000
in the sample state. -/
theorem setters_reference_cached_flyweight_witness :
    World.Reachable sampleIDs sampleStopped ∧
    (5000 : Int) ∉ (World.getInstance sampleIDs sampleStopped).1.waterStrategies.keys ∧
    ∃ fly : Flyweight WaterStrategy,
      (World.getWaterFly sampleIDs sampleStopped 5000).1 = Except.ok fly ∧
      samplePlant.setWaterStrategy sampleIDs sampleStopped 5000
        = (Except.ok { samplePlant with waterStrategy := some fly },
            (World.getWaterFly sampleIDs sampleStopped 5000).2) ∧
      samplePlant.copyCtor.setWaterStrategy sampleIDs
          (samplePlant.setWaterStrategy sampleIDs sampleStopped 5000).2 5000
        = (Except.ok { samplePlant.copyCtor with waterStrategy := some fly },
            (World.getWaterFly sampleIDs sampleStopped 5000).2) ∧
      ((5000 : Int) ∉ (World.getInstance sampleIDs sampleStopped).1.waterStrategies.keys →
        fly.getState = some WaterStrategy.LowWater) :=
  ⟨sampleStopped_reachable, by decide,
    (setters_reference_cached_flyweight sampleIDs sampleStopped sampleStopped_reachable
      samplePlant samplePlant.copyCtor 5000).1⟩

/-- C28: for every integer `id`, cached or not, `getWaterFly(id)`, `getSunFly(id)` and
`getStates(id)` leave the inventory, all its caches included, and the free store exactly
as they were; so in every reachable state with an instance each lookup leaves the whole
state unchanged and returns normally (the fallback lookup cannot fail), and each strategy
and state cache holds exactly the keys and objects its constructor inserted. -/
theorem lookups_leave_caches_unchanged (ids : TierIDs) :
    (∀ (inv : Inventory) (h : Heap) (id : Int),
      (inv.getWaterFly ids h id).2 = (inv, h) ∧
      (inv.getSunFly ids h id).2 = (inv, h) ∧
      (inv.getStates ids h id).2 = (inv, h)) ∧
    (∀ (w : World) (inv : Inventory) (id : Int), World.Reachable ids w →
      w.inst = some inv →
      (∃ fly, World.getWaterFly ids w id = (Except.ok fly, w)) ∧
      (∃ fly, World.getSunFly ids w id = (Except.ok fly, w)) ∧
      (∃ fly, World.getStates ids w id = (Except.ok fly, w)) ∧
      (∀ (a0 : Addr) (w0 : World),
        inv.waterStrategies.content = (Inventory.ctor ids a0 w0).1.waterStrategies.content ∧
        inv.sunStrategies.content = (Inventory.ctor ids a0 w0).1.sunStrategies.content ∧
        inv.states.content = (Inventory.ctor ids a0 w0).1.states.content)) := by
  refine ⟨fun inv h id => ⟨getWaterFly_state ids inv h id, getSunFly_state ids inv h id,
    getStates_state ids inv h id⟩, ?_⟩
  intro w inv id hr hw
  have hs := reachable_sound ids w hr
  have hg : (World.getInstance ids w).2 = w := by rw [getInstance_of_some ids w hw]
  obtain ⟨f1, h1, _⟩ := world_getWaterFly_total ids w hs id
  obtain ⟨f2, h2, _⟩ := world_getSunFly_total ids w hs id
  obtain ⟨f3, h3, _⟩ := world_getStates_total ids w hs id
  rw [hg] at h1 h2 h3
  refine ⟨⟨f1, h1⟩, ⟨f2, h2⟩, ⟨f3, h3⟩, ?_⟩
  intro a0 w0
  obtain ⟨a, v, e1, e2, e3⟩ := hs.tiers inv hw
  obtain ⟨c1, c2, c3⟩ := ctor_content ids a a0 v w0
  rw [e1, e2, e3]
  exact ⟨c1, c2, c3⟩

/-- Witness for C28: the unknown identifier 5000 in the sample state in which the driver
runs. -/
theorem lookups_leave_caches_unchanged_witness :
    World.Reachable sampleIDs sampleRunning ∧
    sampleRunning.inst = some (World.getInstance sampleIDs sampleRunning).1 ∧
    (∃ fly, World.getWaterFly sampleIDs sampleRunning 5000 = (Except.ok fly, sampleRunning)) ∧
    (∃ fly, World.getSunFly sampleIDs sampleRunning 5000 = (Except.ok fly, sampleRunning)) ∧
    (∃ fly, World.getStates sampleIDs sampleRunning 5000 = (Except.ok fly, sampleRunning)) ∧
    (∀ (a0 : Addr) (w0 : World),
      (World.getInstance sampleIDs sampleRunning).1.waterStrategies.content
        = (Inventory.ctor sampleIDs a0 w0).1.waterStrategies.content ∧
      (World.getInstance sampleIDs sampleRunning).1.sunStrategies.content
        = (Inventory.ctor sampleIDs a0 w0).1.sunStrategies.content ∧
      (World.getInstance sampleIDs sampleRunning).1.states.content
        = (Inventory.ctor sampleIDs a0 w0).1.states.content) :=
  ⟨sampleRunning_reachable, by decide,
    (lookups_leave_caches_unchanged sampleIDs).2 sampleRunning
      (World.getInstance sampleIDs sampleRunning).1 5000 sampleRunning_reachable
      (by decide)⟩

/-! ## Destruction -/

/-- C24: in every reachable state with an instance, the destructor runs its statements in
this order: `stopTicker()`, the `delete` of the root group, the `delete` of the four
caches, the `delete` of staff and customers, `instance = NULL`; every statement after
`stopTicker()` starts in a state in which the running flag is clear, no driver thread is
left and `TickerThread` is null; and the destructor ends with the flag clear and the
instance slot empty, which is the state `World.destroy` gives. -/
theorem destructor_stops_driver_first (ids : TierIDs) (w : World)
    (hr : World.Reachable ids w) (inv : Inventory) (hw : w.inst = some inv) :
    (World.dtorTrace w).map Prod.fst
      = [DtorStep.stopTicker, DtorStep.deleteInventory, DtorStep.deleteStringFactory,
         DtorStep.deleteWaterStrategies, DtorStep.deleteSunStrategies, DtorStep.deleteStates,
         DtorStep.deleteStaff, DtorStep.deleteCustomers, DtorStep.clearInstance] ∧
    (∀ e ∈ World.dtorTrace w, e.1 ≠ DtorStep.stopTicker →
      e.2.onFlag = false ∧ e.2.drivers = [] ∧ e.2.TickerThread = none) ∧
    (World.dtorTrace w).head? = some (DtorStep.stopTicker, w) ∧
    World.dtorFinal w = World.destroy w ∧
    (World.destroy w).onFlag = false ∧ (World.destroy w).inst = none ∧
    (World.destroy w).drivers = [] ∧ (World.destroy w).TickerThread = none := by
  have hs := reachable_sound ids w hr
  have hstop : (World.stopTicker w).2.onFlag = false ∧ (World.stopTicker w).2.drivers = [] ∧
      (World.stopTicker w).2.TickerThread = none := by
    cases hflag : w.onFlag with
    | true =>
      rw [stopTicker_of_on ids w hs hflag]
      exact ⟨rfl, rfl, rfl⟩
    | false =>
      rw [stopTicker_of_off w hflag]
      have hd := hs.driver
      rw [hflag] at hd
      rcases hd with ⟨_, hth, hdr⟩ | ⟨hc, _⟩
      · exact ⟨hflag, hdr, hth⟩
      · exact Bool.noConfusion hc
  have hdestroy : World.destroy w = { (World.stopTicker w).2 with inst := none } := by
    simp only [World.destroy, hw]
  refine ⟨rfl, ?_, rfl, ?_, ?_, ?_, ?_, ?_⟩
  · intro e he hne
    simp only [World.dtorTrace, List.mem_cons, List.mem_singleton, List.not_mem_nil,
      or_false] at he
    rcases he with he | he | he | he | he | he | he | he | he
    · rw [he] at hne
      exact absurd rfl hne
    all_goals (rw [he]; exact hstop)
  · rw [hdestroy]
    rfl
  · rw [hdestroy]
    exact hstop.1
  · rw [hdestroy]
  · rw [hdestroy]
    exact hstop.2.1
  · rw [hdestroy]
    exact hstop.2.2

/-- Witness for C24: the sample state in which the driver runs. -/
theorem destructor_stops_driver_first_witness :
    World.Reachable sampleIDs sampleRunning ∧
    sampleRunning.inst = some (World.getInstance sampleIDs sampleRunning).1 ∧
    sampleRunning.onFlag = true ∧
    (∀ e ∈ World.dtorTrace sampleRunning, e.1 ≠ DtorStep.stopTicker →
      e.2.onFlag = false ∧ e.2.drivers = [] ∧ e.2.TickerThread = none) ∧
    (World.destroy sampleRunning).onFlag = false ∧ (World.destroy sampleRunning).inst = none :=
  ⟨sampleRunning_reachable, by decide, by decide,
    (destructor_stops_driver_first sampleIDs sampleRunning sampleRunning_reachable
      (World.getInstance sampleIDs sampleRunning).1 (by decide)).2.1,
    (destructor_stops_driver_first sampleIDs sampleRunning sampleRunning_reachable
      (World.getInstance sampleIDs sampleRunning).1 (by decide)).2.2.2.2.1,
    (destructor_stops_driver_first sampleIDs sampleRunning sampleRunning_reachable
      (World.getInstance sampleIDs sampleRunning).1 (by decide)).2.2.2.2.2.1⟩

/-- C29: in every reachable state, after the inventory is destroyed the instance slot is
empty, and the next `getInstance()` runs the constructor: the running flag is clear, no
thread object and no driver thread exist, the string cache and the staff and customer lists
of the new inventory are empty, and its strategy and state caches hold what every run of
the constructor puts there, whatever the state before. -/
theorem getInstance_after_destroy_is_fresh (ids : TierIDs) (w : World)
    (hr : World.Reachable ids w) :
    (World.destroy w).inst = none ∧
    (World.getInstance ids (World.destroy w)).1
      = (Inventory.ctor ids (World.destroy w).heap.alloc.1
          { World.destroy w with heap := (World.destroy w).heap.alloc.2 }).1 ∧
    (World.getInstance ids (World.destroy w)).2.inst
      = some (World.getInstance ids (World.destroy w)).1 ∧
    (World.getInstance ids (World.destroy w)).2.onFlag = false ∧
    (World.getInstance ids (World.destroy w)).2.TickerThread = none ∧
    (World.getInstance ids (World.destroy w)).2.drivers = [] ∧
    (World.getInstance ids (World.destroy w)).1.stringFactory.cache = [] ∧
    (World.getInstance ids (World.destroy w)).1.staffList = [] ∧
    (World.getInstance ids (World.destroy w)).1.customerList = [] ∧
    (∀ (a0 : Addr) (w0 : World),
      (World.getInstance ids (World.destroy w)).1.waterStrategies.content
        = (Inventory.ctor ids a0 w0).1.waterStrategies.content ∧
      (World.getInstance ids (World.destroy w)).1.sunStrategies.content
        = (Inventory.ctor ids a0 w0).1.sunStrategies.content ∧
      (World.getInstance ids (World.destroy w)).1.states.content
        = (Inventory.ctor ids a0 w0).1.states.content) := by
  have hs := reachable_sound ids w hr
  have hd := destroy_sound ids w hs
  have hnone : (World.destroy w).inst = none := by
    unfold World.destroy
    cases hw : w.inst with
    | none => exact hw
    | some inv => rfl
  obtain ⟨hg, hflag, hth, hdr⟩ := getInstance_sound ids _ hd
  have hoff : (World.destroy w).onFlag = false := hd.stopped hnone
  have hshape := getInstance_of_none ids _ hnone
  have hinv : (World.getInstance ids (World.destroy w)).1
      = (Inventory.ctor ids (World.destroy w).heap.alloc.1
          { World.destroy w with heap := (World.destroy w).heap.alloc.2 }).1 := by
    rw [hshape]
  have hdriver := hd.driver
  rw [hoff] at hdriver
  rcases hdriver with ⟨_, hth0, hdr0⟩ | ⟨hc, _⟩
  · refine ⟨hnone, hinv, getInstance_inst ids _, hflag.trans hoff, hth.trans hth0,
      hdr.trans hdr0, ?_, ?_, ?_, ?_⟩
    · rw [hinv]; rfl
    · rw [hinv]; rfl
    · rw [hinv]; rfl
    · intro a0 w0
      rw [hinv]
      exact ctor_content ids _ a0 _ w0
  · exact Bool.noConfusion hc

/-- Witness for C29: the sample state in which the driver runs and a string is cached. -/
theorem getInstance_after_destroy_is_fresh_witness :
    World.Reachable sampleIDs sampleRunning ∧
    (World.getInstance sampleIDs sampleRunning).1.stringFactory.cache ≠ [] ∧
    sampleRunning.onFlag = true ∧
    (World.destroy sampleRunning).inst = none ∧
    (World.getInstance sampleIDs (World.destroy sampleRunning)).2.onFlag = false ∧
    (World.getInstance sampleIDs (World.destroy sampleRunning)).1.stringFactory.cache = [] :=
  ⟨sampleRunning_reachable, by decide, by decide,
    (getInstance_after_destroy_is_fresh sampleIDs sampleRunning sampleRunning_reachable).1,
    (getInstance_after_destroy_is_fresh sampleIDs sampleRunning
      sampleRunning_reachable).2.2.2.1,
    (getInstance_after_destroy_is_fresh sampleIDs sampleRunning
      sampleRunning_reachable).2.2.2.2.2.2.1⟩

/-! ## The driver handle -/

/-- C30: in every reachable state in which the running flag is set, `TickerThread` points
to a joinable thread object, so `stopTicker` takes neither the path that deletes the
object without clearing the pointer nor the one without a thread object; after
`stopTicker` the pointer is null; a clear flag comes with a null pointer, so no stale
handle exists; and every `startTicker` that returns true launches a driver. -/
theorem stopTicker_never_leaves_stale_handle (ids : TierIDs) (w : World)
    (hr : World.Reachable ids w) :
    (w.onFlag = true →
      ∃ a : Addr, w.TickerThread = some { addr := a, joinable := true }) ∧
    w.stopTickerBranch ≠ StopBranch.deletedOnly ∧
    w.stopTickerBranch ≠ StopBranch.noHandle ∧
    (World.stopTicker w).2.TickerThread = none ∧
    (w.onFlag = false → w.TickerThread = none) ∧
    ((World.startTicker ids w).1 = true →
      ∃ a : Addr, (World.startTicker ids w).2.drivers = [a] ∧ w.drivers = [] ∧
        (World.startTicker ids w).2.TickerThread = some { addr := a, joinable := true }) ∧
    ((World.startTicker ids (World.stopTicker w).2).1 = true ∧
      ∃ a : Addr, (World.startTicker ids (World.stopTicker w).2).2.drivers = [a]) := by
  have hs := reachable_sound ids w hr
  have hstop := stopTicker_sound ids w hs
  have hd := hs.driver
  cases hflag : w.onFlag with
  | true =>
    rw [hflag] at hd
    rcases hd with ⟨hc, _⟩ | ⟨_, a, hth, hdr⟩
    · exact Bool.noConfusion hc
    · have hoff' : (World.stopTicker w).2.onFlag = false := by
        rw [stopTicker_of_on ids w hs hflag]
      refine ⟨fun _ => ⟨a, hth⟩, ?_, ?_, ?_, fun hc => Bool.noConfusion hc, ?_, ?_⟩
      · simp [World.stopTickerBranch, hflag, hth]
      · simp [World.stopTickerBranch, hflag, hth]
      · rw [stopTicker_of_on ids w hs hflag]
      · intro hc
        rw [startTicker_of_on ids w hs hflag] at hc
        exact Bool.noConfusion hc
      · rw [startTicker_of_off ids _ hstop hoff']
        exact ⟨rfl, _, rfl⟩
  | false =>
    rw [hflag] at hd
    rcases hd with ⟨_, hth, hdr⟩ | ⟨hc, _⟩
    · have hoff' : (World.stopTicker w).2.onFlag = false := by
        rw [stopTicker_of_off w hflag]
        exact hflag
      refine ⟨fun hc => Bool.noConfusion hc, ?_, ?_, ?_, fun _ => hth, ?_, ?_⟩
      · simp [World.stopTickerBranch, hflag]
      · simp [World.stopTickerBranch, hflag]
      · rw [stopTicker_of_off w hflag]
        exact hth
      · intro _
        rw [startTicker_of_off ids w hs hflag]
        exact ⟨_, rfl, hdr, rfl⟩
      · rw [startTicker_of_off ids _ hstop hoff']
        exact ⟨rfl, _, rfl⟩
    · exact Bool.noConfusion hc

/-- Witness for C30: the sample state in which the driver runs. -/
theorem stopTicker_never_leaves_stale_handle_witness :
    World.Reachable sampleIDs sampleRunning ∧ sampleRunning.onFlag = true ∧
    (∃ a : Addr, sampleRunning.TickerThread = some { addr := a, joinable := true }) ∧
    sampleRunning.stopTickerBranch = StopBranch.joined :=
  ⟨sampleRunning_reachable, by decide,
    (stopTicker_never_leaves_stale_handle sampleIDs sampleRunning
      sampleRunning_reachable).1 (by decide),
    by decide⟩

/-! ## Two callers of startTicker -/

/-- A caller that runs its five steps without another caller in between does what
`startTicker` does. -/
theorem startTickerSolo_eq (ids : TierIDs) (w : World) :
    World.startTickerSolo ids 5 (StartPc.atEntry, w)
      = (StartPc.returned (World.startTicker ids w).1, (World.startTicker ids w).2) := by
  cases hflag : (World.getInstance ids w).2.onFlag <;>
    cases hth : (World.getInstance ids w).2.TickerThread <;>
    simp [World.startTickerSolo, World.startTickerStep, World.startTicker, hflag, hth]

/-- C25 (failing input): two threads call `startTicker` while the driver is stopped; under
the schedule in which both read the flag before either sets it, both calls return true,
and two driver threads are launched. -/
theorem two_callers_both_start :
    sampleCallers.world.onFlag = false ∧
    (TwoCallers.run sampleIDs sampleCallers sampleSchedule).first = StartPc.returned true ∧
    (TwoCallers.run sampleIDs sampleCallers sampleSchedule).second = StartPc.returned true ∧
    (TwoCallers.run sampleIDs sampleCallers sampleSchedule).world.drivers.length = 2 := by
  decide

/-! ## Age and affect values -/

section AgeLemmas

theorem setWaterStrategy_age (ids : TierIDs) (p q : LivingPlant) (w : World) (id : Int)
    (h : (p.setWaterStrategy ids w id).1 = Except.ok q) : q.age = p.age := by
  unfold LivingPlant.setWaterStrategy at h
  cases hr : (World.getWaterFly ids w id).1 with
  | error e => simp only [hr] at h; exact Except.noConfusion h
  | ok fly =>
    simp only [hr] at h
    rw [← Except.ok.inj h]

theorem setSunStrategy_age (ids : TierIDs) (p q : LivingPlant) (w : World) (id : Int)
    (h : (p.setSunStrategy ids w id).1 = Except.ok q) : q.age = p.age := by
  unfold LivingPlant.setSunStrategy at h
  cases hr : (World.getSunFly ids w id).1 with
  | error e => simp only [hr] at h; exact Except.noConfusion h
  | ok fly =>
    simp only [hr] at h
    rw [← Except.ok.inj h]

theorem setMaturity_age (ids : TierIDs) (p q : LivingPlant) (w : World) (id : Int)
    (h : (p.setMaturity ids w id).1 = Except.ok q) : q.age = p.age := by
  unfold LivingPlant.setMaturity at h
  cases hr : (World.getStates ids w id).1 with
  | error e => simp only [hr] at h; exact Except.noConfusion h
  | ok fly =>
    simp only [hr] at h
    rw [← Except.ok.inj h]

/-- An operation on the levels leaves the age as it is, except `tick`, which adds a day. -/
theorem plantOp_age (b : Behaviour) (hgrow : b.GrowAges) (p q : LivingPlant) (op : PlantOp)
    (h : PlantOp.apply b p op = some q) :
    (op ≠ PlantOp.tick → q.age = p.age) ∧ (op = PlantOp.tick → q.age = p.age + 1) := by
  cases op with
  | setWaterLevel n =>
    simp only [PlantOp.apply, Option.some.injEq] at h
    subst h
    exact ⟨fun _ => rfl, fun hc => PlantOp.noConfusion hc⟩
  | setSunExposure n =>
    simp only [PlantOp.apply, Option.some.injEq] at h
    subst h
    exact ⟨fun _ => rfl, fun hc => PlantOp.noConfusion hc⟩
  | water =>
    refine ⟨fun _ => ?_, fun hc => PlantOp.noConfusion hc⟩
    simp only [PlantOp.apply, LivingPlant.water] at h
    cases hstrat : p.waterStrategy with
    | none =>
      simp only [hstrat, Option.some.injEq] at h
      subst h
      rfl
    | some fly =>
      cases hstate : fly.getState with
      | none => simp only [hstrat, hstate] at h; exact Option.noConfusion h
      | some strategy =>
        simp only [hstrat, hstate, Option.some.injEq] at h
        subst h
        rfl
  | setOutside =>
    refine ⟨fun _ => ?_, fun hc => PlantOp.noConfusion hc⟩
    simp only [PlantOp.apply, LivingPlant.setOutside] at h
    cases hstrat : p.sunStrategy with
    | none =>
      simp only [hstrat, Option.some.injEq] at h
      subst h
      rfl
    | some fly =>
      cases hstate : fly.getState with
      | none => simp only [hstrat, hstate] at h; exact Option.noConfusion h
      | some strategy =>
        simp only [hstrat, hstate, Option.some.injEq] at h
        subst h
        rfl
  | update =>
    refine ⟨fun _ => ?_, fun hc => PlantOp.noConfusion hc⟩
    simp only [PlantOp.apply, Option.some.injEq] at h
    subst h
    unfold LivingPlant.update
    cases p.decorator <;> rfl
  | tick =>
    refine ⟨fun hc => absurd rfl hc, fun _ => ?_⟩
    simp only [PlantOp.apply, LivingPlant.tick] at h
    cases hm : p.maturityState with
    | none => simp only [hm] at h; exact Option.noConfusion h
    | some fly =>
      cases hstate : fly.getState with
      | none => simp only [hm, hstate] at h; exact Option.noConfusion h
      | some state =>
        simp only [hm, hstate, Option.some.injEq] at h
        subst h
        exact hgrow state p

/-- A call that is not a lowering `setAge` does not lower the age. -/
theorem entityOp_age (ids : TierIDs) (b : Behaviour) (hgrow : b.GrowAges) (p : LivingPlant)
    (w : World) (op : EntityOp) (r : LivingPlant × World)
    (hk : EntityOp.keepsAge p op = true) (h : EntityOp.apply ids b p w op = some r) :
    p.age ≤ r.1.age := by
  cases op with
  | setAge age =>
    simp only [EntityOp.apply, Option.some.injEq] at h
    subst h
    exact of_decide_eq_true hk
  | setHealth health =>
    simp only [EntityOp.apply, Option.some.injEq] at h
    subst h
    exact Int.le_refl _
  | setSeason season =>
    simp only [EntityOp.apply, Option.some.injEq] at h
    subst h
    exact Int.le_refl _
  | setWaterStrategy strategy =>
    simp only [EntityOp.apply] at h
    cases hr : (p.setWaterStrategy ids w strategy).1 with
    | error e => simp only [hr] at h; exact Option.noConfusion h
    | ok q =>
      simp only [hr, Option.some.injEq] at h
      subst h
      exact Int.le_of_eq (setWaterStrategy_age ids p q w strategy hr).symm
  | setSunStrategy strategy =>
    simp only [EntityOp.apply] at h
    cases hr : (p.setSunStrategy ids w strategy).1 with
    | error e => simp only [hr] at h; exact Option.noConfusion h
    | ok q =>
      simp only [hr, Option.some.injEq] at h
      subst h
      exact Int.le_of_eq (setSunStrategy_age ids p q w strategy hr).symm
  | setMaturity state =>
    simp only [EntityOp.apply] at h
    cases hr : (p.setMaturity ids w state).1 with
    | error e => simp only [hr] at h; exact Option.noConfusion h
    | ok q =>
      simp only [hr, Option.some.injEq] at h
      subst h
      exact Int.le_of_eq (setMaturity_age ids p q w state hr).symm
  | correctShape mainDecorator =>
    simp only [EntityOp.apply, Option.some.injEq] at h
    subst h
    exact Int.le_refl _
  | level op =>
    simp only [EntityOp.apply] at h
    cases hr : PlantOp.apply b p op with
    | none => simp only [hr] at h; exact Option.noConfusion h
    | some q =>
      simp only [hr, Option.some.injEq] at h
      subst h
      obtain ⟨h1, h2⟩ := plantOp_age b hgrow p q op hr
      by_cases ht : op = PlantOp.tick
      · show p.age ≤ q.age
        rw [h2 ht]
        exact Int.le_add_of_nonneg_right (by decide)
      · exact Int.le_of_eq (h1 ht).symm

theorem entityRun_age (ids : TierIDs) (b : Behaviour) (hgrow : b.GrowAges)
    (ops : List EntityOp) (p : LivingPlant) (w : World) (r : LivingPlant × World)
    (hk : EntityOp.keepsAgeRun ids b p w ops = true)
    (h : EntityOp.runOps ids b p w ops = some r) : p.age ≤ r.1.age := by
  induction ops generalizing p w with
  | nil =>
    simp only [EntityOp.runOps, Option.some.injEq] at h
    subst h
    exact Int.le_refl _
  | cons op rest ih =>
    simp only [EntityOp.runOps] at h
    simp only [EntityOp.keepsAgeRun, Bool.and_eq_true] at hk
    cases hstep : EntityOp.apply ids b p w op with
    | none => simp only [hstep] at h; exact Option.noConfusion h
    | some r1 =>
      simp only [hstep] at h hk
      exact Int.le_trans (entityOp_age ids b hgrow p w op r1 hk.1 hstep)
        (ih r1.1 r1.2 hk.2 h)

theorem sampleBehaviour_growAges : sampleBehaviour.GrowAges := by
  intro s q
  rfl

end AgeLemmas

/-- Counterexample to C23: `setAge(0)` on the sample entity, whose age is 3, leaves it at
age 0. -/
theorem setAge_lowers_age :
    samplePlant.age = 3 ∧
    (EntityOp.apply sampleIDs sampleBehaviour samplePlant sampleStopped
      (EntityOp.setAge 0)).map (fun r => r.1.age) = some 0 := by
  decide

/-- C23 (amended): `setAge` stores the age it is given, whatever the age was; every other
member function that writes to the entity leaves the age at least as large as it was, the
growth states adding a day per `grow` call as the spec has them: `tick()` adds exactly one
day and the other calls leave the age unchanged; so along every sequence of calls in which
no `setAge` is given an age below the current one, the age never decreases. -/
theorem age_never_decreases_without_setAge (ids : TierIDs) (b : Behaviour)
    (hgrow : b.GrowAges) :
    (∀ (p : LivingPlant) (age : Int), (p.setAge age).age = age) ∧
    (∀ (p q : LivingPlant), p.tick b = some q → q.age = p.age + 1) ∧
    (∀ (p : LivingPlant) (w : World) (op : EntityOp) (r : LivingPlant × World),
      EntityOp.keepsAge p op = true → EntityOp.apply ids b p w op = some r →
      p.age ≤ r.1.age) ∧
    (∀ (p : LivingPlant) (w : World) (ops : List EntityOp) (r : LivingPlant × World),
      EntityOp.keepsAgeRun ids b p w ops = true → EntityOp.runOps ids b p w ops = some r →
      p.age ≤ r.1.age) := by
  refine ⟨fun _ _ => rfl, ?_, ?_, ?_⟩
  · intro p q h
    exact (plantOp_age b hgrow p q PlantOp.tick h).2 rfl
  · intro p w op r hk h
    exact entityOp_age ids b hgrow p w op r hk h
  · intro p w ops r hk h
    exact entityRun_age ids b hgrow ops p w r hk h

/-- Witness for C23 (amended): the sample entity, given a strategy, watered, ticked, set
to a later age and updated, in the sample state. -/
theorem age_never_decreases_without_setAge_witness :
    sampleBehaviour.GrowAges ∧
    EntityOp.keepsAgeRun sampleIDs sampleBehaviour samplePlant sampleStopped
      [EntityOp.setWaterStrategy 2, EntityOp.level PlantOp.water, EntityOp.level PlantOp.tick,
        EntityOp.setAge 9, EntityOp.level PlantOp.update] = true ∧
    (EntityOp.runOps sampleIDs sampleBehaviour samplePlant sampleStopped
      [EntityOp.setWaterStrategy 2, EntityOp.level PlantOp.water, EntityOp.level PlantOp.tick,
        EntityOp.setAge 9, EntityOp.level PlantOp.update]).isSome = true ∧
    ∀ r : LivingPlant × World,
      EntityOp.runOps sampleIDs sampleBehaviour samplePlant sampleStopped
        [EntityOp.setWaterStrategy 2, EntityOp.level PlantOp.water,
          EntityOp.level PlantOp.tick, EntityOp.setAge 9, EntityOp.level PlantOp.update]
        = some r →
      samplePlant.age ≤ r.1.age :=
  ⟨sampleBehaviour_growAges, by decide, by decide,
    fun r hr =>
      (age_never_decreases_without_setAge sampleIDs sampleBehaviour
        sampleBehaviour_growAges).2.2.2 samplePlant sampleStopped
        [EntityOp.setWaterStrategy 2, EntityOp.level PlantOp.water,
          EntityOp.level PlantOp.tick, EntityOp.setAge 9, EntityOp.level PlantOp.update]
        r (by decide) hr⟩

/-- C26 (failing input): the sample entity has a modifier chain whose `affectWater()` and
`affectSunlight()` return 8 and 6, the values that include the decorators, and its own
`affectWater()` and `affectSunlight()` return the base values 5 and 5. -/
theorem affect_accessors_ignore_chain :
    samplePlant.decorator.map (fun d => (d.affectWater, d.affectSunlight)) = some (8, 6) ∧
    samplePlant.affectWater = 5 ∧ samplePlant.affectSunlight = 5 := by
  decide

/-- What the accessors of the code return: `affectWater()` and `affectSunlight()` of an
entity return its own base values `affectWaterValue` and `affectSunValue`, whether or not a
modifier chain is attached, and attaching a chain does not change what they return; the
values that include the decorators are those the attached chain returns, which is what
`update()` subtracts. -/
theorem affect_accessors_return_base_values (p : LivingPlant) :
    p.affectWater = p.affectWaterValue ∧ p.affectSunlight = p.affectSunValue ∧
    (∀ d : Option ModifierChain,
      (p.correctShape d).affectWater = p.affectWater ∧
      (p.correctShape d).affectSunlight = p.affectSunlight) ∧
    (∀ d : ModifierChain, p.decorator = some d →
      p.effectiveWater = d.affectWater ∧ p.effectiveSun = d.affectSunlight ∧
      p.update.waterLevel = p.waterLevel - d.affectWater ∧
      p.update.sunExposure = p.sunExposure - d.affectSunlight) := by
  refine ⟨rfl, rfl, fun _ => ⟨rfl, rfl⟩, ?_⟩
  intro d hd
  refine ⟨?_, ?_, ?_, ?_⟩
  · simp only [LivingPlant.effectiveWater, hd]
  · simp only [LivingPlant.effectiveSun, hd]
  · simp only [LivingPlant.update, hd]
  · simp only [LivingPlant.update, hd]

/-- The accessors on the sample entity and its modifier chain. -/
theorem affect_accessors_return_base_values_witness :
    samplePlant.decorator
      = some { addr := 2, getPrice := 175, affectWater := 8, affectSunlight := 6 } ∧
    samplePlant.affectWater = samplePlant.affectWaterValue ∧
    samplePlant.effectiveWater = 8 ∧ samplePlant.effectiveSun = 6 :=
  ⟨rfl, (affect_accessors_return_base_values samplePlant).1,
    ((affect_accessors_return_base_values samplePlant).2.2.2
      { addr := 2, getPrice := 175, affectWater := 8, affectSunlight := 6 } rfl).1,
    ((affect_accessors_return_base_values samplePlant).2.2.2
      { addr := 2, getPrice := 175, affectWater := 8, affectSunlight := 6 } rfl).2.1⟩

end Photosyntech
